import Mathlib

/-!
# las_zero / slas: point record codec

A shallow embedding of `slas_read_point_data`, `slas_update_point_data` and
`slas_read_waveform_data` (src/slas.cpp) and of the record loop of `las_zero`
(src/las_zero.cpp), together with the byte store they work on, followed by
the properties established about them.

Modelling conventions.

* Bytes, machine integers and bit patterns are natural numbers; a byte of the
  store is a number below 256 (`FILE.wf`).
* `memcpy` between the record buffer and an integer object is little-endian
  (the host of the original program is an x86 machine); `swap_short`,
  `swap_int`, `swap_float` and `swap_double` reverse the bytes of the object.
* `double` and `float` objects that are only copied (`gps_time`, `Xt`, ...) are
  kept as their bit patterns.  The scaled coordinates are computed through
  the parameter `FloatArith`, which stands for the host floating point unit;
  `ieeeArith` is the unit of an x86-64 host, the arithmetic of IEEE 754 on
  bit patterns (round to nearest, ties to even, no fused multiply-add).
* The `FILE` carries a fault schedule, so that every `fseeko64`, `fread` and
  `fwrite` can fail, and a log of the calls issued on it.
* A result of `none` stands for undefined behaviour of the C program: a
  header whose record length exceeds the 128 byte stack buffer.
-/

namespace Slas

/-! ## Bytes and integer objects -/

/-- Value of an integer object whose bytes, lowest address first, are `bs`. -/
def leVal : List Nat → Nat
  | [] => 0
  | b :: bs => b + 256 * leVal bs

/-- The `n` bytes that represent the value `v`, lowest address first. -/
def leBytes : Nat → Nat → List Nat
  | 0, _ => []
  | n + 1, v => (v % 256) :: leBytes n (v / 256)

/-- The `n` bytes of `data` starting at index `pos` (source of a `memcpy`). -/
def bytesAt (data : List Nat) (pos n : Nat) : List Nat :=
  (List.range n).map (fun k => data.getD (pos + k) 0)

/-- Overwrite `data` from index `pos` on with `src` (target of a `memcpy`). -/
def putBytes : List Nat → Nat → List Nat → List Nat
  | data, _, [] => data
  | data, pos, b :: bs => putBytes (data.set pos b) (pos + 1) bs

/-- Two's complement reading of a `w` bit pattern. -/
def toSigned (w : Nat) (v : Nat) : Int :=
  if v % 2 ^ w < 2 ^ (w - 1) then (v % 2 ^ w : Nat) else ((v % 2 ^ w : Nat) : Int) - 2 ^ w

/-- Conversion of an integer to `int64_t` (wraps modulo 2^64). -/
def toInt64 (n : Int) : Int := (n + 2 ^ 63) % 2 ^ 64 - 2 ^ 63

/-- Reverse the bytes of an `n` byte object holding `v`. -/
def byteSwap (n v : Nat) : Nat := leVal (leBytes n v).reverse

/-- Modelled from the spec: `swap_short` of the nvutility library, which is not
part of the sources; it byte-swaps a 16 bit object in place. -/
def swap_short (v : Nat) : Nat := byteSwap 2 v

/-- Modelled from the spec: `swap_int` of the nvutility library, which is not
part of the sources; it byte-swaps a 32 bit object in place. -/
def swap_int (v : Nat) : Nat := byteSwap 4 v

/-- Modelled from the spec: `swap_float` of the nvutility library, which is not
part of the sources; it byte-swaps a 32 bit object in place. -/
def swap_float (v : Nat) : Nat := byteSwap 4 v

/-- Modelled from the spec: `swap_double` of the nvutility library, which is not
part of the sources; it byte-swaps a 64 bit object in place. -/
def swap_double (v : Nat) : Nat := byteSwap 8 v

/-! ## Data model (src/slas.hpp) -/

/-- The record `SLAS_POINT_DATA` of src/slas.hpp, lines 52-83.  `x`, `y`, `z`,
`gps_time`, `return_point_waveform_location`, `Xt`, `Yt`, `Zt` hold the bit
pattern of the floating point object. -/
structure SLAS_POINT_DATA where
  x : Nat
  y : Nat
  z : Nat
  intensity : Nat
  return_number : Nat
  number_of_returns : Nat
  scanner_channel : Nat
  scan_direction_flag : Nat
  edge_of_flightline : Nat
  classification : Nat
  user_data : Nat
  scan_angle : Int
  point_source_id : Nat
  gps_time : Nat
  red : Nat
  green : Nat
  blue : Nat
  NIR : Nat
  wavepacket_descriptor_index : Nat
  byte_offset_to_waveform_data : Nat
  waveform_packet_size : Nat
  return_point_waveform_location : Nat
  Xt : Nat
  Yt : Nat
  Zt : Nat
  withheld : Nat
  keypoint : Nat
  synthetic : Nat
  overlap : Nat
deriving DecidableEq

/-- The record after `memset (record, 0, sizeof (SLAS_POINT_DATA))`. -/
def SLAS_POINT_DATA.zero : SLAS_POINT_DATA :=
  { x := 0, y := 0, z := 0, intensity := 0, return_number := 0, number_of_returns := 0,
    scanner_channel := 0, scan_direction_flag := 0, edge_of_flightline := 0,
    classification := 0, user_data := 0, scan_angle := 0, point_source_id := 0,
    gps_time := 0, red := 0, green := 0, blue := 0, NIR := 0,
    wavepacket_descriptor_index := 0, byte_offset_to_waveform_data := 0,
    waveform_packet_size := 0, return_point_waveform_location := 0,
    Xt := 0, Yt := 0, Zt := 0, withheld := 0, keypoint := 0, synthetic := 0, overlap := 0 }

/-- Every field of the record lies in the range of its C type. -/
def SLAS_POINT_DATA.wf (r : SLAS_POINT_DATA) : Prop :=
  r.intensity < 65536 ∧ r.return_number < 256 ∧ r.number_of_returns < 256 ∧
  r.scanner_channel < 256 ∧ r.scan_direction_flag < 256 ∧ r.edge_of_flightline < 256 ∧
  r.classification < 256 ∧ r.user_data < 256 ∧ r.point_source_id < 65536 ∧
  r.red < 65536 ∧ r.green < 65536 ∧ r.blue < 65536 ∧ r.NIR < 65536 ∧
  r.withheld < 256 ∧ r.keypoint < 256 ∧ r.synthetic < 256 ∧ r.overlap < 256

instance (r : SLAS_POINT_DATA) : Decidable r.wf := by
  unfold SLAS_POINT_DATA.wf; infer_instance

/-- Modelled from the spec: the fields of `LASheader` (declared in the LAStools
header lasreader.hpp, which is not part of the sources) that the codec reads.
The scale factors and offsets hold the bit pattern of a `double`. -/
structure LASheader where
  version_minor : Nat
  number_of_point_records : Nat
  extended_number_of_point_records : Nat
  offset_to_point_data : Nat
  point_data_record_length : Nat
  point_data_format : Nat
  x_scale_factor : Nat
  y_scale_factor : Nat
  z_scale_factor : Nat
  x_offset : Nat
  y_offset : Nat
  z_offset : Nat
  start_of_waveform_data_packet_record : Nat
deriving DecidableEq

/-- The floating point unit of the host: `scale64 v s o` is the bit pattern of
the `double` `((double) v * s) + o`, and `scale32 v s o` that of the same
value converted to `float`. -/
structure FloatArith where
  scale64 : Int → Nat → Nat → Nat
  scale32 : Int → Nat → Nat → Nat

/-! ## The byte store -/

/-- A call issued on the store. -/
inductive FileCall where
  | seek (addr : Int)
  | read (size : Nat)
  | write (bytes : List Nat)
deriving DecidableEq

/-- The open file behind a `FILE *`: its bytes, the file position, the fault
schedule (the next call fails when the head of `faults` is `true`, or, once the
schedule is used up, when `faultDefault` is `true`) and the calls issued so
far, latest first. -/
structure FILE where
  content : List Nat
  pos : Nat
  faults : List Bool
  faultDefault : Bool
  log : List FileCall
deriving DecidableEq

/-- Every byte of the store is a byte. -/
def FILE.wf (fp : FILE) : Prop := ∀ b ∈ fp.content, b < 256

instance (fp : FILE) : Decidable fp.wf := by
  unfold FILE.wf; infer_instance

/-- Does the next call on the store fail? -/
def FILE.nextFault (fp : FILE) : Bool := fp.faults.headD fp.faultDefault

/-- The store after one more call has been issued on it. -/
def FILE.issue (fp : FILE) (c : FileCall) : FILE :=
  { fp with faults := fp.faults.tail, log := c :: fp.log }

/-- The call `fseeko64 (fp, addr, SEEK_SET)`: result (0 or -1) and the store. -/
def fseeko64 (fp : FILE) (addr : Int) : Int × FILE :=
  let fp1 := fp.issue (.seek addr)
  if fp.nextFault || decide (addr < 0) then (-1, fp1)
  else (0, { fp1 with pos := addr.toNat })

/-- The call `fread (data, size, 1, fp)`: number of items read (0 or 1), the
buffer and the store.  No item is read when `size` is 0, when the call
fails, or when fewer than `size` bytes are left. -/
def fread (data : List Nat) (size : Nat) (fp : FILE) : Nat × List Nat × FILE :=
  let fp1 := fp.issue (.read size)
  if size = 0 then (0, data, fp1)
  else if fp.nextFault then (0, data, fp1)
  else
    let got := (fp.content.drop fp.pos).take size
    let data1 := got ++ data.drop got.length
    if got.length < size then (0, data1, { fp1 with pos := fp.pos + got.length })
    else (1, data1, { fp1 with pos := fp.pos + size })

/-- The call `fwrite (data, size, 1, fp)`: number of items written (0 or 1)
and the store.  A write past the end of the file extends it. -/
def fwrite (data : List Nat) (size : Nat) (fp : FILE) : Nat × FILE :=
  let fp1 := fp.issue (.write (data.take size))
  if size = 0 then (0, fp1)
  else if fp.nextFault then (0, fp1)
  else
    let before := fp.content.take fp.pos ++ List.replicate (fp.pos - fp.content.length) 0
    (1, { fp1 with content := before ++ data.take size ++ fp.content.drop (fp.pos + size),
                   pos := fp.pos + size })

/-! ## slas_read_point_data (src/slas.cpp, lines 70-357) -/

/-- The buffer `uint8_t data[128]` after `memset (data, 0, 128)`. -/
def zeroed_buffer : List Nat := List.replicate 128 0

/-- The bounds check of lines 79-104 and 471-496: is `recnum` out of range? -/
def out_of_bounds (lasheader : LASheader) (recnum : Nat) : Bool :=
  if lasheader.version_minor < 4 then decide (recnum ≥ lasheader.number_of_point_records)
  else decide (recnum ≥ lasheader.extended_number_of_point_records)

/-- The record address of lines 107 and 501, computed in `int64_t`. -/
def record_addr (lasheader : LASheader) (recnum : Nat) : Int :=
  toInt64 (toInt64 lasheader.offset_to_point_data +
    toInt64 (toInt64 lasheader.point_data_record_length * toInt64 recnum))

/-- Copy of `gps_time` out of the buffer, `pos += 8`. -/
def get_gps_time (data : List Nat) (pos : Nat) (record : SLAS_POINT_DATA) :
    SLAS_POINT_DATA × Nat :=
  ({ record with gps_time := leVal (bytesAt data pos 8) }, pos + 8)

/-- Copy of `red`, `green`, `blue` out of the buffer, `pos += 2` after each. -/
def get_rgb (data : List Nat) (pos : Nat) (record : SLAS_POINT_DATA) :
    SLAS_POINT_DATA × Nat :=
  ({ record with red := leVal (bytesAt data pos 2),
                 green := leVal (bytesAt data (pos + 2) 2),
                 blue := leVal (bytesAt data (pos + 2 + 2) 2) }, pos + 2 + 2 + 2)

/-- Copy of `NIR` out of the buffer, `pos += 2`. -/
def get_nir (data : List Nat) (pos : Nat) (record : SLAS_POINT_DATA) :
    SLAS_POINT_DATA × Nat :=
  ({ record with NIR := leVal (bytesAt data pos 2) }, pos + 2)

/-- Copy of the seven waveform fields out of the buffer. -/
def get_wave (data : List Nat) (pos : Nat) (record : SLAS_POINT_DATA) :
    SLAS_POINT_DATA × Nat :=
  ({ record with
      wavepacket_descriptor_index := leVal (bytesAt data pos 1),
      byte_offset_to_waveform_data := leVal (bytesAt data (pos + 1) 8),
      waveform_packet_size := leVal (bytesAt data (pos + 1 + 8) 4),
      return_point_waveform_location := leVal (bytesAt data (pos + 1 + 8 + 4) 4),
      Xt := leVal (bytesAt data (pos + 1 + 8 + 4 + 4) 4),
      Yt := leVal (bytesAt data (pos + 1 + 8 + 4 + 4 + 4) 4),
      Zt := leVal (bytesAt data (pos + 1 + 8 + 4 + 4 + 4 + 4) 4) },
   pos + 1 + 8 + 4 + 4 + 4 + 4 + 4)

/-- The locals `x`, `y`, `z`, `rets`, `cls` of `slas_read_point_data` together
with the record being filled. -/
structure ReadState where
  x : Nat
  y : Nat
  z : Nat
  rets : Nat
  cls : Nat
  record : SLAS_POINT_DATA
deriving DecidableEq

/-- Lines 160-229: the `switch` that copies the optional block out of the
buffer, starting at `pos`. -/
def read_optional (data : List Nat) (point_data_format : Nat) (pos : Nat)
    (record : SLAS_POINT_DATA) : SLAS_POINT_DATA × Nat :=
  match point_data_format with
  | 1 | 6 => get_gps_time data pos record
  | 2 => get_rgb data pos record
  | 3 | 7 =>
    let rp := get_gps_time data pos record
    get_rgb data rp.2 rp.1
  | 4 | 9 =>
    let rp := get_gps_time data pos record
    get_wave data rp.2 rp.1
  | 5 =>
    let rp := get_gps_time data pos record
    let rp := get_rgb data rp.2 rp.1
    get_wave data rp.2 rp.1
  | 8 =>
    let rp := get_gps_time data pos record
    let rp := get_rgb data rp.2 rp.1
    get_nir data rp.2 rp.1
  | 10 =>
    let rp := get_gps_time data pos record
    let rp := get_rgb data rp.2 rp.1
    let rp := get_nir data rp.2 rp.1
    get_wave data rp.2 rp.1
  | _ => (record, pos)

/-- Lines 134-229: get the data out of the buffer.  `record` is the zeroed
record; a one byte copy into the 16 bit `scan_angle` leaves its high byte 0. -/
def read_fields (data : List Nat) (point_data_format : Nat) (record : SLAS_POINT_DATA) :
    ReadState :=
  let pos := 0
  let x := leVal (bytesAt data pos 4)
  let pos := pos + 4
  let y := leVal (bytesAt data pos 4)
  let pos := pos + 4
  let z := leVal (bytesAt data pos 4)
  let pos := pos + 4
  let record := { record with intensity := leVal (bytesAt data pos 2) }
  let pos := pos + 2
  let rets := leVal (bytesAt data pos 1)
  let pos := pos + 1
  let cls := leVal (bytesAt data pos 1)
  let pos := pos + 1
  let rp : SLAS_POINT_DATA × Nat :=
    if point_data_format > 5 then
      ({ record with classification := leVal (bytesAt data pos 1),
                     user_data := leVal (bytesAt data (pos + 1) 1),
                     scan_angle := toSigned 16 (leVal (bytesAt data (pos + 1 + 1) 2)) },
       pos + 1 + 1 + 2)
    else
      ({ record with scan_angle := toSigned 16 (leVal (bytesAt data pos 1 ++ [0])),
                     user_data := leVal (bytesAt data (pos + 1) 1) },
       pos + 1 + 1)
  let record := rp.1
  let pos := rp.2
  let record := { record with point_source_id := leVal (bytesAt data pos 2) }
  let pos := pos + 2
  let rp := read_optional data point_data_format pos record
  { x := x, y := y, z := z, rets := rets, cls := cls, record := rp.1 }

/-- The three `swap_short` calls on `red`, `green`, `blue`. -/
def swap_rgb (record : SLAS_POINT_DATA) : SLAS_POINT_DATA :=
  { record with red := swap_short record.red, green := swap_short record.green,
                blue := swap_short record.blue }

/-- The swaps of the waveform fields (lines 266-271); the one byte
`wavepacket_descriptor_index` is not swapped. -/
def swap_wave (record : SLAS_POINT_DATA) : SLAS_POINT_DATA :=
  { record with
      byte_offset_to_waveform_data := swap_double record.byte_offset_to_waveform_data,
      waveform_packet_size := swap_int record.waveform_packet_size,
      return_point_waveform_location := swap_float record.return_point_waveform_location,
      Xt := swap_float record.Xt, Yt := swap_float record.Yt, Zt := swap_float record.Zt }

/-- The `swap_double` call on `gps_time`. -/
def swap_gps_time (record : SLAS_POINT_DATA) : SLAS_POINT_DATA :=
  { record with gps_time := swap_double record.gps_time }

/-- The `swap_short` call on `NIR`. -/
def swap_nir (record : SLAS_POINT_DATA) : SLAS_POINT_DATA :=
  { record with NIR := swap_short record.NIR }

/-- Lines 242-308: the `switch` that swaps the optional fields. -/
def swap_optional (point_data_format : Nat) (record : SLAS_POINT_DATA) : SLAS_POINT_DATA :=
  match point_data_format with
  | 1 | 6 => swap_gps_time record
  | 2 => swap_rgb record
  | 3 | 7 => swap_rgb (swap_gps_time record)
  | 4 | 9 => swap_wave (swap_gps_time record)
  | 5 => swap_wave (swap_rgb (swap_gps_time record))
  | 8 => swap_nir (swap_rgb (swap_gps_time record))
  | 10 => swap_wave (swap_nir (swap_rgb (swap_gps_time record)))
  | _ => record

/-- Lines 234-309: swap the fields of the record when `swap` is set. -/
def swap_fields (swap : Nat) (point_data_format : Nat) (s : ReadState) : ReadState :=
  if swap ≠ 0 then
    let x := swap_int s.x
    let y := swap_int s.y
    let z := swap_int s.z
    let record := { s.record with intensity := swap_short s.record.intensity }
    let record := { record with point_source_id := swap_short record.point_source_id }
    let record := swap_optional point_data_format record
    { s with x := x, y := y, z := z, record := record }
  else s

/-- Lines 314-353: scale the coordinates and break out the bit fields. -/
def decode_fields (fa : FloatArith) (lasheader : LASheader) (s : ReadState) :
    SLAS_POINT_DATA :=
  let rets := s.rets
  let cls := s.cls
  let record := { s.record with
    x := fa.scale64 (toSigned 32 s.x) lasheader.x_scale_factor lasheader.x_offset,
    y := fa.scale64 (toSigned 32 s.y) lasheader.y_scale_factor lasheader.y_offset,
    z := fa.scale32 (toSigned 32 s.z) lasheader.z_scale_factor lasheader.z_offset }
  if lasheader.point_data_format > 5 then
    let record := { record with
      return_number := rets &&& 0x0f,
      number_of_returns := (rets &&& 0xf0) >>> 4,
      scanner_channel := (cls &&& 0x30) >>> 4,
      scan_direction_flag := (cls &&& 0x40) >>> 6,
      edge_of_flightline := (cls &&& 0x80) >>> 7 }
    let new_cls := cls &&& 0x0f
    { record with
      overlap := (new_cls &&& 0x10) >>> 4,
      synthetic := (new_cls &&& 0x20) >>> 5,
      keypoint := (new_cls &&& 0x40) >>> 6,
      withheld := (new_cls &&& 0x80) >>> 7 }
  else
    { record with
      return_number := rets &&& 0x07,
      number_of_returns := (rets &&& 0x38) >>> 3,
      scan_direction_flag := (rets &&& 0x40) >>> 6,
      edge_of_flightline := (rets &&& 0x80) >>> 7,
      classification := cls &&& 0x1f,
      synthetic := (cls &&& 0x20) >>> 5,
      keypoint := (cls &&& 0x40) >>> 6,
      withheld := (cls &&& 0x80) >>> 7,
      overlap := 0 }

/-- The function `slas_read_point_data`: the returned code, the store and the
caller record after the call; `none` when the read overruns `data[128]`. -/
def slas_read_point_data (fa : FloatArith) (fp : FILE) (recnum : Nat) (lasheader : LASheader)
    (swap : Nat) (record : SLAS_POINT_DATA) : Option (Int × FILE × SLAS_POINT_DATA) :=
  if out_of_bounds lasheader recnum then some (-1, fp, record)
  else
    let addr := record_addr lasheader recnum
    let (rc, fp) := fseeko64 fp addr
    if rc < 0 then some (-2, fp, record)
    else
      let record := SLAS_POINT_DATA.zero
      let data := zeroed_buffer
      if lasheader.point_data_record_length > 128 then none
      else
        let (n, data, fp) := fread data lasheader.point_data_record_length fp
        if n = 0 then some (-3, fp, record)
        else
          let s := read_fields data lasheader.point_data_format record
          let s := swap_fields swap lasheader.point_data_format s
          some (0, fp, decode_fields fa lasheader s)

/-! ## slas_update_point_data (src/slas.cpp, lines 462-771) -/

/-- Lines 546-642: the new value of the local `cls`, from the byte read at
offset 15 and the caller record; `none` when the function returns -4 at
line 603. -/
def update_cls (point_data_format : Nat) (cls : Nat) (record : SLAS_POINT_DATA) : Option Nat :=
  if point_data_format > 5 then
    let cls := if record.synthetic ≠ 0 then cls ||| 0x01 else cls &&& 0xfe
    let cls := if record.keypoint ≠ 0 then cls ||| 0x02 else cls &&& 0xfd
    let cls := if record.withheld ≠ 0 then cls ||| 0x04 else cls &&& 0xfb
    let cls := if record.overlap ≠ 0 then cls ||| 0x08 else cls &&& 0xf7
    some cls
  else
    if record.classification > 31 then none
    else
      let cls := record.classification
      let cls := if record.synthetic ≠ 0 then cls ||| 0x20 else cls &&& 0xdf
      let cls := if record.keypoint ≠ 0 then cls ||| 0x40 else cls &&& 0xbf
      let cls := if record.withheld ≠ 0 then cls ||| 0x80 else cls &&& 0x7f
      some cls

/-- The colour overlay of cases 2, 3, 5 and 7: swap the caller's `red`,
`green`, `blue` in place when `swap` is set, then copy them into the buffer. -/
def put_rgb (swap : Nat) (data : List Nat) (pos : Nat) (record : SLAS_POINT_DATA) :
    List Nat × SLAS_POINT_DATA :=
  let record := if swap ≠ 0 then swap_rgb record else record
  let data := putBytes data pos (leBytes 2 record.red)
  let pos := pos + 2
  let data := putBytes data pos (leBytes 2 record.green)
  let pos := pos + 2
  let data := putBytes data pos (leBytes 2 record.blue)
  (data, record)

/-- The colour overlay of cases 8 and 10: as `put_rgb`, with `NIR` as the
fourth field. -/
def put_rgb_nir (swap : Nat) (data : List Nat) (pos : Nat) (record : SLAS_POINT_DATA) :
    List Nat × SLAS_POINT_DATA :=
  let record := if swap ≠ 0 then swap_nir (swap_rgb record) else record
  let data := putBytes data pos (leBytes 2 record.red)
  let pos := pos + 2
  let data := putBytes data pos (leBytes 2 record.green)
  let pos := pos + 2
  let data := putBytes data pos (leBytes 2 record.blue)
  let pos := pos + 2
  let data := putBytes data pos (leBytes 2 record.NIR)
  (data, record)

/-- Lines 667-747: the `switch` that overlays the colours, the optional block
starting at `pos`. -/
def put_optional (data : List Nat) (point_data_format : Nat) (swap : Nat) (pos : Nat)
    (record : SLAS_POINT_DATA) : List Nat × SLAS_POINT_DATA :=
  match point_data_format with
  | 1 | 6 => (data, record)
  | 2 => put_rgb swap data pos record
  | 3 | 7 => put_rgb swap data (pos + 8) record
  | 4 | 9 => (data, record)
  | 5 => put_rgb swap data (pos + 8) record
  | 8 => put_rgb_nir swap data (pos + 8) record
  | 10 => put_rgb_nir swap data (pos + 8) record
  | _ => (data, record)

/-- Lines 525-747: overlay the modifiable fields on the buffer.  The result is
the buffer and the caller record, or `none` when the function returns -4. -/
def update_fields (data : List Nat) (point_data_format : Nat) (swap : Nat)
    (record : SLAS_POINT_DATA) : Option (List Nat × SLAS_POINT_DATA) :=
  let pos := 0
  let pos := pos + 4
  let pos := pos + 4
  let pos := pos + 4
  let pos := pos + 2
  let pos := pos + 1
  let cls := leVal (bytesAt data pos 1)
  match update_cls point_data_format cls record with
  | none => none
  | some cls =>
    let data := data.set pos cls
    let pos := pos + 1
    let dp : List Nat × Nat :=
      if point_data_format > 5 then
        (((data.set pos record.classification).set (pos + 1) record.user_data), pos + 1 + 1 + 2)
      else
        (data.set (pos + 1) record.user_data, pos + 1 + 1)
    let data := dp.1
    let pos := dp.2
    let pos := pos + 2
    some (put_optional data point_data_format swap pos record)

/-- The function `slas_update_point_data`: the returned code, the store and
the caller record after the call; `none` when the read overruns `data[128]`. -/
def slas_update_point_data (fp : FILE) (recnum : Nat) (lasheader : LASheader)
    (swap : Nat) (record : SLAS_POINT_DATA) : Option (Int × FILE × SLAS_POINT_DATA) :=
  if out_of_bounds lasheader recnum then some (-1, fp, record)
  else
    let addr := record_addr lasheader recnum
    let (rc, fp) := fseeko64 fp addr
    if rc < 0 then some (-2, fp, record)
    else
      let data := zeroed_buffer
      if lasheader.point_data_record_length > 128 then none
      else
        let (n, data, fp) := fread data lasheader.point_data_record_length fp
        if n = 0 then some (-3, fp, record)
        else
          match update_fields data lasheader.point_data_format swap record with
          | none => some (-4, fp, record)
          | some (data, record) =>
            let (rc, fp) := fseeko64 fp addr
            if rc < 0 then some (-5, fp, record)
            else
              let (n, fp) := fwrite data lasheader.point_data_record_length fp
              if n = 0 then some (-6, fp, record)
              else some (0, fp, record)

/-! ## Test fixtures -/

/-- A store with the bytes `bs`, no fault scheduled and nothing logged. -/
def mkFile (bs : List Nat) : FILE :=
  { content := bs, pos := 0, faults := [], faultDefault := false, log := [] }

/-- A header of LAS 1.2 style: `n` records of `len` bytes in format `fmt`,
starting at offset `off`. -/
def mkHeader (fmt len n off : Nat) : LASheader :=
  { version_minor := 2, number_of_point_records := n, extended_number_of_point_records := 0,
    offset_to_point_data := off, point_data_record_length := len, point_data_format := fmt,
    x_scale_factor := 0, y_scale_factor := 0, z_scale_factor := 0,
    x_offset := 0, y_offset := 0, z_offset := 0,
    start_of_waveform_data_packet_record := 0 }

/-- A floating point unit that returns the raw integer (scale 1, offset 0),
as the 64 resp. 32 bit two's complement pattern. -/
def rawArith : FloatArith :=
  { scale64 := fun v _ _ => (v % 2 ^ 64).toNat, scale32 := fun v _ _ => (v % 2 ^ 32).toNat }

/-! ## Auxiliary definitions for the statements -/

/-- The buffer `data[128]` after a successful `fread` of the `len` bytes at
address `a` of a store with bytes `content`. -/
def record_buffer (content : List Nat) (a len : Nat) : List Nat :=
  (content.drop a).take len ++ zeroed_buffer.drop len

/-- The bytes of the store after `len` bytes of `data` have been written at
address `a`. -/
def written (content : List Nat) (a len : Nat) (data : List Nat) : List Nat :=
  content.take a ++ List.replicate (a - content.length) 0 ++ data.take len ++
    content.drop (a + len)

/-- The record that `slas_read_point_data` builds from the buffer `data`. -/
def decoded (fa : FloatArith) (lasheader : LASheader) (swap : Nat) (data : List Nat) :
    SLAS_POINT_DATA :=
  decode_fields fa lasheader
    (swap_fields swap lasheader.point_data_format
      (read_fields data lasheader.point_data_format SLAS_POINT_DATA.zero))

/-- The byte at offset `k` of record `recnum` of the store.  The record is
`point_data_record_length` bytes long; an offset beyond it is read from the
zeroed part of the buffer, not from the store. -/
def record_byte (fp : FILE) (lasheader : LASheader) (recnum k : Nat) : Nat :=
  if k < lasheader.point_data_record_length then
    fp.content.getD ((record_addr lasheader recnum).toNat + k) 0
  else 0

/-! ## Record layout, as read off `slas_read_point_data` and `slas_update_point_data` -/

/-- The number of bytes of a record that `slas_read_point_data` parses: the
value of `pos` after the `switch` of lines 160-229. -/
def layout_size (point_data_format : Nat) : Nat :=
  (read_optional [] point_data_format (if point_data_format > 5 then 22 else 20)
    SLAS_POINT_DATA.zero).2

/-- The record offsets of the colour fields (`red`, `green`, `blue`, and `NIR`
for formats 8 and 10) that `slas_update_point_data` overlays. -/
def colour_offsets (point_data_format : Nat) : List Nat :=
  match point_data_format with
  | 2 => [20, 21, 22, 23, 24, 25]
  | 3 | 5 => [28, 29, 30, 31, 32, 33]
  | 7 => [30, 31, 32, 33, 34, 35]
  | 8 | 10 => [30, 31, 32, 33, 34, 35, 36, 37]
  | _ => []

/-- The record offsets that `slas_update_point_data` overlays: the flags byte
at 15, `user_data` at 17, the classification byte at 16 for formats above 5,
and the colour fields. -/
def modifiable_offsets (point_data_format : Nat) : List Nat :=
  (if point_data_format > 5 then [15, 16, 17] else [15, 17]) ++ colour_offsets point_data_format

/-- Does offset `j` of a record hold a non-modifiable field?  These are x, y,
z, intensity and the returns byte (0-14), the scan angle and the point source
id, `gps_time`, the waveform linkage block, and the bytes past the layout. -/
def holds_nonmodifiable (point_data_format j : Nat) : Bool :=
  decide (j < 15)
  || (if point_data_format > 5 then decide (18 ≤ j ∧ j < 22)
      else decide (j = 16) || decide (18 ≤ j ∧ j < 20))
  || (decide (point_data_format ∈ [1, 3, 4, 5]) && decide (20 ≤ j ∧ j < 28))
  || (decide (point_data_format ∈ [6, 7, 8, 9, 10]) && decide (22 ≤ j ∧ j < 30))
  || (decide (point_data_format = 4) && decide (28 ≤ j ∧ j < 57))
  || (decide (point_data_format = 5) && decide (34 ≤ j ∧ j < 63))
  || (decide (point_data_format = 9) && decide (30 ≤ j ∧ j < 59))
  || (decide (point_data_format = 10) && decide (38 ≤ j ∧ j < 67))
  || decide (layout_size point_data_format ≤ j)

/-- The caller records `r1` and `r2` agree on every modifiable field. -/
def same_modifiable (r1 r2 : SLAS_POINT_DATA) : Prop :=
  r1.classification = r2.classification ∧ r1.user_data = r2.user_data ∧
  r1.red = r2.red ∧ r1.green = r2.green ∧ r1.blue = r2.blue ∧ r1.NIR = r2.NIR ∧
  r1.withheld = r2.withheld ∧ r1.keypoint = r2.keypoint ∧
  r1.synthetic = r2.synthetic ∧ r1.overlap = r2.overlap

instance (r1 r2 : SLAS_POINT_DATA) : Decidable (same_modifiable r1 r2) := by
  unfold same_modifiable; infer_instance

/-- The record `r` with every non-modifiable field set to 0. -/
def modifiable_part (r : SLAS_POINT_DATA) : SLAS_POINT_DATA :=
  { SLAS_POINT_DATA.zero with
    classification := r.classification, user_data := r.user_data,
    red := r.red, green := r.green, blue := r.blue, NIR := r.NIR,
    withheld := r.withheld, keypoint := r.keypoint,
    synthetic := r.synthetic, overlap := r.overlap }

/-- The code and the record that a call returns, without the store. -/
def outcome (res : Option (Int × FILE × SLAS_POINT_DATA)) : Option (Int × SLAS_POINT_DATA) :=
  res.map (fun q => (q.1, q.2.2))

/-- The code and the store that a call returns, without the caller record. -/
def effect (res : Option (Int × FILE × SLAS_POINT_DATA)) : Option (Int × FILE) :=
  res.map (fun q => (q.1, q.2.1))

/-- The record offset of `red` in the formats that carry colour. -/
def colour_pos (point_data_format : Nat) : Nat :=
  if point_data_format = 2 then 20
  else if point_data_format = 3 ∨ point_data_format = 5 then 28
  else 30

/-- The four bytes in front of the point data in the test stores. -/
def lead_bytes : List Nat := [76, 65, 83, 70]

/-- A record of format 3 (34 bytes): returns byte 0x51, classification byte
0x27, colours 0x1122, 0x3344, 0x5566. -/
def legacy_rec0 : List Nat :=
  [1, 0, 0, 0, 2, 0, 0, 0, 3, 0, 0, 0, 16, 32, 0x51, 0x27, 10, 9, 0x34, 0x12,
   1, 2, 3, 4, 5, 6, 7, 8, 0x22, 0x11, 0x44, 0x33, 0x66, 0x55]

/-- A record of format 3 (34 bytes): returns byte 0xD5, classification byte
0xA7 (classification 7, synthetic and withheld set), scan angle byte 0xF6. -/
def legacy_rec1 : List Nat :=
  [0xFF, 0xFF, 0xFF, 0xFF, 7, 1, 0, 0, 0x10, 0x27, 0, 0, 0xCD, 0xAB, 0xD5, 0xA7, 0xF6, 200,
   0x78, 0x56, 8, 7, 6, 5, 4, 3, 2, 1, 0xBB, 0xAA, 0xDD, 0xCC, 0xFF, 0xEE]

/-- A store with two records of format 3 behind four leading bytes. -/
def legacy_file : FILE := mkFile (lead_bytes ++ legacy_rec0 ++ legacy_rec1)

/-- The header of `legacy_file`. -/
def legacy_header : LASheader := mkHeader 3 34 2 4

/-- A record of format 8 (38 bytes): returns byte 0x21, flags byte 0x54
(scanner channel 1, scan direction 1, withheld bit 0x04 set), classification
byte 200. -/
def ext_rec1 : List Nat :=
  [1, 2, 3, 4, 5, 6, 7, 8, 9, 10, 11, 12, 13, 14, 0x21, 0x54, 200, 9, 1, 2, 3, 4,
   1, 2, 3, 4, 5, 6, 7, 8, 0x22, 0x11, 0x44, 0x33, 0x66, 0x55, 0x88, 0x77]

/-- A record of format 8 (38 bytes) of zero bytes apart from the flags byte. -/
def ext_rec0 : List Nat := (List.replicate 38 0).set 15 0x0F

/-- A store with two records of format 8 behind four leading bytes. -/
def ext_file : FILE := mkFile (lead_bytes ++ ext_rec0 ++ ext_rec1)

/-- The header of `ext_file`, of LAS 1.4 style: the record count is the
extended one. -/
def ext_header : LASheader :=
  { mkHeader 8 38 0 4 with version_minor := 4, extended_number_of_point_records := 2 }

/-- A store on which every seek, read and write fails. -/
def failing_file : FILE :=
  { content := lead_bytes ++ legacy_rec0 ++ legacy_rec1, pos := 0, faults := [],
    faultDefault := true, log := [] }

/-- The store `legacy_file` after record 1 has been read. -/
def legacy_after_read : FILE :=
  { legacy_file with pos := 72, log := [.read 34, .seek 38] }

/-- Record 1 of `legacy_file` as decoded without swap under `rawArith`. -/
def legacy_decoded : SLAS_POINT_DATA :=
  { SLAS_POINT_DATA.zero with
    x := 18446744073709551615, y := 263, z := 10000, intensity := 43981,
    return_number := 5, number_of_returns := 2, scan_direction_flag := 1,
    edge_of_flightline := 1, classification := 7, user_data := 200, scan_angle := 246,
    point_source_id := 22136, gps_time := 72623859790382856,
    red := 43707, green := 52445, blue := 61183, withheld := 1, synthetic := 1 }

/-- A caller record for `legacy_file`: new values in every modifiable field,
and values in the non-modifiable fields that differ from the stored ones. -/
def legacy_new_record : SLAS_POINT_DATA :=
  { legacy_decoded with
    x := 5, intensity := 1, return_number := 0, scan_angle := 3, gps_time := 0,
    classification := 9, user_data := 77, red := 0x0102, green := 0x0304, blue := 0x0506,
    withheld := 0, keypoint := 1 }

/-- Record 1 of `legacy_file` after `legacy_new_record` has been encoded. -/
def legacy_rec1_updated : List Nat :=
  [0xFF, 0xFF, 0xFF, 0xFF, 7, 1, 0, 0, 0x10, 0x27, 0, 0, 0xCD, 0xAB, 0xD5, 0x69, 0xF6, 77,
   0x78, 0x56, 8, 7, 6, 5, 4, 3, 2, 1, 0x02, 0x01, 0x04, 0x03, 0x06, 0x05]

/-- The store `legacy_file` after `legacy_new_record` has been encoded at
record 1. -/
def legacy_after_update : FILE :=
  { legacy_file with
    content := lead_bytes ++ legacy_rec0 ++ legacy_rec1_updated, pos := 72,
    log := [.write legacy_rec1_updated, .seek 38, .read 34, .seek 38] }

/-- The store `ext_file` after record 1 has been read. -/
def ext_after_read : FILE :=
  { ext_file with pos := 80, log := [.read 38, .seek 42] }

/-- Record 1 of `ext_file` as decoded without swap under `rawArith`. -/
def ext_decoded : SLAS_POINT_DATA :=
  { SLAS_POINT_DATA.zero with
    x := 67305985, y := 134678021, z := 202050057, intensity := 3597,
    return_number := 1, number_of_returns := 2, scanner_channel := 1,
    scan_direction_flag := 1, classification := 200, user_data := 9, scan_angle := 513,
    point_source_id := 1027, gps_time := 578437695752307201,
    red := 4386, green := 13124, blue := 21862, NIR := 30600 }

/-- A caller record for `ext_file` with new values in the modifiable fields. -/
def ext_new_record : SLAS_POINT_DATA :=
  { ext_decoded with
    classification := 201, user_data := 7, red := 0x1234, green := 0x5678, blue := 0x9ABC,
    NIR := 0xDEF0, withheld := 1 }

/-- Record 1 of `ext_file` after `ext_new_record` has been encoded with swap
set. -/
def ext_rec1_updated : List Nat :=
  [1, 2, 3, 4, 5, 6, 7, 8, 9, 10, 11, 12, 13, 14, 0x21, 0x54, 201, 7, 1, 2, 3, 4,
   1, 2, 3, 4, 5, 6, 7, 8, 0x12, 0x34, 0x56, 0x78, 0x9A, 0xBC, 0xDE, 0xF0]

/-- The store `ext_file` after `ext_new_record` has been encoded at record 1
with swap set. -/
def ext_after_update : FILE :=
  { ext_file with
    content := lead_bytes ++ ext_rec0 ++ ext_rec1_updated, pos := 80,
    log := [.write ext_rec1_updated, .seek 42, .read 38, .seek 42] }

/-- A store with one 16 byte record, and its header: format 0, whose layout
is 20 bytes long. -/
def short_file : FILE := mkFile [1, 0, 0, 0, 2, 0, 0, 0, 3, 0, 0, 0, 4, 0, 0x09, 0x02]

/-- The header of `short_file`. -/
def short_header : LASheader := mkHeader 0 16 1 0

/-- A caller record with `user_data = 5`. -/
def short_record : SLAS_POINT_DATA :=
  { SLAS_POINT_DATA.zero with classification := 2, user_data := 5 }

/-- The store `short_file` after `short_record` has been encoded at record 0:
byte 15 holds the classification, `user_data` lies beyond the record. -/
def short_after_update : FILE :=
  { short_file with
    content := [1, 0, 0, 0, 2, 0, 0, 0, 3, 0, 0, 0, 4, 0, 0x09, 0x02], pos := 16,
    log := [.write [1, 0, 0, 0, 2, 0, 0, 0, 3, 0, 0, 0, 4, 0, 0x09, 0x02], .seek 0,
            .read 16, .seek 0] }

/-- The store `short_after_update` after record 0 has been read. -/
def short_after_reread : FILE :=
  { short_after_update with log := .read 16 :: .seek 0 :: short_after_update.log }

/-- Record 0 of `short_after_update` as decoded without swap under `rawArith`. -/
def short_redecoded : SLAS_POINT_DATA :=
  { SLAS_POINT_DATA.zero with
    x := 1, y := 2, z := 3, intensity := 4, return_number := 1, number_of_returns := 1,
    classification := 2 }

/-- Decode record `recnum` and, when that returns 0, encode the decoded record
unmodified at `recnum`. -/
def decode_then_encode (fa : FloatArith) (fp : FILE) (recnum : Nat) (lasheader : LASheader)
    (swap : Nat) : Option (Int × FILE × SLAS_POINT_DATA) :=
  (slas_read_point_data fa fp recnum lasheader swap SLAS_POINT_DATA.zero).bind fun q =>
    if q.1 = 0 then slas_update_point_data q.2.1 recnum lasheader swap q.2.2 else none

/-- Decode record `recnum` to `r`, set only `r.withheld = 1`, encode it at
`recnum`, decode `recnum` again to `r2`; the result is `(r, r2)` when the three
calls return 0. -/
def withheld_run (fa : FloatArith) (fp : FILE) (recnum : Nat) (lasheader : LASheader)
    (swap : Nat) : Option (SLAS_POINT_DATA × SLAS_POINT_DATA) :=
  (slas_read_point_data fa fp recnum lasheader swap SLAS_POINT_DATA.zero).bind fun q1 =>
    if q1.1 ≠ 0 then none else
    (slas_update_point_data q1.2.1 recnum lasheader swap { q1.2.2 with withheld := 1 }).bind
      fun q2 =>
      if q2.1 ≠ 0 then none else
      (slas_read_point_data fa q2.2.1 recnum lasheader swap SLAS_POINT_DATA.zero).bind fun q3 =>
        if q3.1 ≠ 0 then none else some (q1.2.2, q3.2.2)

/-- The `n` bytes of record `recnum` starting at record offset `pos`. -/
def record_bytes (fp : FILE) (lasheader : LASheader) (recnum pos n : Nat) : List Nat :=
  (List.range n).map (fun k => record_byte fp lasheader recnum (pos + k))

/-- The value `v` of an `n` byte object, byte-reversed when `swap` is set. -/
def cond_swap (swap n v : Nat) : Nat := if swap ≠ 0 then byteSwap n v else v

/-- Formats whose records carry `gps_time`. -/
def has_gps_time (point_data_format : Nat) : Bool :=
  decide (point_data_format ∈ [1, 3, 4, 5, 6, 7, 8, 9, 10])

/-- Formats whose records carry `red`, `green`, `blue`. -/
def has_rgb (point_data_format : Nat) : Bool :=
  decide (point_data_format ∈ [2, 3, 5, 7, 8, 10])

/-- Formats whose records carry `NIR`. -/
def has_nir (point_data_format : Nat) : Bool := decide (point_data_format ∈ [8, 10])

/-- Formats whose records carry the waveform block. -/
def has_wave (point_data_format : Nat) : Bool := decide (point_data_format ∈ [4, 5, 9, 10])

/-- The record offset right after `point_source_id`. -/
def optional_start (point_data_format : Nat) : Nat := if point_data_format > 5 then 22 else 20

/-- The record offset of the colour block: after `gps_time` when present. -/
def rgb_pos (point_data_format : Nat) : Nat :=
  optional_start point_data_format + (if has_gps_time point_data_format then 8 else 0)

/-- The record offset of `NIR`: after the colour block when present. -/
def nir_pos (point_data_format : Nat) : Nat :=
  rgb_pos point_data_format + (if has_rgb point_data_format then 6 else 0)

/-- The record offset of the waveform block: after `NIR` when present. -/
def wave_pos (point_data_format : Nat) : Nat :=
  nir_pos point_data_format + (if has_nir point_data_format then 2 else 0)

/-- The locals and the record of `slas_read_point_data` after the swap step
(line 309), for the buffer `data`. -/
def read_state (lasheader : LASheader) (swap : Nat) (data : List Nat) : ReadState :=
  swap_fields swap lasheader.point_data_format
    (read_fields data lasheader.point_data_format SLAS_POINT_DATA.zero)

/-- The record after the two `switch` statements of decode (lines 160-229 and
242-308) have run on the record `r`, the optional block starting at
`optional_start`. -/
def optional_decoded (data : List Nat) (point_data_format swap : Nat) (r : SLAS_POINT_DATA) :
    SLAS_POINT_DATA :=
  if swap ≠ 0 then
    swap_optional point_data_format
      (read_optional data point_data_format (optional_start point_data_format) r).1
  else (read_optional data point_data_format (optional_start point_data_format) r).1

/-- The twelve optional fields of two records agree. -/
def same_optional (r1 r2 : SLAS_POINT_DATA) : Prop :=
  r1.gps_time = r2.gps_time ∧ r1.red = r2.red ∧ r1.green = r2.green ∧ r1.blue = r2.blue ∧
  r1.NIR = r2.NIR ∧ r1.wavepacket_descriptor_index = r2.wavepacket_descriptor_index ∧
  r1.byte_offset_to_waveform_data = r2.byte_offset_to_waveform_data ∧
  r1.waveform_packet_size = r2.waveform_packet_size ∧
  r1.return_point_waveform_location = r2.return_point_waveform_location ∧
  r1.Xt = r2.Xt ∧ r1.Yt = r2.Yt ∧ r1.Zt = r2.Zt

/-- The raw x, y, z integers of record `recnum` that decode scales: the signed
32 bit values of the locals `x`, `y`, `z` after the swap step. -/
def raw_xyz (fp : FILE) (lasheader : LASheader) (recnum swap : Nat) : Int × Int × Int :=
  let s := read_state lasheader swap
    (record_buffer fp.content (record_addr lasheader recnum).toNat
      lasheader.point_data_record_length)
  (toSigned 32 s.x, toSigned 32 s.y, toSigned 32 s.z)

/-- The legacy fixture record 1 decoded with swap set under `rawArith`. -/
def legacy_decoded_swapped : SLAS_POINT_DATA :=
  { legacy_decoded with
    y := 117506048, z := 270991360, intensity := 52651, point_source_id := 30806,
    gps_time := 578437695752307201, red := 48042, green := 56780, blue := 65518 }

/-- The first seek of `slas_update_point_data` (line 504). -/
def enc_seek1 (fp : FILE) (lasheader : LASheader) (recnum : Nat) : Int × FILE :=
  fseeko64 fp (record_addr lasheader recnum)

/-- The read of `slas_update_point_data` (line 517), after the first seek. -/
def enc_read (fp : FILE) (lasheader : LASheader) (recnum : Nat) : Nat × List Nat × FILE :=
  fread zeroed_buffer lasheader.point_data_record_length (enc_seek1 fp lasheader recnum).2

/-- The overlay of `slas_update_point_data` (lines 525-747) on the buffer read. -/
def enc_fields (fp : FILE) (lasheader : LASheader) (recnum swap : Nat)
    (record : SLAS_POINT_DATA) : Option (List Nat × SLAS_POINT_DATA) :=
  update_fields (enc_read fp lasheader recnum).2.1 lasheader.point_data_format swap record

/-- The second seek of `slas_update_point_data` (line 752), after the read. -/
def enc_seek2 (fp : FILE) (lasheader : LASheader) (recnum : Nat) : Int × FILE :=
  fseeko64 (enc_read fp lasheader recnum).2.2 (record_addr lasheader recnum)

/-- The write of `slas_update_point_data` (line 762), of the overlaid buffer
`data`, after the second seek. -/
def enc_write (fp : FILE) (lasheader : LASheader) (recnum : Nat) (data : List Nat) :
    Nat × FILE :=
  fwrite data lasheader.point_data_record_length (enc_seek2 fp lasheader recnum).2

/-- The code of the first step that fails, of steps given in order as
(fails, code); 0 when no step fails. -/
def first_failure : List (Bool × Int) → Int
  | [] => 0
  | (fails, code) :: rest => if fails then code else first_failure rest

/-- The number of bytes that a read issued on the store can deliver from the
file position: none when the call fails, else the bytes up to the end. -/
def bytes_readable (fp : FILE) : Nat :=
  if fp.nextFault then 0 else fp.content.length - fp.pos

/-- A header whose records are 0 bytes long: one record of format 0. -/
def empty_header : LASheader := mkHeader 0 0 1 0

/-! ## slas_read_waveform_data (src/slas.cpp, lines 387-433) -/

/-- The record `SLAS_WAVEFORM_PACKET_DESCRIPTOR` of src/slas.hpp, lines 86-95;
the two `double` fields hold the bit pattern. -/
structure SLAS_WAVEFORM_PACKET_DESCRIPTOR where
  index : Int
  bits_per_sample : Nat
  compression_type : Nat
  number_of_samples : Nat
  temporal_spacing : Nat
  digitizer_gain : Nat
  digitizer_offset : Nat
deriving DecidableEq

/-- Bit `j` of `buffer` read as one bit stream, the most significant bit of
each byte first. -/
def stream_bit (buffer : List Nat) (j : Nat) : Nat :=
  (buffer.getD (j / 8) 0 / 2 ^ (7 - j % 8)) % 2

/-- The bits `first .. first + width - 1` of the stream, in stream order. -/
def stream_bits (buffer : List Nat) (first width : Nat) : List Nat :=
  (List.range width).map (fun t => stream_bit buffer (first + t))

/-- The unsigned integer whose binary digits, most significant first, are
`bits`. -/
def bits_value (bits : List Nat) : Nat := bits.foldl (fun acc b => 2 * acc + b) 0

/-- Modelled from the spec: `bit_unpack` of the nvutility library, which is not
part of the sources.  It returns, as a `uint32_t`, the unsigned integer formed
by the `numbits` bits of `buffer` from bit `start` on, the buffer being read
as one bit stream with the most significant bit of each byte first. -/
def bit_unpack (buffer : List Nat) (start numbits : Nat) : Nat :=
  bits_value (stream_bits buffer start numbits) % 2 ^ 32

/-- The loop of lines 422-426: `count` iterations from bit position `pos`, each
storing one sample and advancing `pos` by `size`.  The result lists the
values stored in `wave[0]`, `wave[1]`, ... -/
def unpack_loop (wave_data : List Nat) (size : Nat) : Nat → Nat → List Nat
  | 0, _ => []
  | count + 1, pos => bit_unpack wave_data pos size :: unpack_loop wave_data size count (pos + size)

/-- The address of the waveform packet of `record`: the 64-bit sum
`lasheader.start_of_waveform_data_packet_record +
record->byte_offset_to_waveform_data`, passed to `fseeko64` as a signed
offset (line 400). -/
def wave_addr (lasheader : LASheader) (record : SLAS_POINT_DATA) : Int :=
  toInt64 ((lasheader.start_of_waveform_data_packet_record +
    record.byte_offset_to_waveform_data) % 2 ^ 64 : Nat)

/-- The function `slas_read_waveform_data`: the returned code, the store and
the samples stored in `wave`, in order.  `count` is an `int32_t`: the loop
runs `count` times when `count` is positive and not at all otherwise.  The
result is `none`, undefined behaviour, when the record's descriptor index
lies beyond `wf_packet_desc` or the loop would read past the packet. -/
def slas_read_waveform_data (fp : FILE) (lasheader : LASheader) (record : SLAS_POINT_DATA)
    (wf_packet_desc : List SLAS_WAVEFORM_PACKET_DESCRIPTOR) :
    Option (Int × FILE × List Nat) :=
  let (rc, fp) := fseeko64 fp (wave_addr lasheader record)
  if rc < 0 then some (-1, fp, [])
  else
    let wave_data := List.replicate record.waveform_packet_size 0
    let (n, wave_data, fp) := fread wave_data record.waveform_packet_size fp
    if n = 0 then some (-2, fp, [])
    else
      let ndx := record.wavepacket_descriptor_index
      match wf_packet_desc[ndx]? with
      | none => none
      | some desc =>
        let count := toSigned 32 desc.number_of_samples
        let size := desc.bits_per_sample
        if count.toNat * size > 8 * wave_data.length then none
        else some (0, fp, unpack_loop wave_data size count.toNat 0)

/-- The bytes of the waveform packet of `record`: the
`waveform_packet_size` bytes of the store at the packet address. -/
def waveform_packet (fp : FILE) (lasheader : LASheader) (record : SLAS_POINT_DATA) : List Nat :=
  (fp.content.drop (wave_addr lasheader record).toNat).take record.waveform_packet_size

/-- A store that holds the waveform packet AB CD EF behind four bytes. -/
def wave_file : FILE := mkFile (lead_bytes ++ [0xAB, 0xCD, 0xEF])

/-- A header whose waveform data packet record starts at offset 4. -/
def wave_header : LASheader :=
  { mkHeader 4 57 1 0 with start_of_waveform_data_packet_record := 4 }

/-- A point record that refers to descriptor 1 and to a packet of 3 bytes at
byte offset 0. -/
def wave_record : SLAS_POINT_DATA :=
  { SLAS_POINT_DATA.zero with
    wavepacket_descriptor_index := 1, byte_offset_to_waveform_data := 0,
    waveform_packet_size := 3 }

/-- A descriptor of `samples` samples of `bits` bits. -/
def mkDescriptor (bits samples : Nat) : SLAS_WAVEFORM_PACKET_DESCRIPTOR :=
  { index := 0, bits_per_sample := bits, compression_type := 0, number_of_samples := samples,
    temporal_spacing := 0, digitizer_gain := 0, digitizer_offset := 0 }

/-- The store `wave_file` after the packet has been read. -/
def wave_after_read : FILE :=
  { wave_file with pos := 7, log := [.read 3, .seek 4] }

/-- A store that holds a waveform packet of 2^28 bytes, every one 0xFF,
behind four bytes. -/
def long_wave_file : FILE := mkFile (lead_bytes ++ List.replicate 268435456 255)

/-- A point record that refers to descriptor 0 and to a packet of 2^28 bytes
at byte offset 0. -/
def long_wave_record : SLAS_POINT_DATA :=
  { SLAS_POINT_DATA.zero with
    wavepacket_descriptor_index := 0, byte_offset_to_waveform_data := 0,
    waveform_packet_size := 268435456 }

/-- A store with two 16 byte records of format 0, whose layout is 20 bytes
long: record 0 is the record of `short_file`, record 1 starts with the bytes
AA BB CC DD. -/
def short_pair_file : FILE :=
  mkFile ([1, 0, 0, 0, 2, 0, 0, 0, 3, 0, 0, 0, 4, 0, 0x09, 0x02] ++
    [0xAA, 0xBB, 0xCC, 0xDD, 5, 0, 0, 0, 6, 0, 0, 0, 7, 0, 0x11, 0x03])

/-- The header of `short_pair_file`. -/
def short_pair_header : LASheader := mkHeader 0 16 2 0

/-- The store `short_pair_file` after record 0 has been read. -/
def short_pair_after_read : FILE :=
  { short_pair_file with pos := 16, log := [.read 16, .seek 0] }

/-- The store `ext_after_update` after `ext_new_record` has been encoded at
record 1 with swap set once more. -/
def ext_after_second_update : FILE :=
  { ext_after_update with
    log := [.write ext_rec1_updated, .seek 42, .read 38, .seek 42] ++ ext_after_update.log }

/-! ## las_zero (src/las_zero.cpp, lines 192-222) -/

/-- The test `slas.z > 0.0` of line 201 on the bit pattern of the `float`
`z` (IEEE 754 binary32): the sign bit is clear, the value is not zero and it is
not a NaN; positive infinity, 0x7F800000, is above zero. -/
def z_above_zero (z : Nat) : Bool := decide (0 < z ∧ z ≤ 0x7F800000)

/-- The record loop of `las_zero::las_zero` (lines 192-222), with `count`
iterations left and `i` the record index: decode record `i`; when its `z` is
above 0.0 set `slas.withheld = 1` and encode the record.  The result is the
exit status (-1 for the two `exit (-1)`, 0 when the loop runs to its end), the
store and the local `slas`; `none` when a call has undefined behaviour. -/
def las_zero_loop (fa : FloatArith) (lasheader : LASheader) (endian : Nat) :
    Nat → Nat → FILE → SLAS_POINT_DATA → Option (Int × FILE × SLAS_POINT_DATA)
  | 0, _, las_fp, slas => some (0, las_fp, slas)
  | count + 1, i, las_fp, slas =>
    match slas_read_point_data fa las_fp i lasheader endian slas with
    | none => none
    | some (rc, las_fp, slas) =>
      if rc ≠ 0 then some (-1, las_fp, slas)
      else if z_above_zero slas.z then
        let slas := { slas with withheld := 1 }
        match slas_update_point_data las_fp i lasheader endian slas with
        | none => none
        | some (rc, las_fp, slas) =>
          if rc ≠ 0 then some (-1, las_fp, slas)
          else las_zero_loop fa lasheader endian count (i + 1) las_fp slas
      else las_zero_loop fa lasheader endian count (i + 1) las_fp slas

/-- The loop over all `lasheader.number_of_point_records` records, from
record 0 on. -/
def las_zero_records (fa : FloatArith) (las_fp : FILE) (lasheader : LASheader) (endian : Nat)
    (slas : SLAS_POINT_DATA) : Option (Int × FILE × SLAS_POINT_DATA) :=
  las_zero_loop fa lasheader endian lasheader.number_of_point_records 0 las_fp slas

/-- The position of the highest set bit of `n` (0 for `n < 2`), by halving at
most `fuel` times. -/
def high_bit : Nat → Nat → Nat
  | 0, _ => 0
  | fuel + 1, n => if n < 2 then 0 else high_bit fuel (n / 2) + 1

/-- The bit pattern of the `float` that holds the integer `v`; exact for
`|v| < 2^24`. -/
def float_of_int (v : Int) : Nat :=
  if v = 0 then 0
  else
    let m := v.natAbs
    let e := high_bit 64 m
    (if v < 0 then 2 ^ 31 else 0) + (127 + e) * 2 ^ 23 + (m * 2 ^ (23 - e)) % 2 ^ 23

/-- The bit pattern of the `double` that holds the integer `v`; exact for
`|v| < 2^53`. -/
def double_of_int (v : Int) : Nat :=
  if v = 0 then 0
  else
    let m := v.natAbs
    let e := high_bit 64 m
    (if v < 0 then 2 ^ 63 else 0) + (1023 + e) * 2 ^ 52 + (m * 2 ^ (52 - e)) % 2 ^ 52

/-- The floating point unit on headers whose scale factors are 1.0 and whose
offsets are 0.0: the scaled value is the raw integer itself, as a `double`
resp. a `float` (raw integers below 2^24 in magnitude). -/
def unitArith : FloatArith :=
  { scale64 := fun v _ _ => double_of_int v, scale32 := fun v _ _ => float_of_int v }

/-- A record of format 6 (30 bytes): z = 5, flags byte 0x5B (scanner channel 1,
scan direction 1, overlap, keypoint and synthetic set, withheld clear). -/
def zero_rec0 : List Nat :=
  [1, 0, 0, 0, 2, 0, 0, 0, 5, 0, 0, 0, 4, 0, 0x11, 0x5B, 2, 9, 0, 0, 7, 0,
   1, 2, 3, 4, 5, 6, 7, 8]

/-- A record of format 6 (30 bytes): z = -1, flags byte 0x0F. -/
def zero_rec1 : List Nat :=
  [1, 0, 0, 0, 2, 0, 0, 0, 0xFF, 0xFF, 0xFF, 0xFF, 4, 0, 0x11, 0x0F, 2, 9, 0, 0, 7, 0,
   1, 2, 3, 4, 5, 6, 7, 8]

/-- A store with the two records of format 6 behind four leading bytes. -/
def zero_file : FILE := mkFile (lead_bytes ++ zero_rec0 ++ zero_rec1)

/-- The header of `zero_file`: LAS 1.4, two records of format 6 in both record
counts, scale factors 1.0 (0x3FF0000000000000) and offsets 0.0. -/
def zero_header : LASheader :=
  { mkHeader 6 30 2 4 with
    version_minor := 4, extended_number_of_point_records := 2,
    x_scale_factor := 0x3FF0000000000000, y_scale_factor := 0x3FF0000000000000,
    z_scale_factor := 0x3FF0000000000000 }

/-- The flags byte that the record loop leaves at offset 15 of a record whose
`z` is above 0.0 and whose flags byte was `b`: the result of
`slas_update_point_data` on the decoded record with `withheld = 1`. -/
def marked_flags (point_data_format b : Nat) : Nat :=
  if point_data_format > 5 then (b &&& 0xF0) ||| 0x04 else b ||| 0x80

/-- The `z` that `slas_read_point_data` decodes for record `recnum` of a store
with the bytes `content`. -/
def record_z (fa : FloatArith) (content : List Nat) (lasheader : LASheader) (swap recnum : Nat) :
    Nat :=
  (decoded fa lasheader swap
    (record_buffer content (record_addr lasheader recnum).toNat
      lasheader.point_data_record_length)).z

/-- The store `zero_file` after the record loop has run over it. -/
def zero_after_run : FILE :=
  { zero_file with
    content := lead_bytes ++ zero_rec0.set 15 0x54 ++ zero_rec1, pos := 64,
    log := [.read 30, .seek 34, .write (zero_rec0.set 15 0x54), .seek 4, .read 30, .seek 4,
            .read 30, .seek 4] }

/-- Record 1 of `zero_file` as decoded without swap under `unitArith`: the
local `slas` when the record loop ends. -/
def zero_last_record : SLAS_POINT_DATA :=
  { SLAS_POINT_DATA.zero with
    x := 0x3FF0000000000000, y := 0x4000000000000000, z := 0xBF800000, intensity := 4,
    return_number := 1, number_of_returns := 1, classification := 2, user_data := 9,
    point_source_id := 7, gps_time := 578437695752307201 }

/-! ## The floating point arithmetic of the host (IEEE 754) -/

/-- The number of binary digits of `n` (0 for 0), by halving at most `fuel`
times. -/
def bit_length : Nat → Nat → Nat
  | 0, _ => 0
  | fuel + 1, n => if n = 0 then 0 else bit_length fuel (n / 2) + 1

/-- An IEEE 754 binary format: `prec` digits of significand, the hidden one
included, and `ebits` bits of exponent field. -/
structure FloatFormat where
  prec : Nat
  ebits : Nat
deriving DecidableEq

/-- The format of `double`. -/
def binary64 : FloatFormat := { prec := 53, ebits := 11 }

/-- The format of `float`. -/
def binary32 : FloatFormat := { prec := 24, ebits := 8 }

/-- The weight of the sign bit of a pattern of format `f`. -/
def FloatFormat.sign_weight (f : FloatFormat) : Nat := 2 ^ (f.prec - 1 + f.ebits)

/-- The exponent field of infinities and NaNs (all ones). -/
def FloatFormat.max_field (f : FloatFormat) : Nat := 2 ^ f.ebits - 1

/-- The exponent of the last digit of the subnormal numbers: -1074 for
`double`, -149 for `float`. -/
def FloatFormat.emin (f : FloatFormat) : Int := 3 - (2 ^ (f.ebits - 1) : Nat) - f.prec

/-- The sign bit of the pattern `b`. -/
def FloatFormat.negative (f : FloatFormat) (b : Nat) : Bool := (b / f.sign_weight) % 2 = 1

/-- The exponent field of the pattern `b`. -/
def FloatFormat.exp_field (f : FloatFormat) (b : Nat) : Nat :=
  (b / 2 ^ (f.prec - 1)) % 2 ^ f.ebits

/-- The fraction field of the pattern `b`. -/
def FloatFormat.frac_field (f : FloatFormat) (b : Nat) : Nat := b % 2 ^ (f.prec - 1)

/-- The pattern `b` is a NaN. -/
def FloatFormat.is_nan (f : FloatFormat) (b : Nat) : Bool :=
  f.exp_field b = f.max_field && f.frac_field b ≠ 0

/-- The pattern `b` is an infinity. -/
def FloatFormat.is_inf (f : FloatFormat) (b : Nat) : Bool :=
  f.exp_field b = f.max_field && f.frac_field b = 0

/-- The significand of the finite pattern `b`, as an integer: the number is
`significand * 2 ^ exponent`, negated when the sign bit is set. -/
def FloatFormat.significand (f : FloatFormat) (b : Nat) : Nat :=
  if f.exp_field b = 0 then f.frac_field b else 2 ^ (f.prec - 1) + f.frac_field b

/-- The exponent of the last digit of the finite pattern `b`. -/
def FloatFormat.exponent (f : FloatFormat) (b : Nat) : Int :=
  (if f.exp_field b = 0 then 1 else f.exp_field b : Nat) + f.emin - 1

/-- The pattern of sign `neg` and magnitude pattern `mag`. -/
def FloatFormat.signed (f : FloatFormat) (neg : Bool) (mag : Nat) : Nat :=
  (if neg then f.sign_weight else 0) + mag

/-- The pattern of an infinity. -/
def FloatFormat.infinity (f : FloatFormat) (neg : Bool) : Nat :=
  f.signed neg (f.max_field * 2 ^ (f.prec - 1))

/-- The NaN that an invalid operation delivers on an x86 host: sign set,
quiet bit set, the other fraction bits clear. -/
def FloatFormat.default_nan (f : FloatFormat) : Nat :=
  f.signed true (f.max_field * 2 ^ (f.prec - 1) + 2 ^ (f.prec - 2))

/-- The NaN `b` with its quiet bit set. -/
def FloatFormat.quiet (f : FloatFormat) (b : Nat) : Nat :=
  if (b / 2 ^ (f.prec - 2)) % 2 = 1 then b else b + 2 ^ (f.prec - 2)

/-- The `m / 2 ^ k` rounded to the nearest integer, a tie to the even one. -/
def round_shift (m k : Nat) : Nat :=
  if 2 * (m % 2 ^ k) > 2 ^ k ∨ (2 * (m % 2 ^ k) = 2 ^ k ∧ (m / 2 ^ k) % 2 = 1) then
    m / 2 ^ k + 1
  else m / 2 ^ k

/-- The exponent of the last digit that format `f` keeps of `m * 2 ^ e`: the
significand gets `f.prec` digits, fewer in the subnormal range. -/
def FloatFormat.last_exp (f : FloatFormat) (m : Nat) (e : Int) : Int :=
  max (e + bit_length m m - f.prec) f.emin

/-- The `m * 2 ^ e` in units of `2 ^ last`, rounded to the nearest integer, a
tie to the even one. -/
def round_to (m : Nat) (e last : Int) : Nat :=
  if last ≤ e then m * 2 ^ (e - last).toNat else round_shift m (last - e).toNat

/-- The pattern of format `f` of the number `q * 2 ^ last` (negated when
`neg`), where `q` has at most `f.prec` digits or is `2 ^ f.prec`, and fewer
than `f.prec` digits only when `last` is `f.emin`: the exponent field counts
from `f.emin`, and the leading digit of `q` adds one to it. A number beyond the
largest finite one becomes an infinity. -/
def FloatFormat.pack (f : FloatFormat) (neg : Bool) (last : Int) (q : Nat) : Nat :=
  if (last - f.emin).toNat * 2 ^ (f.prec - 1) + q ≥ f.max_field * 2 ^ (f.prec - 1) then
    f.infinity neg
  else f.signed neg ((last - f.emin).toNat * 2 ^ (f.prec - 1) + q)

/-- The pattern of format `f` of the number `m * 2 ^ e` (negated when `neg`),
rounded to the nearest number of the format, a tie to the one with an even
significand; a number that rounds beyond the largest finite one becomes an
infinity. -/
def FloatFormat.round (f : FloatFormat) (neg : Bool) (m : Nat) (e : Int) : Nat :=
  if m = 0 then f.signed neg 0
  else f.pack neg (f.last_exp m e) (round_to m e (f.last_exp m e))

/-- The conversion of the integer `v` to format `f` (`(double) v`). -/
def FloatFormat.of_int (f : FloatFormat) (v : Int) : Nat := f.round (decide (v < 0)) v.natAbs 0

/-- The product `a * b` of two patterns of format `f`: the exact product of
the two numbers, rounded. A NaN operand is delivered with its quiet bit set
and zero times infinity is the default NaN, as the `mulsd` instruction does;
of two NaN operands the model takes the first, where the processor takes the
one the compiler has put first. -/
def FloatFormat.mul (f : FloatFormat) (a b : Nat) : Nat :=
  if f.is_nan a then f.quiet a
  else if f.is_nan b then f.quiet b
  else if f.is_inf a ∨ f.is_inf b then
    if (f.significand a = 0 ∧ ¬ f.is_inf a) ∨ (f.significand b = 0 ∧ ¬ f.is_inf b) then
      f.default_nan
    else f.infinity (xor (f.negative a) (f.negative b))
  else
    f.round (xor (f.negative a) (f.negative b)) (f.significand a * f.significand b)
      (f.exponent a + f.exponent b)

/-- The finite pattern `a` as an integer multiple of `2 ^ e`, for an `e` that
is at most its exponent. -/
def FloatFormat.units (f : FloatFormat) (a : Nat) (e : Int) : Int :=
  if f.negative a then -((f.significand a * 2 ^ (f.exponent a - e).toNat : Nat) : Int)
  else (f.significand a * 2 ^ (f.exponent a - e).toNat : Nat)

/-- The exact sum of the finite patterns `a` and `b`, as an integer multiple of
`2 ^ min (f.exponent a) (f.exponent b)`. -/
def FloatFormat.exact_sum (f : FloatFormat) (a b : Nat) : Int :=
  f.units a (min (f.exponent a) (f.exponent b)) + f.units b (min (f.exponent a) (f.exponent b))

/-- The sum `a + b` of two patterns of format `f`: the exact sum of the two
numbers, rounded; an exact zero sum is negative only when both operands are
negative. A NaN operand is delivered with its quiet bit set and the sum of two
infinities of opposite sign is the default NaN, as the `addsd` instruction
does; of two NaN operands the model takes the first, where the processor takes
the one the compiler has put first. -/
def FloatFormat.add (f : FloatFormat) (a b : Nat) : Nat :=
  if f.is_nan a then f.quiet a
  else if f.is_nan b then f.quiet b
  else if f.is_inf a then
    if f.is_inf b ∧ f.negative a ≠ f.negative b then f.default_nan else a
  else if f.is_inf b then b
  else if f.exact_sum a b = 0 then f.signed (f.negative a && f.negative b) 0
  else
    f.round (decide (f.exact_sum a b < 0)) (f.exact_sum a b).natAbs
      (min (f.exponent a) (f.exponent b))

/-- The conversion of the pattern `a` of format `f` to the narrower format `g`
(`(float) a` for `binary64` and `binary32`): the number, rounded. A NaN keeps
its sign and the leading bits of its fraction, with the quiet bit set, as the
`cvtsd2ss` instruction does. -/
def FloatFormat.convert (f g : FloatFormat) (a : Nat) : Nat :=
  if f.is_nan a then
    g.quiet (g.signed (f.negative a)
      (g.max_field * 2 ^ (g.prec - 1) + f.frac_field a / 2 ^ (f.prec - g.prec)))
  else if f.is_inf a then g.infinity (f.negative a)
  else g.round (f.negative a) (f.significand a) (f.exponent a)

/-- The floating point unit of an x86-64 host on the expressions of lines
314-316: in `((double) v * s) + o` the conversion is exact for a 32 bit `v`,
the product and the sum are each rounded to `double` (the two are not fused),
and the conversion to `float` rounds once more. On finite `s` and `o` the
results are those that IEEE 754 prescribes for these operations; with a NaN or
an infinity among them the sign and the payload of a NaN result are those of
the x86 instructions. -/
def ieeeArith : FloatArith :=
  { scale64 := fun v s o => binary64.add (binary64.mul (binary64.of_int v) s) o,
    scale32 := fun v s o =>
      binary64.convert binary32 (binary64.add (binary64.mul (binary64.of_int v) s) o) }

/-- The pattern `b` is a finite number: neither an infinity nor a NaN. -/
def FloatFormat.is_finite (f : FloatFormat) (b : Nat) : Bool := f.exp_field b < f.max_field

/-- The scale factors and the offsets of the header are finite numbers. -/
def finite_scaling (lasheader : LASheader) : Bool :=
  binary64.is_finite lasheader.x_scale_factor && binary64.is_finite lasheader.y_scale_factor &&
  binary64.is_finite lasheader.z_scale_factor && binary64.is_finite lasheader.x_offset &&
  binary64.is_finite lasheader.y_offset && binary64.is_finite lasheader.z_offset

/-- The header of `legacy_file` with the scale factors 0.01, 0.01, 0.001 and
the offsets 500000.0, -1234.5, 10.0. -/
def scaled_header : LASheader :=
  { legacy_header with
    x_scale_factor := 0x3F847AE147AE147B, y_scale_factor := 0x3F847AE147AE147B,
    z_scale_factor := 0x3F50624DD2F1A9FC, x_offset := 0x411E848000000000,
    y_offset := 0xC0934A0000000000, z_offset := 0x4024000000000000 }

/-- Record 1 of `legacy_file` as decoded with swap set under `ieeeArith` and
`scaled_header`, from the raw integers -1, 117506048, 270991360:
x = 499999.99 (the `double` next to it), y = 1173825.98, z = 271001.375 (the
`float` next to 271001.36). -/
def scaled_decoded_swapped : SLAS_POINT_DATA :=
  { legacy_decoded_swapped with
    x := 0x411E847FF5C28F5C, y := 0x4131E941FAE147AE, z := 0x4884532C }

/-- Record 1 of `legacy_file` as decoded without swap under `ieeeArith` and
`scaled_header`, from the raw integers -1, 263, 10000: x = 499999.99,
y = -1231.87, z = 20.0. -/
def scaled_decoded : SLAS_POINT_DATA :=
  { legacy_decoded with
    x := 0x411E847FF5C28F5C, y := 0xC0933F7AE147AE14, z := 0x41A00000 }

/-! ## Lemmas and theorems -/

theorem getD_set (l : List Nat) (i j v : Nat) :
    (l.set i v).getD j 0 = if i = j ∧ i < l.length then v else l.getD j 0 := by
  simp only [List.getD_eq_getElem?_getD, List.getElem?_set]
  by_cases h : i = j
  · subst h
    by_cases h2 : i < l.length
    · simp [h2]
    · simp [h2, List.getElem?_eq_none (Nat.le_of_not_lt h2)]
  · simp [h]

theorem length_putBytes (bs : List Nat) : ∀ (l : List Nat) (pos : Nat),
    (putBytes l pos bs).length = l.length := by
  induction bs with
  | nil => intro l pos; rfl
  | cons b bs ih => intro l pos; simp [putBytes, ih]

theorem getD_putBytes (bs : List Nat) : ∀ (l : List Nat) (pos j : Nat),
    pos + bs.length ≤ l.length →
    (putBytes l pos bs).getD j 0 =
      if pos ≤ j ∧ j < pos + bs.length then bs.getD (j - pos) 0 else l.getD j 0 := by
  induction bs with
  | nil =>
    intro l pos j _
    have : ¬(pos ≤ j ∧ j < pos) := by omega
    simp [putBytes, this]
  | cons b bs ih =>
    intro l pos j h
    simp only [putBytes, List.length_cons] at h ⊢
    rw [ih _ _ _ (by simp; omega), getD_set]
    by_cases h1 : pos = j
    · subst h1
      simp; omega
    · by_cases h2 : pos + 1 ≤ j ∧ j < pos + 1 + bs.length
      · have : j - pos = (j - (pos + 1)) + 1 := by omega
        rw [if_pos h2, if_pos (by omega), this]; simp
      · rw [if_neg h2, if_neg (by omega), if_neg (by omega)]

theorem length_record_buffer (content : List Nat) (a len : Nat)
    (h1 : a + len ≤ content.length) (h2 : len ≤ 128) :
    (record_buffer content a len).length = 128 := by
  unfold record_buffer zeroed_buffer
  simp only [List.length_append, List.length_take, List.length_drop, List.length_replicate]
  omega

theorem getD_record_buffer (content : List Nat) (a len j : Nat)
    (h1 : a + len ≤ content.length) :
    (record_buffer content a len).getD j 0 = if j < len then content.getD (a + j) 0 else 0 := by
  unfold record_buffer zeroed_buffer
  generalize 128 = n
  simp only [List.getD_eq_getElem?_getD, List.getElem?_append,
    List.length_take, List.length_drop, List.getElem?_take, List.getElem?_drop]
  have hm : min len (content.length - a) = len := by omega
  rw [hm]
  by_cases h : j < len
  · simp [h]
  · simp only [h, if_false, List.getElem?_replicate]
    split <;> simp

theorem getD_written (content data : List Nat) (a len k : Nat)
    (h1 : a + len ≤ content.length) (h2 : len ≤ data.length) :
    (written content a len data).getD k 0 =
      if a ≤ k ∧ k < a + len then data.getD (k - a) 0 else content.getD k 0 := by
  have h0 : a - content.length = 0 := by omega
  simp only [written, h0, List.replicate_zero, List.append_nil, List.getD_eq_getElem?_getD,
    List.getElem?_append, List.length_append, List.length_take, List.getElem?_take,
    List.getElem?_drop]
  have hm1 : min a content.length = a := by omega
  have hm2 : min len data.length = len := by omega
  rw [hm1, hm2]
  by_cases ha : k < a
  · have : ¬(a ≤ k ∧ k < a + len) := by omega
    have hc : k < a + len := by omega
    have hd : ¬ a ≤ k := by omega
    rw [if_neg this]
    simp [ha, hc]
  · by_cases hb : k < a + len
    · have : k - a < len := by omega
      simp [ha, hb, this, Nat.le_of_not_lt ha]
    · have : ¬(a ≤ k ∧ k < a + len) := by omega
      have e : a + len + (k - (a + len)) = k := by omega
      simp [ha, hb, this, e]

theorem length_written (content data : List Nat) (a len : Nat)
    (h1 : a + len ≤ content.length) (h2 : len ≤ data.length) :
    (written content a len data).length = content.length := by
  simp [written]; omega

theorem fseeko64_store (fp : FILE) (addr : Int) :
    (fseeko64 fp addr).2.content = fp.content ∧
    (fseeko64 fp addr).2.log = .seek addr :: fp.log ∧
    (fseeko64 fp addr).2.faults = fp.faults.tail ∧
    (fseeko64 fp addr).2.faultDefault = fp.faultDefault := by
  unfold fseeko64
  split <;> exact ⟨rfl, rfl, rfl, rfl⟩

theorem fread_store (data : List Nat) (size : Nat) (fp : FILE) :
    (fread data size fp).2.2.content = fp.content ∧
    (fread data size fp).2.2.log = .read size :: fp.log ∧
    (fread data size fp).2.2.faults = fp.faults.tail ∧
    (fread data size fp).2.2.faultDefault = fp.faultDefault := by
  unfold fread
  split
  · exact ⟨rfl, rfl, rfl, rfl⟩
  · split
    · exact ⟨rfl, rfl, rfl, rfl⟩
    · simp only []
      split <;> exact ⟨rfl, rfl, rfl, rfl⟩

theorem fseeko64_cases (fp : FILE) (addr : Int) :
    ((fseeko64 fp addr).1 = -1 ∧ (fp.nextFault = true ∨ addr < 0) ∧
      (fseeko64 fp addr).2 = fp.issue (.seek addr)) ∨
    ((fseeko64 fp addr).1 = 0 ∧ fp.nextFault = false ∧ 0 ≤ addr ∧
      (fseeko64 fp addr).2 = { fp.issue (.seek addr) with pos := addr.toNat }) := by
  unfold fseeko64
  by_cases h : (fp.nextFault || decide (addr < 0)) = true
  · left
    simp only [h, if_true, true_and, and_true]
    simpa using h
  · right
    simp only [h, if_false, true_and, and_true]
    simpa using h

theorem fread_cases (data : List Nat) (size : Nat) (fp : FILE) :
    ((fread data size fp).1 = 0 ∧
      (size = 0 ∨ fp.nextFault = true ∨ fp.content.length < fp.pos + size) ∧
      (fread data size fp).2.2.content = fp.content ∧
      (fread data size fp).2.2.log = .read size :: fp.log) ∨
    ((fread data size fp).1 = 1 ∧ size ≠ 0 ∧ fp.nextFault = false ∧
      fp.pos + size ≤ fp.content.length ∧
      (fread data size fp).2.1 = (fp.content.drop fp.pos).take size ++ data.drop size ∧
      (fread data size fp).2.2 = { fp.issue (.read size) with pos := fp.pos + size }) := by
  unfold fread
  by_cases h0 : size = 0
  · left; simp [h0, FILE.issue]
  by_cases hf : fp.nextFault = true
  · left; simp [h0, hf, FILE.issue]
  by_cases hl : fp.content.length < fp.pos + size
  · left
    have : min size (fp.content.length - fp.pos) < size := by omega
    simp [h0, hf, hl, FILE.issue, this]
  · right
    have : ¬ min size (fp.content.length - fp.pos) < size := by omega
    have e : min size (fp.content.length - fp.pos) = size := by omega
    simp [h0, hf, FILE.issue, this, e]
    omega

theorem fwrite_cases (data : List Nat) (size : Nat) (fp : FILE) :
    ((fwrite data size fp).1 = 0 ∧ (size = 0 ∨ fp.nextFault = true) ∧
      (fwrite data size fp).2 = fp.issue (.write (data.take size))) ∨
    ((fwrite data size fp).1 = 1 ∧ size ≠ 0 ∧ fp.nextFault = false ∧
      (fwrite data size fp).2 =
        { fp.issue (.write (data.take size)) with
          content := written fp.content fp.pos size data, pos := fp.pos + size }) := by
  unfold fwrite
  by_cases h0 : size = 0
  · left; simp [h0]
  by_cases hf : fp.nextFault = true
  · left; simp [h0, hf]
  · right; simp [h0, hf, written]

theorem read_ok {fa : FloatArith} {fp fp' : FILE} {i : Nat} {hd : LASheader} {swap : Nat}
    {r d : SLAS_POINT_DATA}
    (h : slas_read_point_data fa fp i hd swap r = some (0, fp', d)) :
    out_of_bounds hd i = false ∧ 0 ≤ record_addr hd i ∧
    hd.point_data_record_length ≤ 128 ∧ hd.point_data_record_length ≠ 0 ∧
    (record_addr hd i).toNat + hd.point_data_record_length ≤ fp.content.length ∧
    fp'.content = fp.content ∧
    d = decoded fa hd swap
      (record_buffer fp.content (record_addr hd i).toNat hd.point_data_record_length) := by
  unfold slas_read_point_data at h
  by_cases hb : out_of_bounds hd i = true
  · simp [hb] at h
  have hb' : out_of_bounds hd i = false := by simpa using hb
  simp only [hb', Bool.false_eq_true, if_false] at h
  rcases fseeko64_cases fp (record_addr hd i) with ⟨h1, -, -⟩ | ⟨h1, -, h2, h3⟩
  · simp [h1] at h
  by_cases hl : hd.point_data_record_length > 128
  · simp [h1, hl] at h
  rcases fread_cases zeroed_buffer hd.point_data_record_length
      (fseeko64 fp (record_addr hd i)).2 with ⟨g1, -, -, -⟩ | ⟨g1, g2, -, g4, g5, g6⟩
  · simp [h1, hl, g1] at h
  simp only [h1, hl, g1] at h
  simp only [lt_self_iff_false, if_false, one_ne_zero, Option.some.injEq, Prod.mk.injEq,
    true_and] at h
  have hc : (fseeko64 fp (record_addr hd i)).2.content = fp.content := by rw [h3]; rfl
  have hp : (fseeko64 fp (record_addr hd i)).2.pos = (record_addr hd i).toNat := by rw [h3]
  rw [hc, hp] at g4 g5
  refine ⟨by simpa using hb, h2, by omega, g2, g4, ?_, ?_⟩
  · rw [← h.1, g6]; exact hc
  · rw [← h.2, g5]; rfl

theorem update_ok {fp fp' : FILE} {i : Nat} {hd : LASheader} {swap : Nat}
    {r r' : SLAS_POINT_DATA}
    (h : slas_update_point_data fp i hd swap r = some (0, fp', r')) :
    out_of_bounds hd i = false ∧ 0 ≤ record_addr hd i ∧
    hd.point_data_record_length ≤ 128 ∧ hd.point_data_record_length ≠ 0 ∧
    (record_addr hd i).toNat + hd.point_data_record_length ≤ fp.content.length ∧
    ∃ data',
      update_fields
        (record_buffer fp.content (record_addr hd i).toNat hd.point_data_record_length)
        hd.point_data_format swap r = some (data', r') ∧
      fp'.content =
        written fp.content (record_addr hd i).toNat hd.point_data_record_length data' := by
  unfold slas_update_point_data at h
  by_cases hb : out_of_bounds hd i = true
  · simp [hb] at h
  have hb' : out_of_bounds hd i = false := by simpa using hb
  simp only [hb', Bool.false_eq_true, if_false] at h
  rcases fseeko64_cases fp (record_addr hd i) with ⟨h1, -, -⟩ | ⟨h1, -, h2, h3⟩
  · simp [h1] at h
  by_cases hl : hd.point_data_record_length > 128
  · simp [h1, hl] at h
  rcases fread_cases zeroed_buffer hd.point_data_record_length
      (fseeko64 fp (record_addr hd i)).2 with ⟨g1, -, -, -⟩ | ⟨g1, g2, -, g4, g5, g6⟩
  · simp [h1, hl, g1] at h
  simp only [h1, hl, g1] at h
  simp only [lt_self_iff_false, if_false, one_ne_zero] at h
  have hc : (fseeko64 fp (record_addr hd i)).2.content = fp.content := by rw [h3]; rfl
  have hp : (fseeko64 fp (record_addr hd i)).2.pos = (record_addr hd i).toNat := by rw [h3]
  rw [hc, hp] at g4 g5
  rw [g5] at h
  change (match update_fields (record_buffer fp.content (record_addr hd i).toNat
      hd.point_data_record_length) hd.point_data_format swap r with
    | none => _ | some (data, record) => _) = _ at h
  cases hu : update_fields (record_buffer fp.content (record_addr hd i).toNat
      hd.point_data_record_length) hd.point_data_format swap r with
  | none => simp [hu] at h
  | some p =>
    obtain ⟨data', r2⟩ := p
    simp only [hu] at h
    rcases fseeko64_cases (fread zeroed_buffer hd.point_data_record_length
        (fseeko64 fp (record_addr hd i)).2).2.2 (record_addr hd i)
      with ⟨k1, -, -⟩ | ⟨k1, -, -, k3⟩
    · simp [k1] at h
    simp only [k1, lt_self_iff_false, if_false] at h
    rcases fwrite_cases data' hd.point_data_record_length
        (fseeko64 (fread zeroed_buffer hd.point_data_record_length
          (fseeko64 fp (record_addr hd i)).2).2.2 (record_addr hd i)).2
      with ⟨w1, -, -⟩ | ⟨w1, -, -, w3⟩
    · simp [w1] at h
    simp only [w1, one_ne_zero, if_false, Option.some.injEq, Prod.mk.injEq, true_and] at h
    refine ⟨by simpa using hb, h2, by omega, g2, g4, data', ?_, ?_⟩
    · rw [h.2]
    · rw [← h.1, w3, k3, g6]
      simp only [FILE.issue]
      rw [hc]

theorem bytesAt_one (data : List Nat) (pos : Nat) :
    bytesAt data pos 1 = [data.getD pos 0] := rfl

theorem bytesAt_two (data : List Nat) (pos : Nat) :
    bytesAt data pos 2 = [data.getD pos 0, data.getD (pos + 1) 0] := rfl

theorem leVal_one (b : Nat) : leVal [b] = b := by simp [leVal]

theorem bit_field (n k w : Nat) : (n &&& ((2 ^ w - 1) <<< k)) >>> k = n / 2 ^ k % 2 ^ w := by
  rw [← Nat.shiftRight_eq_div_pow]
  apply Nat.eq_of_testBit_eq
  intro j
  simp only [Nat.testBit_shiftRight, Nat.testBit_and, Nat.testBit_shiftLeft,
    Nat.testBit_two_pow_sub_one, Nat.testBit_mod_two_pow]
  have e : k + j - k = j := by omega
  have g : k + j ≥ k := by omega
  rw [e]
  simp only [g, decide_True, Bool.true_and]
  exact Bool.and_comm _ _

theorem low_bits (n w : Nat) : n &&& (2 ^ w - 1) = n % 2 ^ w :=
  Nat.and_pow_two_sub_one_eq_mod n w

theorem read_optional_fixed (data : List Nat) (fmt pos : Nat) (r : SLAS_POINT_DATA) :
    (read_optional data fmt pos r).1.classification = r.classification ∧
    (read_optional data fmt pos r).1.user_data = r.user_data ∧
    (read_optional data fmt pos r).1.scan_angle = r.scan_angle ∧
    (read_optional data fmt pos r).1.intensity = r.intensity ∧
    (read_optional data fmt pos r).1.point_source_id = r.point_source_id ∧
    (read_optional data fmt pos r).1.scanner_channel = r.scanner_channel := by
  unfold read_optional
  split <;> simp [get_gps_time, get_rgb, get_nir, get_wave]

theorem swap_optional_fixed (fmt : Nat) (r : SLAS_POINT_DATA) :
    (swap_optional fmt r).classification = r.classification ∧
    (swap_optional fmt r).user_data = r.user_data ∧
    (swap_optional fmt r).scan_angle = r.scan_angle ∧
    (swap_optional fmt r).intensity = r.intensity ∧
    (swap_optional fmt r).point_source_id = r.point_source_id ∧
    (swap_optional fmt r).scanner_channel = r.scanner_channel := by
  unfold swap_optional
  split <;> simp [swap_gps_time, swap_rgb, swap_nir, swap_wave]

theorem swap_fields_rets (swap fmt : Nat) (s : ReadState) :
    (swap_fields swap fmt s).rets = s.rets ∧ (swap_fields swap fmt s).cls = s.cls := by
  unfold swap_fields
  split <;> simp

theorem swap_fields_fixed (swap fmt : Nat) (s : ReadState) :
    (swap_fields swap fmt s).record.classification = s.record.classification ∧
    (swap_fields swap fmt s).record.user_data = s.record.user_data ∧
    (swap_fields swap fmt s).record.scan_angle = s.record.scan_angle ∧
    (swap_fields swap fmt s).record.scanner_channel = s.record.scanner_channel := by
  unfold swap_fields
  split
  · simp [(swap_optional_fixed fmt _).1, (swap_optional_fixed fmt _).2.1,
      (swap_optional_fixed fmt _).2.2.1, (swap_optional_fixed fmt _).2.2.2.2.2]
  · simp

theorem read_fields_fixed (data : List Nat) (fmt : Nat) :
    (read_fields data fmt SLAS_POINT_DATA.zero).record.scanner_channel = 0 ∧
    (read_fields data fmt SLAS_POINT_DATA.zero).record.user_data = data.getD 17 0 ∧
    (fmt > 5 →
      (read_fields data fmt SLAS_POINT_DATA.zero).record.classification = data.getD 16 0) := by
  unfold read_fields
  simp only [(read_optional_fixed data fmt _ _).1, (read_optional_fixed data fmt _ _).2.1,
    (read_optional_fixed data fmt _ _).2.2.2.2.2]
  refine ⟨?_, ?_, ?_⟩
  · split <;> rfl
  · split <;> simp [bytesAt_one, leVal_one]
  · intro h
    simp [h, bytesAt_one, leVal_one]

theorem buffer_byte {fp : FILE} {hd : LASheader} {i : Nat} (k : Nat)
    (h : (record_addr hd i).toNat + hd.point_data_record_length ≤ fp.content.length) :
    (record_buffer fp.content (record_addr hd i).toNat hd.point_data_record_length).getD k 0 =
      record_byte fp hd i k := by
  rw [getD_record_buffer _ _ _ _ h]; rfl

theorem layout_size_table :
    (List.range 11).map layout_size = [20, 28, 26, 34, 57, 63, 30, 36, 38, 59, 67] := by
  decide

theorem nonmodifiable_not_overlaid (fmt j : Nat) (hfmt : fmt ≤ 10)
    (h : holds_nonmodifiable fmt j = true) : j ∉ modifiable_offsets fmt := by
  interval_cases fmt <;>
    simp [holds_nonmodifiable, modifiable_offsets, colour_offsets, layout_size, read_optional,
      get_gps_time, get_rgb, get_nir, get_wave] at h ⊢ <;> omega

theorem decoded_rets_cls (hd : LASheader) (swap : Nat) (data : List Nat) :
    (swap_fields swap hd.point_data_format
      (read_fields data hd.point_data_format SLAS_POINT_DATA.zero)).rets = data.getD 14 0 ∧
    (swap_fields swap hd.point_data_format
      (read_fields data hd.point_data_format SLAS_POINT_DATA.zero)).cls = data.getD 15 0 := by
  rw [(swap_fields_rets _ _ _).1, (swap_fields_rets _ _ _).2]
  exact ⟨leVal_one _, leVal_one _⟩

/-- C8. Legacy overlap invariant: for every format <= 5, every store and either
swap setting, a successful `slas_read_point_data` reports `overlap = 0`. -/
theorem C8_legacy_overlap_zero (fa : FloatArith) (fp fp' : FILE) (recnum : Nat)
    (lasheader : LASheader) (swap : Nat) (record d : SLAS_POINT_DATA)
    (hfmt : lasheader.point_data_format ≤ 5)
    (h : slas_read_point_data fa fp recnum lasheader swap record = some (0, fp', d)) :
    d.overlap = 0 := by
  obtain ⟨-, -, -, -, -, -, hd⟩ := read_ok h
  have hf : ¬ lasheader.point_data_format > 5 := by omega
  rw [hd]
  simp only [decoded, decode_fields, hf, if_false]

/-- C9. Table A, legacy regime: for every format <= 5, with `rets` the byte at
record offset 14 and `cls` the byte at record offset 15, a successful decode
returns return_number = bits 0-2 of `rets`, number_of_returns = bits 3-5,
scan_direction_flag = bit 6, edge_of_flightline = bit 7, classification =
bits 0-4 of `cls` (so at most 31), synthetic = bit 5, keypoint = bit 6,
withheld = bit 7, and scanner_channel = 0. -/
theorem C9_legacy_bit_layout (fa : FloatArith) (fp fp' : FILE) (recnum : Nat)
    (lasheader : LASheader) (swap : Nat) (record d : SLAS_POINT_DATA)
    (hfmt : lasheader.point_data_format ≤ 5)
    (h : slas_read_point_data fa fp recnum lasheader swap record = some (0, fp', d)) :
    d.return_number = record_byte fp lasheader recnum 14 % 8 ∧
    d.number_of_returns = record_byte fp lasheader recnum 14 / 8 % 8 ∧
    d.scan_direction_flag = record_byte fp lasheader recnum 14 / 64 % 2 ∧
    d.edge_of_flightline = record_byte fp lasheader recnum 14 / 128 % 2 ∧
    d.classification = record_byte fp lasheader recnum 15 % 32 ∧
    d.classification ≤ 31 ∧
    d.synthetic = record_byte fp lasheader recnum 15 / 32 % 2 ∧
    d.keypoint = record_byte fp lasheader recnum 15 / 64 % 2 ∧
    d.withheld = record_byte fp lasheader recnum 15 / 128 % 2 ∧
    d.scanner_channel = 0 := by
  obtain ⟨-, -, -, -, hlen, -, hd⟩ := read_ok h
  have hf : ¬ lasheader.point_data_format > 5 := by omega
  have hr := (decoded_rets_cls lasheader swap
    (record_buffer fp.content (record_addr lasheader recnum).toNat
      lasheader.point_data_record_length)).1
  have hc := (decoded_rets_cls lasheader swap
    (record_buffer fp.content (record_addr lasheader recnum).toNat
      lasheader.point_data_record_length)).2
  rw [buffer_byte 14 hlen] at hr
  rw [buffer_byte 15 hlen] at hc
  rw [hd]
  simp only [decoded, decode_fields, hf, if_false, hr, hc]
  refine ⟨low_bits _ 3, bit_field _ 3 3, bit_field _ 6 1, bit_field _ 7 1, low_bits _ 5, ?_,
    bit_field _ 5 1, bit_field _ 6 1, bit_field _ 7 1, ?_⟩
  · exact Nat.and_le_right
  · rw [(swap_fields_fixed _ _ _).2.2.2]
    exact (read_fields_fixed _ _).1

/-- C10. Table A, extended regime (non-flag fields): for every format > 5,
with `rets` the byte at record offset 14, `cls` the byte at offset 15 and `c`
the byte at offset 16, a successful decode returns return_number = bits 0-3
of `rets`, number_of_returns = bits 4-7 of `rets`, scanner_channel = bits 4-5
of `cls`, scan_direction_flag = bit 6 of `cls`, edge_of_flightline = bit 7 of
`cls`, and classification = `c`, the full value, unmasked. -/
theorem C10_extended_bit_layout (fa : FloatArith) (fp fp' : FILE) (recnum : Nat)
    (lasheader : LASheader) (swap : Nat) (record d : SLAS_POINT_DATA)
    (hfmt : lasheader.point_data_format > 5)
    (h : slas_read_point_data fa fp recnum lasheader swap record = some (0, fp', d)) :
    d.return_number = record_byte fp lasheader recnum 14 % 16 ∧
    d.number_of_returns = record_byte fp lasheader recnum 14 / 16 % 16 ∧
    d.scanner_channel = record_byte fp lasheader recnum 15 / 16 % 4 ∧
    d.scan_direction_flag = record_byte fp lasheader recnum 15 / 64 % 2 ∧
    d.edge_of_flightline = record_byte fp lasheader recnum 15 / 128 % 2 ∧
    d.classification = record_byte fp lasheader recnum 16 := by
  obtain ⟨-, -, -, -, hlen, -, hd⟩ := read_ok h
  have hr := (decoded_rets_cls lasheader swap
    (record_buffer fp.content (record_addr lasheader recnum).toNat
      lasheader.point_data_record_length)).1
  have hc := (decoded_rets_cls lasheader swap
    (record_buffer fp.content (record_addr lasheader recnum).toNat
      lasheader.point_data_record_length)).2
  rw [buffer_byte 14 hlen] at hr
  rw [buffer_byte 15 hlen] at hc
  rw [hd]
  simp only [decoded, decode_fields, hfmt, if_true, hr, hc]
  refine ⟨low_bits _ 4, bit_field _ 4 4, bit_field _ 4 2, bit_field _ 6 1, bit_field _ 7 1, ?_⟩
  rw [(swap_fields_fixed _ _ _).1, (read_fields_fixed _ _).2.2 hfmt, buffer_byte 16 hlen]

theorem out_of_bounds_iff (hd : LASheader) (recnum : Nat) :
    out_of_bounds hd recnum = true ↔
      ((hd.version_minor < 4 ∧ recnum ≥ hd.number_of_point_records) ∨
       (¬ hd.version_minor < 4 ∧ recnum ≥ hd.extended_number_of_point_records)) := by
  unfold out_of_bounds
  by_cases h : hd.version_minor < 4 <;> simp [h]

theorem read_in_range_code {fa : FloatArith} {fp fp' : FILE} {i : Nat} {hd : LASheader}
    {swap : Nat} {r d : SLAS_POINT_DATA} {c : Int}
    (hb : out_of_bounds hd i = false)
    (h : slas_read_point_data fa fp i hd swap r = some (c, fp', d)) :
    c = -2 ∨ c = -3 ∨ c = 0 := by
  unfold slas_read_point_data at h
  simp only [hb, Bool.false_eq_true, if_false] at h
  split at h
  · simp only [Option.some.injEq, Prod.mk.injEq] at h; omega
  · split at h
    · simp at h
    · split at h
      · simp only [Option.some.injEq, Prod.mk.injEq] at h; omega
      · simp only [Option.some.injEq, Prod.mk.injEq] at h; omega

theorem update_in_range_code {fp fp' : FILE} {i : Nat} {hd : LASheader}
    {swap : Nat} {r d : SLAS_POINT_DATA} {c : Int}
    (hb : out_of_bounds hd i = false)
    (h : slas_update_point_data fp i hd swap r = some (c, fp', d)) :
    c = -2 ∨ c = -3 ∨ c = -4 ∨ c = -5 ∨ c = -6 ∨ c = 0 := by
  unfold slas_update_point_data at h
  simp only [hb, Bool.false_eq_true, if_false] at h
  split at h
  · simp only [Option.some.injEq, Prod.mk.injEq] at h; omega
  · split at h
    · simp at h
    · split at h
      · simp only [Option.some.injEq, Prod.mk.injEq] at h; omega
      · split at h
        · simp only [Option.some.injEq, Prod.mk.injEq] at h; omega
        · split at h
          · simp only [Option.some.injEq, Prod.mk.injEq] at h; omega
          · split at h
            · simp only [Option.some.injEq, Prod.mk.injEq] at h; omega
            · simp only [Option.some.injEq, Prod.mk.injEq] at h; omega

/-- C5. Bounds: `slas_read_point_data` and `slas_update_point_data` return -1
exactly when `recnum >= number_of_point_records` (if `version_minor < 4`) or
`recnum >= extended_number_of_point_records` (otherwise); in that case the store
comes back as it was passed in, whatever its fault schedule: no seek, read or
write was issued on it (nothing logged, no fault consumed) and its bytes are
unchanged, and the caller record is untouched. -/
theorem C5_bounds (fa : FloatArith) (fp : FILE) (recnum : Nat) (lasheader : LASheader)
    (swap : Nat) (record : SLAS_POINT_DATA) :
    ((∃ fp' r', slas_read_point_data fa fp recnum lasheader swap record = some (-1, fp', r')) ↔
      ((lasheader.version_minor < 4 ∧ recnum ≥ lasheader.number_of_point_records) ∨
       (¬ lasheader.version_minor < 4 ∧
          recnum ≥ lasheader.extended_number_of_point_records))) ∧
    ((∃ fp' r', slas_update_point_data fp recnum lasheader swap record = some (-1, fp', r')) ↔
      ((lasheader.version_minor < 4 ∧ recnum ≥ lasheader.number_of_point_records) ∨
       (¬ lasheader.version_minor < 4 ∧
          recnum ≥ lasheader.extended_number_of_point_records))) ∧
    (((lasheader.version_minor < 4 ∧ recnum ≥ lasheader.number_of_point_records) ∨
       (¬ lasheader.version_minor < 4 ∧
          recnum ≥ lasheader.extended_number_of_point_records)) →
      slas_read_point_data fa fp recnum lasheader swap record = some (-1, fp, record) ∧
      slas_update_point_data fp recnum lasheader swap record = some (-1, fp, record)) := by
  rw [← out_of_bounds_iff]
  have hr : out_of_bounds lasheader recnum = true →
      slas_read_point_data fa fp recnum lasheader swap record = some (-1, fp, record) := by
    intro hb; simp [slas_read_point_data, hb]
  have hu : out_of_bounds lasheader recnum = true →
      slas_update_point_data fp recnum lasheader swap record = some (-1, fp, record) := by
    intro hb; simp [slas_update_point_data, hb]
  refine ⟨⟨?_, fun hb => ⟨fp, record, hr hb⟩⟩, ⟨?_, fun hb => ⟨fp, record, hu hb⟩⟩,
    fun hb => ⟨hr hb, hu hb⟩⟩
  · rintro ⟨fp', r', h⟩
    by_contra hb
    have := read_in_range_code (by simpa using hb) h
    omega
  · rintro ⟨fp', r', h⟩
    by_contra hb
    have := update_in_range_code (by simpa using hb) h
    omega

theorem update_cls_none_iff (fmt cls : Nat) (r : SLAS_POINT_DATA) :
    update_cls fmt cls r = none ↔ (fmt ≤ 5 ∧ r.classification > 31) := by
  unfold update_cls
  by_cases h : fmt > 5
  · simp only [h, if_true]
    constructor
    · intro h'; simp at h'
    · intro h'; omega
  · by_cases hc : r.classification > 31
    · simp only [h, hc, if_true, if_false, true_iff]
      exact ⟨by omega, trivial⟩
    · simp only [h, hc, if_false]
      constructor
      · intro h'; simp at h'
      · intro h'; exact absurd h'.2 (by simp)

theorem update_fields_none_iff (data : List Nat) (fmt swap : Nat) (r : SLAS_POINT_DATA) :
    update_fields data fmt swap r = none ↔ (fmt ≤ 5 ∧ r.classification > 31) := by
  rw [← update_cls_none_iff fmt (leVal (bytesAt data 15 1)) r]
  unfold update_fields
  cases h : update_cls fmt (leVal (bytesAt data 15 1)) r with
  | none => simp [h]
  | some c => simp [h]

theorem fseeko64_congr (f g : FILE) (addr : Int)
    (hc : f.content = g.content) (hf : f.faults = g.faults)
    (hd : f.faultDefault = g.faultDefault) :
    (fseeko64 f addr).1 = (fseeko64 g addr).1 ∧
    (fseeko64 f addr).2.content = (fseeko64 g addr).2.content ∧
    (fseeko64 f addr).2.faults = (fseeko64 g addr).2.faults ∧
    (fseeko64 f addr).2.faultDefault = (fseeko64 g addr).2.faultDefault ∧
    (¬ (fseeko64 g addr).1 < 0 → (fseeko64 f addr).2.pos = (fseeko64 g addr).2.pos) := by
  unfold fseeko64 FILE.nextFault FILE.issue
  rw [hc, hf, hd]
  split <;> simp

theorem fread_congr (data : List Nat) (size : Nat) (f g : FILE)
    (hc : f.content = g.content) (hf : f.faults = g.faults)
    (hd : f.faultDefault = g.faultDefault) (hp : f.pos = g.pos) :
    (fread data size f).1 = (fread data size g).1 ∧
    (fread data size f).2.1 = (fread data size g).2.1 := by
  unfold fread FILE.nextFault FILE.issue
  rw [hc, hf, hd, hp]
  split
  · simp
  · split
    · simp
    · simp only []
      split <;> simp

theorem read_outcome_congr (fa : FloatArith) (f g : FILE) (i : Nat) (hd : LASheader)
    (swap : Nat) (r : SLAS_POINT_DATA)
    (hc : f.content = g.content) (hf : f.faults = g.faults)
    (hd' : f.faultDefault = g.faultDefault) :
    outcome (slas_read_point_data fa f i hd swap r) =
      outcome (slas_read_point_data fa g i hd swap r) := by
  obtain ⟨s1, s2, s3, s4, s5⟩ := fseeko64_congr f g (record_addr hd i) hc hf hd'
  unfold slas_read_point_data outcome
  by_cases hb : out_of_bounds hd i = true
  · simp [hb]
  simp only [hb, Bool.false_eq_true, if_false, s1]
  by_cases hs : (fseeko64 g (record_addr hd i)).1 < 0
  · simp [hs]
  simp only [hs, if_false]
  by_cases hl : hd.point_data_record_length > 128
  · simp [hl]
  simp only [hl, if_false]
  obtain ⟨r1, r2⟩ := fread_congr zeroed_buffer hd.point_data_record_length _ _ s2 s3 s4 (s5 hs)
  rw [r1, r2]
  split <;> simp

theorem update_after_read {fp : FILE} {i : Nat} {hd : LASheader} (swap : Nat)
    (r : SLAS_POINT_DATA)
    (hin : out_of_bounds hd i = false)
    (hlen : hd.point_data_record_length ≤ 128)
    (hseek : (fseeko64 fp (record_addr hd i)).1 = 0)
    (hread : (fread zeroed_buffer hd.point_data_record_length
      (fseeko64 fp (record_addr hd i)).2).1 = 1) :
    (update_fields (fread zeroed_buffer hd.point_data_record_length
        (fseeko64 fp (record_addr hd i)).2).2.1 hd.point_data_format swap r = none ∧
      slas_update_point_data fp i hd swap r =
        some (-4, (fread zeroed_buffer hd.point_data_record_length
          (fseeko64 fp (record_addr hd i)).2).2.2, r)) ∨
    (∃ p, update_fields (fread zeroed_buffer hd.point_data_record_length
        (fseeko64 fp (record_addr hd i)).2).2.1 hd.point_data_format swap r = some p ∧
      ∃ c f, slas_update_point_data fp i hd swap r = some (c, f, p.2) ∧
        (c = -5 ∨ c = -6 ∨ c = 0)) := by
  have hl : ¬ hd.point_data_record_length > 128 := by omega
  unfold slas_update_point_data
  simp only [hin, Bool.false_eq_true, if_false, hseek, lt_self_iff_false, hl, hread,
    one_ne_zero]
  cases hu : update_fields (fread zeroed_buffer hd.point_data_record_length
      (fseeko64 fp (record_addr hd i)).2).2.1 hd.point_data_format swap r with
  | none => left; simp
  | some p =>
    right
    refine ⟨p, rfl, ?_⟩
    simp only []
    split
    · exact ⟨_, _, rfl, Or.inl rfl⟩
    · split
      · exact ⟨_, _, rfl, Or.inr (Or.inl rfl)⟩
      · exact ⟨_, _, rfl, Or.inr (Or.inr rfl)⟩

/-- C4. Validation: for an in-range index whose seek and read succeed,
`slas_update_point_data` returns -4 exactly when `point_data_format <= 5` and
`record.classification > 31`; in that case only the seek and the read were
issued on the store (no write), every byte of the store is unchanged, the
caller record is unchanged, and a decode of the record issued afterwards
(under the fault schedule the store had before the call) returns code 0 with
the same record as the same decode issued before the call. -/
theorem C4_validation (fa : FloatArith) (fp : FILE) (recnum : Nat) (lasheader : LASheader)
    (swap : Nat) (record : SLAS_POINT_DATA)
    (hin : out_of_bounds lasheader recnum = false)
    (hlen : lasheader.point_data_record_length ≤ 128)
    (hseek : (fseeko64 fp (record_addr lasheader recnum)).1 = 0)
    (hread : (fread zeroed_buffer lasheader.point_data_record_length
      (fseeko64 fp (record_addr lasheader recnum)).2).1 = 1) :
    ((∃ fp' r', slas_update_point_data fp recnum lasheader swap record = some (-4, fp', r')) ↔
      (lasheader.point_data_format ≤ 5 ∧ record.classification > 31)) ∧
    (∀ fp' r', slas_update_point_data fp recnum lasheader swap record = some (-4, fp', r') →
      fp'.content = fp.content ∧
      fp'.log = .read lasheader.point_data_record_length ::
        .seek (record_addr lasheader recnum) :: fp.log ∧
      r' = record ∧
      ∀ (sw : Nat) (r0 : SLAS_POINT_DATA), ∃ d,
        outcome (slas_read_point_data fa fp recnum lasheader sw r0) = some (0, d) ∧
        outcome (slas_read_point_data fa { fp' with faults := fp.faults } recnum lasheader sw r0)
          = some (0, d)) := by
  have hl : ¬ lasheader.point_data_record_length > 128 := by omega
  have hcontent : (fread zeroed_buffer lasheader.point_data_record_length
      (fseeko64 fp (record_addr lasheader recnum)).2).2.2.content = fp.content := by
    rw [(fread_store _ _ _).1, (fseeko64_store _ _).1]
  have hlog : (fread zeroed_buffer lasheader.point_data_record_length
      (fseeko64 fp (record_addr lasheader recnum)).2).2.2.log =
      .read lasheader.point_data_record_length ::
        .seek (record_addr lasheader recnum) :: fp.log := by
    rw [(fread_store _ _ _).2.1, (fseeko64_store _ _).2.1]
  have hdef : (fread zeroed_buffer lasheader.point_data_record_length
      (fseeko64 fp (record_addr lasheader recnum)).2).2.2.faultDefault = fp.faultDefault := by
    rw [(fread_store _ _ _).2.2.2, (fseeko64_store _ _).2.2.2]
  refine ⟨⟨?_, ?_⟩, ?_⟩
  · rintro ⟨fp', r', h⟩
    rcases update_after_read swap record hin hlen hseek hread with ⟨hn, -⟩ | ⟨p, -, c, f, hc, hcode⟩
    · exact (update_fields_none_iff _ _ _ _).1 hn
    · rw [hc] at h
      simp only [Option.some.injEq, Prod.mk.injEq] at h
      omega
  · intro hv
    rcases update_after_read swap record hin hlen hseek hread with ⟨-, hr⟩ | ⟨p, hp, -⟩
    · exact ⟨_, _, hr⟩
    · rw [(update_fields_none_iff _ _ _ _).2 hv] at hp
      exact absurd hp (by simp)
  · intro fp' r' h
    rcases update_after_read swap record hin hlen hseek hread with ⟨-, hr⟩ | ⟨p, -, c, f, hc, hcode⟩
    · rw [hr] at h
      simp only [Option.some.injEq, Prod.mk.injEq, true_and] at h
      obtain ⟨hfp, hrr⟩ := h
      subst hfp hrr
      refine ⟨hcontent, hlog, rfl, ?_⟩
      intro sw r0
      refine ⟨decoded fa lasheader sw (fread zeroed_buffer lasheader.point_data_record_length
        (fseeko64 fp (record_addr lasheader recnum)).2).2.1, ?_, ?_⟩
      · unfold slas_read_point_data outcome
        simp only [hin, Bool.false_eq_true, if_false, hseek, lt_self_iff_false, hl, hread,
          one_ne_zero, Option.map_some', decoded]
      · rw [read_outcome_congr fa
          { (fread zeroed_buffer lasheader.point_data_record_length
              (fseeko64 fp (record_addr lasheader recnum)).2).2.2 with faults := fp.faults }
          fp recnum lasheader sw r0 hcontent rfl hdef]
        unfold slas_read_point_data outcome
        simp only [hin, Bool.false_eq_true, if_false, hseek, lt_self_iff_false, hl, hread,
          one_ne_zero, Option.map_some', decoded]
    · rw [hc] at h
      simp only [Option.some.injEq, Prod.mk.injEq] at h
      omega

theorem putBytes_two (data : List Nat) (pos v : Nat) :
    putBytes data pos (leBytes 2 v) = (data.set pos (v % 256)).set (pos + 1) (v / 256 % 256) :=
  rfl

theorem getD_set_ne (l : List Nat) (i j v : Nat) (h : i ≠ j) :
    (l.set i v).getD j 0 = l.getD j 0 := by
  rw [getD_set, if_neg]; intro h'; exact h h'.1

theorem put_rgb_frame (swap : Nat) (data : List Nat) (pos : Nat) (r : SLAS_POINT_DATA) :
    (put_rgb swap data pos r).1.length = data.length ∧
    ∀ j, (j < pos ∨ pos + 6 ≤ j) → (put_rgb swap data pos r).1.getD j 0 = data.getD j 0 := by
  unfold put_rgb
  simp only [putBytes_two, List.length_set, true_and]
  intro j hj
  simp (disch := omega) only [getD_set_ne]

theorem put_rgb_nir_frame (swap : Nat) (data : List Nat) (pos : Nat) (r : SLAS_POINT_DATA) :
    (put_rgb_nir swap data pos r).1.length = data.length ∧
    ∀ j, (j < pos ∨ pos + 8 ≤ j) → (put_rgb_nir swap data pos r).1.getD j 0 = data.getD j 0 := by
  unfold put_rgb_nir
  simp only [putBytes_two, List.length_set, true_and]
  intro j hj
  simp (disch := omega) only [getD_set_ne]

theorem put_optional_frame (data : List Nat) (fmt swap : Nat) (r : SLAS_POINT_DATA) :
    (put_optional data fmt swap (if fmt > 5 then 22 else 20) r).1.length = data.length ∧
    ∀ j, j ∉ colour_offsets fmt →
      (put_optional data fmt swap (if fmt > 5 then 22 else 20) r).1.getD j 0 = data.getD j 0 := by
  unfold put_optional
  split
  case h_1 | h_2 | h_6 | h_7 | h_11 => exact ⟨rfl, fun _ _ => rfl⟩
  case h_3 | h_4 | h_5 | h_8 =>
    refine ⟨(put_rgb_frame _ _ _ _).1, fun j hj => (put_rgb_frame _ _ _ _).2 j ?_⟩
    simp [colour_offsets] at hj ⊢; omega
  case h_9 | h_10 =>
    refine ⟨(put_rgb_nir_frame _ _ _ _).1, fun j hj => (put_rgb_nir_frame _ _ _ _).2 j ?_⟩
    simp [colour_offsets] at hj ⊢; omega

theorem update_fields_frame {data data' : List Nat} {fmt swap : Nat} {r r' : SLAS_POINT_DATA}
    (h : update_fields data fmt swap r = some (data', r')) :
    data'.length = data.length ∧
    ∀ j, j ∉ modifiable_offsets fmt → data'.getD j 0 = data.getD j 0 := by
  unfold update_fields at h
  cases hc : update_cls fmt (leVal (bytesAt data (0 + 4 + 4 + 4 + 2 + 1) 1)) r with
  | none => simp [hc] at h
  | some c =>
    simp only [hc, Option.some.injEq] at h
    by_cases hf : fmt > 5
    · simp only [hf, if_true] at h
      have hp := put_optional_frame (((data.set 15 c).set 16 r.classification).set 17 r.user_data)
        fmt swap r
      simp only [hf, if_true] at hp
      rw [h] at hp
      simp only [List.length_set] at hp
      refine ⟨hp.1, fun j hj => ?_⟩
      simp only [modifiable_offsets, hf, if_true, List.mem_append, List.mem_cons,
        List.mem_singleton, not_or, List.not_mem_nil, or_false] at hj
      rw [hp.2 j hj.2]
      simp (disch := omega) only [getD_set_ne]
    · simp only [hf, if_false] at h
      have hp := put_optional_frame ((data.set 15 c).set 17 r.user_data) fmt swap r
      simp only [hf, if_false] at hp
      rw [h] at hp
      simp only [List.length_set] at hp
      refine ⟨hp.1, fun j hj => ?_⟩
      simp only [modifiable_offsets, hf, if_false, List.mem_append, List.mem_cons,
        List.mem_singleton, not_or, List.not_mem_nil, or_false] at hj
      rw [hp.2 j hj.2]
      simp (disch := omega) only [getD_set_ne]

theorem update_cls_congr (fmt cls : Nat) {r1 r2 : SLAS_POINT_DATA}
    (h : same_modifiable r1 r2) : update_cls fmt cls r1 = update_cls fmt cls r2 := by
  obtain ⟨h1, -, -, -, -, -, h7, h8, h9, h10⟩ := h
  unfold update_cls
  rw [h1, h7, h8, h9, h10]

theorem put_optional_congr (data : List Nat) (fmt swap pos : Nat) {r1 r2 : SLAS_POINT_DATA}
    (h : same_modifiable r1 r2) :
    (put_optional data fmt swap pos r1).1 = (put_optional data fmt swap pos r2).1 := by
  obtain ⟨-, -, h3, h4, h5, h6, -, -, -, -⟩ := h
  unfold put_optional
  split
  case h_1 | h_2 | h_6 | h_7 | h_11 => rfl
  case h_3 | h_4 | h_5 | h_8 =>
    unfold put_rgb
    by_cases hs : swap = 0
    · simp [hs, h3, h4, h5]
    · simp [hs, swap_rgb, h3, h4, h5]
  case h_9 | h_10 =>
    unfold put_rgb_nir
    by_cases hs : swap = 0
    · simp [hs, h3, h4, h5, h6]
    · simp [hs, swap_rgb, swap_nir, h3, h4, h5, h6]

theorem update_fields_congr (data : List Nat) (fmt swap : Nat) {r1 r2 : SLAS_POINT_DATA}
    (h : same_modifiable r1 r2) :
    (update_fields data fmt swap r1).map Prod.fst =
      (update_fields data fmt swap r2).map Prod.fst := by
  unfold update_fields
  simp only []
  rw [update_cls_congr fmt _ h]
  cases update_cls fmt (leVal (bytesAt data (0 + 4 + 4 + 4 + 2 + 1) 1)) r2 with
  | none => rfl
  | some c =>
    simp only [Option.map_some', Option.some.injEq]
    rw [h.1, h.2.1]
    exact put_optional_congr _ _ _ _ h

theorem update_effect_congr (fp : FILE) (i : Nat) (hd : LASheader) (swap : Nat)
    {r1 r2 : SLAS_POINT_DATA} (h : same_modifiable r1 r2) :
    effect (slas_update_point_data fp i hd swap r1) =
      effect (slas_update_point_data fp i hd swap r2) := by
  have hu := update_fields_congr (fread zeroed_buffer hd.point_data_record_length
    (fseeko64 fp (record_addr hd i)).2).2.1 hd.point_data_format swap h
  unfold slas_update_point_data effect
  by_cases hb : out_of_bounds hd i = true
  · simp [hb]
  simp only [hb, Bool.false_eq_true, if_false]
  by_cases hs : (fseeko64 fp (record_addr hd i)).1 < 0
  · simp [hs]
  simp only [hs, if_false]
  by_cases hl : hd.point_data_record_length > 128
  · simp [hl]
  simp only [hl, if_false]
  by_cases hn : (fread zeroed_buffer hd.point_data_record_length
      (fseeko64 fp (record_addr hd i)).2).1 = 0
  · simp [hn]
  simp only [hn, if_false]
  cases h1 : update_fields (fread zeroed_buffer hd.point_data_record_length
      (fseeko64 fp (record_addr hd i)).2).2.1 hd.point_data_format swap r1 with
  | none =>
    cases h2 : update_fields (fread zeroed_buffer hd.point_data_record_length
        (fseeko64 fp (record_addr hd i)).2).2.1 hd.point_data_format swap r2 with
    | none => rfl
    | some p2 => rw [h1, h2] at hu; simp at hu
  | some p1 =>
    cases h2 : update_fields (fread zeroed_buffer hd.point_data_record_length
        (fseeko64 fp (record_addr hd i)).2).2.1 hd.point_data_format swap r2 with
    | none => rw [h1, h2] at hu; simp at hu
    | some p2 =>
      rw [h1, h2] at hu
      simp only [Option.map_some', Option.some.injEq] at hu
      obtain ⟨d1, q1⟩ := p1
      obtain ⟨d2, q2⟩ := p2
      simp only at hu
      subst hu
      simp only []
      split
      · rfl
      · split <;> rfl

/-- C3. Encode never alters non-modifiable fields: for every format 0-10,
either swap setting and every caller record, a successful
`slas_update_point_data` leaves unchanged every byte of record `recnum` that
holds x, y, z, intensity, the returns byte, the scan angle, the point source
id, gps time or the waveform linkage block, as well as the bytes of the
record past the format's layout; and the store it leaves does not depend on
the caller record's values for the non-modifiable fields: a caller record
that agrees on the modifiable fields gives the same code and the same
store. -/
theorem C3_encode_preserves_nonmodifiable (fp fp' : FILE) (recnum : Nat)
    (lasheader : LASheader) (swap : Nat) (record r' : SLAS_POINT_DATA)
    (hfmt : lasheader.point_data_format ≤ 10)
    (h : slas_update_point_data fp recnum lasheader swap record = some (0, fp', r')) :
    (∀ j, j < lasheader.point_data_record_length →
      holds_nonmodifiable lasheader.point_data_format j = true →
      fp'.content.getD ((record_addr lasheader recnum).toNat + j) 0 =
        fp.content.getD ((record_addr lasheader recnum).toNat + j) 0) ∧
    (∀ record2, same_modifiable record record2 →
      ∃ r2', slas_update_point_data fp recnum lasheader swap record2 = some (0, fp', r2')) := by
  obtain ⟨-, -, h128, -, hlen, data', hu, hw⟩ := update_ok h
  obtain ⟨hl', hfr⟩ := update_fields_frame hu
  rw [length_record_buffer _ _ _ hlen h128] at hl'
  refine ⟨fun j hj hn => ?_, fun record2 hsame => ?_⟩
  · rw [hw, getD_written _ _ _ _ _ hlen (by omega),
      if_pos ⟨by omega, by omega⟩,
      Nat.add_sub_cancel_left, hfr j (nonmodifiable_not_overlaid _ _ hfmt hn),
      getD_record_buffer _ _ _ _ hlen, if_pos hj]
  · have he := update_effect_congr fp recnum lasheader swap hsame
    rw [h] at he
    cases h2 : slas_update_point_data fp recnum lasheader swap record2 with
    | none => rw [h2] at he; simp [effect] at he
    | some q =>
      obtain ⟨c, f, r2'⟩ := q
      rw [h2] at he
      simp only [effect, Option.map_some', Option.some.injEq, Prod.mk.injEq] at he
      exact ⟨r2', by rw [← he.1, ← he.2]⟩

theorem leVal_leBytes_two (v : Nat) (h : v < 65536) : leVal (leBytes 2 v) = v := by
  simp only [leBytes, leVal]; omega

theorem swap_short_eq (v : Nat) : swap_short v = v / 256 % 256 + 256 * (v % 256) := by
  simp [swap_short, byteSwap, leBytes, leVal]

theorem swap_short_lt (v : Nat) : swap_short v < 65536 := by
  rw [swap_short_eq]; omega

theorem swap_short_swap_short (v : Nat) (h : v < 65536) : swap_short (swap_short v) = v := by
  rw [swap_short_eq, swap_short_eq]
  have h1 : (v / 256 % 256 + 256 * (v % 256)) / 256 = v % 256 := by omega
  have h2 : (v / 256 % 256 + 256 * (v % 256)) % 256 = v / 256 % 256 := by omega
  rw [h1, h2]
  omega

/-- A 16 bit field written by encode and read back by decode. -/
theorem colour_roundtrip (swap v : Nat) (h : v < 65536) :
    (if swap ≠ 0 then
      swap_short (leVal (leBytes 2 (if swap ≠ 0 then swap_short v else v)))
     else leVal (leBytes 2 (if swap ≠ 0 then swap_short v else v))) = v := by
  by_cases hs : swap = 0
  · simp only [hs, ne_eq, not_true_eq_false, if_false]; exact leVal_leBytes_two v h
  · simp only [hs, ne_eq, not_false_eq_true, if_true]
    rw [leVal_leBytes_two _ (swap_short_lt v), swap_short_swap_short v h]

theorem bytesAt_putBytes_two (data : List Nat) (pos v : Nat) (h : pos + 2 ≤ data.length) :
    bytesAt (putBytes data pos (leBytes 2 v)) pos 2 = leBytes 2 v := by
  rw [putBytes_two, bytesAt_two]
  simp only [getD_set, List.length_set]
  have h1 : pos + 1 ≠ pos := by omega
  have h2 : pos < data.length := by omega
  have h3 : pos + 1 < data.length := by omega
  simp [h1, h2, h3, leBytes]

theorem bytesAt_putBytes_two_ne (data : List Nat) (pos q v : Nat)
    (h : q + 2 ≤ pos ∨ pos + 2 ≤ q) :
    bytesAt (putBytes data pos (leBytes 2 v)) q 2 = bytesAt data q 2 := by
  rw [putBytes_two, bytesAt_two, bytesAt_two]
  simp (disch := omega) only [getD_set_ne]

theorem put_rgb_values (swap : Nat) (data : List Nat) (pos : Nat) (r : SLAS_POINT_DATA)
    (h : pos + 6 ≤ data.length) :
    bytesAt (put_rgb swap data pos r).1 pos 2 =
      leBytes 2 (if swap ≠ 0 then swap_short r.red else r.red) ∧
    bytesAt (put_rgb swap data pos r).1 (pos + 2) 2 =
      leBytes 2 (if swap ≠ 0 then swap_short r.green else r.green) ∧
    bytesAt (put_rgb swap data pos r).1 (pos + 2 + 2) 2 =
      leBytes 2 (if swap ≠ 0 then swap_short r.blue else r.blue) := by
  unfold put_rgb
  simp only []
  refine ⟨?_, ?_, ?_⟩
  · rw [bytesAt_putBytes_two_ne _ _ _ _ (by omega), bytesAt_putBytes_two_ne _ _ _ _ (by omega),
      bytesAt_putBytes_two _ _ _ (by omega)]
    split <;> rfl
  · rw [bytesAt_putBytes_two_ne _ _ _ _ (by omega),
      bytesAt_putBytes_two _ _ _ (by rw [length_putBytes]; omega)]
    split <;> rfl
  · rw [bytesAt_putBytes_two _ _ _ (by rw [length_putBytes, length_putBytes]; omega)]
    split <;> rfl

theorem put_rgb_nir_values (swap : Nat) (data : List Nat) (pos : Nat) (r : SLAS_POINT_DATA)
    (h : pos + 8 ≤ data.length) :
    bytesAt (put_rgb_nir swap data pos r).1 pos 2 =
      leBytes 2 (if swap ≠ 0 then swap_short r.red else r.red) ∧
    bytesAt (put_rgb_nir swap data pos r).1 (pos + 2) 2 =
      leBytes 2 (if swap ≠ 0 then swap_short r.green else r.green) ∧
    bytesAt (put_rgb_nir swap data pos r).1 (pos + 2 + 2) 2 =
      leBytes 2 (if swap ≠ 0 then swap_short r.blue else r.blue) ∧
    bytesAt (put_rgb_nir swap data pos r).1 (pos + 2 + 2 + 2) 2 =
      leBytes 2 (if swap ≠ 0 then swap_short r.NIR else r.NIR) := by
  unfold put_rgb_nir
  simp only []
  refine ⟨?_, ?_, ?_, ?_⟩
  · rw [bytesAt_putBytes_two_ne _ _ _ _ (by omega), bytesAt_putBytes_two_ne _ _ _ _ (by omega),
      bytesAt_putBytes_two_ne _ _ _ _ (by omega), bytesAt_putBytes_two _ _ _ (by omega)]
    split <;> rfl
  · rw [bytesAt_putBytes_two_ne _ _ _ _ (by omega), bytesAt_putBytes_two_ne _ _ _ _ (by omega),
      bytesAt_putBytes_two _ _ _ (by rw [length_putBytes]; omega)]
    split <;> rfl
  · rw [bytesAt_putBytes_two_ne _ _ _ _ (by omega),
      bytesAt_putBytes_two _ _ _ (by rw [length_putBytes, length_putBytes]; omega)]
    split <;> rfl
  · rw [bytesAt_putBytes_two _ _ _
      (by rw [length_putBytes, length_putBytes, length_putBytes]; omega)]
    split <;> rfl

theorem decoded_rgb (fa : FloatArith) (hd : LASheader) (swap : Nat) (data : List Nat)
    (hf : hd.point_data_format ∈ [2, 3, 5, 7, 8, 10]) :
    (decoded fa hd swap data).red =
      (if swap ≠ 0 then swap_short (leVal (bytesAt data (colour_pos hd.point_data_format) 2))
       else leVal (bytesAt data (colour_pos hd.point_data_format) 2)) ∧
    (decoded fa hd swap data).green =
      (if swap ≠ 0 then swap_short (leVal (bytesAt data (colour_pos hd.point_data_format + 2) 2))
       else leVal (bytesAt data (colour_pos hd.point_data_format + 2) 2)) ∧
    (decoded fa hd swap data).blue =
      (if swap ≠ 0 then
        swap_short (leVal (bytesAt data (colour_pos hd.point_data_format + 2 + 2) 2))
       else leVal (bytesAt data (colour_pos hd.point_data_format + 2 + 2) 2)) := by
  simp only [List.mem_cons, List.mem_singleton, List.not_mem_nil, or_false] at hf
  unfold decoded
  rcases hf with h | h | h | h | h | h <;> rw [h] <;>
    by_cases hs : swap = 0 <;>
    simp [decode_fields, swap_fields, swap_optional, read_fields, read_optional, get_gps_time,
      get_rgb, get_nir, get_wave, swap_rgb, swap_nir, swap_wave, swap_gps_time, colour_pos, hs, h]

theorem decoded_nir (fa : FloatArith) (hd : LASheader) (swap : Nat) (data : List Nat)
    (hf : hd.point_data_format ∈ [8, 10]) :
    (decoded fa hd swap data).NIR =
      (if swap ≠ 0 then swap_short (leVal (bytesAt data (30 + 2 + 2 + 2) 2))
       else leVal (bytesAt data (30 + 2 + 2 + 2) 2)) := by
  simp only [List.mem_cons, List.mem_singleton, List.not_mem_nil, or_false] at hf
  unfold decoded
  rcases hf with h | h <;> rw [h] <;>
    by_cases hs : swap = 0 <;>
    simp [decode_fields, swap_fields, swap_optional, read_fields, read_optional, get_gps_time,
      get_rgb, get_nir, get_wave, swap_rgb, swap_nir, swap_wave, swap_gps_time, hs, h]

theorem colour_offsets_ge (fmt j : Nat) (h : j ∈ colour_offsets fmt) : 20 ≤ j := by
  unfold colour_offsets at h
  split at h <;> simp at h <;> omega

theorem update_fields_values {data data' : List Nat} {fmt swap : Nat} {r r' : SLAS_POINT_DATA}
    (hlen : data.length = 128)
    (h : update_fields data fmt swap r = some (data', r')) :
    update_cls fmt (data.getD 15 0) r = some (data'.getD 15 0) ∧
    data'.getD 17 0 = r.user_data ∧
    (fmt > 5 → data'.getD 16 0 = r.classification) ∧
    ∃ D, D.length = 128 ∧ data' = (put_optional D fmt swap (if fmt > 5 then 22 else 20) r).1 := by
  have n15 : 15 ∉ colour_offsets fmt := fun hc => by have := colour_offsets_ge _ _ hc; omega
  have n16 : 16 ∉ colour_offsets fmt := fun hc => by have := colour_offsets_ge _ _ hc; omega
  have n17 : 17 ∉ colour_offsets fmt := fun hc => by have := colour_offsets_ge _ _ hc; omega
  unfold update_fields at h
  simp only [bytesAt_one, leVal_one, Nat.zero_add, Nat.reduceAdd] at h
  cases hc : update_cls fmt (data.getD 15 0) r with
  | none => rw [hc] at h; exact absurd h (by simp)
  | some c =>
    simp only [hc, Option.some.injEq] at h
    by_cases hf : fmt > 5
    · simp only [hf, if_true] at h ⊢
      have hp := put_optional_frame (((data.set 15 c).set 16 r.classification).set 17 r.user_data)
        fmt swap r
      simp only [hf, if_true] at hp
      rw [h] at hp
      simp only [Prod.fst] at hp
      rw [hp.2 15 n15, hp.2 16 n16, hp.2 17 n17]
      simp only [getD_set, List.length_set, hlen]
      refine ⟨by simp, by simp, fun _ => by simp, _, ?_, congrArg Prod.fst h.symm⟩
      simp [hlen]
    · simp only [hf, if_false] at h ⊢
      have hp := put_optional_frame ((data.set 15 c).set 17 r.user_data) fmt swap r
      simp only [hf, if_false] at hp
      rw [h] at hp
      simp only [Prod.fst] at hp
      rw [hp.2 15 n15, hp.2 17 n17]
      simp only [getD_set, List.length_set, hlen]
      refine ⟨by simp, by simp, fun hh => False.elim hh, _, ?_, congrArg Prod.fst h.symm⟩
      simp [hlen]

theorem list_ext_getD {l1 l2 : List Nat} (hl : l1.length = l2.length)
    (h : ∀ j, l1.getD j 0 = l2.getD j 0) : l1 = l2 := by
  apply List.ext_getElem hl
  intro n h1 h2
  have := h n
  rwa [List.getD_eq_getElem _ _ h1, List.getD_eq_getElem _ _ h2] at this

theorem reread_buffer (content data' : List Nat) (a len : Nat)
    (h1 : a + len ≤ content.length) (h2 : len ≤ 128) (hl : data'.length = 128)
    (hz : ∀ j, len ≤ j → data'.getD j 0 = 0) :
    record_buffer (written content a len data') a len = data' := by
  have hw : a + len ≤ (written content a len data').length := by
    rw [length_written _ _ _ _ h1 (by omega)]; exact h1
  apply list_ext_getD
  · rw [length_record_buffer _ _ _ hw h2, hl]
  · intro j
    rw [getD_record_buffer _ _ _ _ hw]
    by_cases hj : j < len
    · rw [if_pos hj, getD_written _ _ _ _ _ h1 (by omega), if_pos ⟨by omega, by omega⟩,
        Nat.add_sub_cancel_left]
    · rw [if_neg hj, hz j (by omega)]

theorem modifiable_lt_layout (fmt j : Nat) (hfmt : fmt ≤ 10) (h : j ∈ modifiable_offsets fmt) :
    j < layout_size fmt := by
  interval_cases fmt <;>
    simp [modifiable_offsets, colour_offsets, layout_size, read_optional,
      get_gps_time, get_rgb, get_nir, get_wave] at h ⊢ <;> omega

theorem update_cls_legacy {fmt b c : Nat} {r : SLAS_POINT_DATA} (hf : ¬ fmt > 5)
    (h : update_cls fmt b r = some c) :
    r.classification ≤ 31 ∧ c &&& 0x1f = r.classification ∧
    (c &&& 0x20) >>> 5 = (if r.synthetic ≠ 0 then 1 else 0) ∧
    (c &&& 0x40) >>> 6 = (if r.keypoint ≠ 0 then 1 else 0) ∧
    (c &&& 0x80) >>> 7 = (if r.withheld ≠ 0 then 1 else 0) := by
  unfold update_cls at h
  simp only [hf, if_false] at h
  by_cases hc : r.classification > 31
  · simp [hc] at h
  simp only [hc, if_false, Option.some.injEq] at h
  have hc' : r.classification < 32 := by omega
  refine ⟨by omega, ?_⟩
  subst h
  generalize r.classification = cl at hc'
  by_cases h1 : r.synthetic = 0 <;> by_cases h2 : r.keypoint = 0 <;>
    by_cases h3 : r.withheld = 0 <;>
    simp only [h1, h2, h3, ne_eq, not_true_eq_false, not_false_eq_true, if_true, if_false] <;>
    (interval_cases cl <;> decide)

theorem put_optional_rgb (D : List Nat) (fmt swap : Nat) (r : SLAS_POINT_DATA)
    (hf : fmt ∈ [2, 3, 5, 7]) :
    put_optional D fmt swap (if fmt > 5 then 22 else 20) r = put_rgb swap D (colour_pos fmt) r := by
  simp only [List.mem_cons, List.mem_singleton, List.not_mem_nil, or_false] at hf
  rcases hf with h | h | h | h <;> subst h <;> rfl

theorem put_optional_rgb_nir (D : List Nat) (fmt swap : Nat) (r : SLAS_POINT_DATA)
    (hf : fmt ∈ [8, 10]) :
    put_optional D fmt swap (if fmt > 5 then 22 else 20) r = put_rgb_nir swap D 30 r := by
  simp only [List.mem_cons, List.mem_singleton, List.not_mem_nil, or_false] at hf
  rcases hf with h | h <;> subst h <;> rfl

theorem decoded_user_data (fa : FloatArith) (hd : LASheader) (swap : Nat) (data : List Nat) :
    (decoded fa hd swap data).user_data = data.getD 17 0 := by
  unfold decoded decode_fields
  simp only []
  split <;> simp only [(swap_fields_fixed _ _ _).2.1, (read_fields_fixed _ _).2.1]

theorem decoded_classification (fa : FloatArith) (hd : LASheader) (swap : Nat)
    (data : List Nat) :
    (decoded fa hd swap data).classification =
      if hd.point_data_format > 5 then data.getD 16 0 else data.getD 15 0 &&& 0x1f := by
  unfold decoded decode_fields
  simp only []
  split
  · rename_i h
    simp only [(swap_fields_fixed _ _ _).1, (read_fields_fixed _ _).2.2 h]
  · simp only [(decoded_rets_cls hd swap data).2]

/-- What decode returns for the modifiable value fields of a buffer that
encode has overlaid. -/
theorem decode_after_overlay (fa : FloatArith) (hd : LASheader) (swap : Nat)
    {data data' : List Nat} {r r' : SLAS_POINT_DATA}
    (hlen : data.length = 128) (hwf : r.wf)
    (hu : update_fields data hd.point_data_format swap r = some (data', r')) :
    (decoded fa hd swap data').classification = r.classification ∧
    (decoded fa hd swap data').user_data = r.user_data ∧
    (hd.point_data_format ∈ [2, 3, 5, 7, 8, 10] →
      (decoded fa hd swap data').red = r.red ∧ (decoded fa hd swap data').green = r.green ∧
      (decoded fa hd swap data').blue = r.blue) ∧
    (hd.point_data_format ∈ [8, 10] → (decoded fa hd swap data').NIR = r.NIR) := by
  obtain ⟨hcls, h17, h16, D, hD, hdata⟩ := update_fields_values hlen hu
  obtain ⟨-, -, -, -, -, -, -, -, -, hred, hgreen, hblue, hnir, -⟩ := hwf
  refine ⟨?_, ?_, ?_, ?_⟩
  · rw [decoded_classification]
    by_cases hf : hd.point_data_format > 5
    · rw [if_pos hf, h16 hf]
    · rw [if_neg hf]; exact (update_cls_legacy hf hcls).2.1
  · rw [decoded_user_data, h17]
  · intro hf
    obtain ⟨e1, e2, e3⟩ := decoded_rgb fa hd swap data' hf
    rw [e1, e2, e3]
    have hcp : colour_pos hd.point_data_format + 8 ≤ 128 := by
      unfold colour_pos; split
      · omega
      · split <;> omega
    by_cases h8 : hd.point_data_format ∈ [8, 10]
    · have hp : colour_pos hd.point_data_format = 30 := by
        simp only [List.mem_cons, List.mem_singleton, List.not_mem_nil, or_false] at h8
        rcases h8 with h | h <;> rw [h] <;> rfl
      rw [put_optional_rgb_nir D _ swap r h8] at hdata
      obtain ⟨v1, v2, v3, -⟩ := put_rgb_nir_values swap D 30 r (by omega)
      rw [hp, hdata, v1, v2, v3]
      exact ⟨colour_roundtrip swap _ hred, colour_roundtrip swap _ hgreen,
        colour_roundtrip swap _ hblue⟩
    · have h4 : hd.point_data_format ∈ [2, 3, 5, 7] := by
        simp only [List.mem_cons, List.mem_singleton, List.not_mem_nil, or_false] at hf h8 ⊢
        omega
      rw [put_optional_rgb D _ swap r h4] at hdata
      obtain ⟨v1, v2, v3⟩ := put_rgb_values swap D (colour_pos hd.point_data_format) r
        (by omega)
      rw [hdata, v1, v2, v3]
      exact ⟨colour_roundtrip swap _ hred, colour_roundtrip swap _ hgreen,
        colour_roundtrip swap _ hblue⟩
  · intro h8
    rw [decoded_nir fa hd swap data' h8]
    rw [put_optional_rgb_nir D _ swap r h8] at hdata
    obtain ⟨-, -, -, v4⟩ := put_rgb_nir_values swap D 30 r (by omega)
    rw [hdata, v4]
    exact colour_roundtrip swap _ hnir

theorem read_total (fa : FloatArith) (fp : FILE) (i : Nat) (hd : LASheader) (swap : Nat)
    (r : SLAS_POINT_DATA)
    (hb : out_of_bounds hd i = false) (ha : 0 ≤ record_addr hd i)
    (hl : hd.point_data_record_length ≤ 128) (h0 : hd.point_data_record_length ≠ 0)
    (hc : (record_addr hd i).toNat + hd.point_data_record_length ≤ fp.content.length)
    (hf : fp.faults = []) (hfd : fp.faultDefault = false) :
    ∃ fp', slas_read_point_data fa fp i hd swap r =
      some (0, fp', decoded fa hd swap
        (record_buffer fp.content (record_addr hd i).toNat hd.point_data_record_length)) := by
  have hl' : ¬ hd.point_data_record_length > 128 := by omega
  have hnf : fp.nextFault = false := by simp [FILE.nextFault, hf, hfd]
  rcases fseeko64_cases fp (record_addr hd i) with ⟨-, hx, -⟩ | ⟨s1, -, -, s3⟩
  · rcases hx with hx | hx
    · rw [hnf] at hx; exact absurd hx (by simp)
    · omega
  have sc : (fseeko64 fp (record_addr hd i)).2.content = fp.content := (fseeko64_store _ _).1
  have sp : (fseeko64 fp (record_addr hd i)).2.pos = (record_addr hd i).toNat := by rw [s3]
  have sf : (fseeko64 fp (record_addr hd i)).2.nextFault = false := by
    simp [FILE.nextFault, (fseeko64_store fp _).2.2.1, (fseeko64_store fp _).2.2.2, hf, hfd]
  rcases fread_cases zeroed_buffer hd.point_data_record_length
      (fseeko64 fp (record_addr hd i)).2 with ⟨-, gx, -, -⟩ | ⟨g1, -, -, -, g5, -⟩
  · rcases gx with gx | gx | gx
    · exact absurd gx h0
    · rw [sf] at gx; exact absurd gx (by simp)
    · rw [sc, sp] at gx; omega
  rw [sc, sp] at g5
  refine ⟨(fread zeroed_buffer hd.point_data_record_length
    (fseeko64 fp (record_addr hd i)).2).2.2, ?_⟩
  unfold slas_read_point_data
  simp only [hb, Bool.false_eq_true, if_false, s1, lt_self_iff_false, hl', g1, one_ne_zero, g5]
  rfl

/-- C6 (as amended). Write-then-read of the modifiable value fields, for a
header whose `point_data_record_length` covers the layout of the format: after
a successful `slas_update_point_data` of `record` at `recnum` (any format
0-10, either swap setting), every successful `slas_read_point_data` of
`recnum` on the resulting store, with the same header and swap, returns
classification = `record.classification`, user_data = `record.user_data`,
and, for the formats that carry colour (2, 3, 5, 7, 8, 10), red, green, blue
(and NIR for formats 8 and 10) equal to the values `record` held when encode
was called; and that read does return code 0 when no fault is scheduled on
the store. -/
theorem C6_write_then_read (fa : FloatArith) (fp fp' : FILE) (recnum : Nat)
    (lasheader : LASheader) (swap : Nat) (record r' : SLAS_POINT_DATA)
    (hfmt : lasheader.point_data_format ≤ 10)
    (hcover : layout_size lasheader.point_data_format ≤ lasheader.point_data_record_length)
    (hwf : record.wf)
    (hu : slas_update_point_data fp recnum lasheader swap record = some (0, fp', r')) :
    (∀ r0 fp'' d, slas_read_point_data fa fp' recnum lasheader swap r0 = some (0, fp'', d) →
      d.classification = record.classification ∧ d.user_data = record.user_data ∧
      (lasheader.point_data_format ∈ [2, 3, 5, 7, 8, 10] →
        d.red = record.red ∧ d.green = record.green ∧ d.blue = record.blue) ∧
      (lasheader.point_data_format ∈ [8, 10] → d.NIR = record.NIR)) ∧
    (fp'.faults = [] → fp'.faultDefault = false →
      ∀ r0, ∃ fp'' d, slas_read_point_data fa fp' recnum lasheader swap r0 = some (0, fp'', d)) := by
  obtain ⟨hb, ha, h128, h0, hlen, data', hfields, hw⟩ := update_ok hu
  have hbuf := length_record_buffer fp.content _ _ hlen h128
  obtain ⟨hl', hfr⟩ := update_fields_frame hfields
  rw [hbuf] at hl'
  have hz : ∀ j, lasheader.point_data_record_length ≤ j → data'.getD j 0 = 0 := by
    intro j hj
    have hn : j ∉ modifiable_offsets lasheader.point_data_format := fun hm => by
      have := modifiable_lt_layout _ _ hfmt hm
      omega
    rw [hfr j hn, getD_record_buffer _ _ _ _ hlen, if_neg (by omega)]
  have hre := reread_buffer fp.content data' _ _ hlen h128 hl' hz
  have hlen' : (record_addr lasheader recnum).toNat + lasheader.point_data_record_length ≤
      fp'.content.length := by
    rw [hw, length_written _ _ _ _ hlen (by omega)]; exact hlen
  refine ⟨?_, ?_⟩
  · intro r0 fp'' d hr
    obtain ⟨-, -, -, -, -, -, hd⟩ := read_ok hr
    rw [hw, hre] at hd
    rw [hd]
    exact decode_after_overlay fa lasheader swap hbuf hwf hfields
  · intro hf hfd r0
    obtain ⟨fp'', h⟩ := read_total fa fp' recnum lasheader swap r0 hb ha h128 h0 hlen' hf hfd
    exact ⟨fp'', _, h⟩

/-- For every format above 5 a successful decode reports the four flags as 0,
whatever the flags byte holds: `new_cls` is masked with 0x0f before the bits
0x10, 0x20, 0x40, 0x80 are taken from it (lines 332-336). -/
theorem extended_flags_always_zero (fa : FloatArith) (fp fp' : FILE) (recnum : Nat)
    (lasheader : LASheader) (swap : Nat) (record d : SLAS_POINT_DATA)
    (hfmt : lasheader.point_data_format > 5)
    (h : slas_read_point_data fa fp recnum lasheader swap record = some (0, fp', d)) :
    d.overlap = 0 ∧ d.synthetic = 0 ∧ d.keypoint = 0 ∧ d.withheld = 0 := by
  obtain ⟨-, -, -, -, -, -, hd⟩ := read_ok h
  have e : ∀ (c k : Nat), 4 ≤ k → ((c &&& 0x0f) &&& (1 <<< k)) >>> k = 0 := by
    intro c k hk
    apply Nat.eq_of_testBit_eq
    intro j
    simp only [Nat.testBit_shiftRight, Nat.testBit_and, Nat.zero_testBit]
    have : (0x0f : Nat).testBit (k + j) = false := by
      have h15 : (0x0f : Nat) = 2 ^ 4 - 1 := by norm_num
      rw [h15, Nat.testBit_two_pow_sub_one]
      simp; omega
    simp [this]
  rw [hd]
  simp only [decoded, decode_fields, hfmt, if_true]
  exact ⟨e _ 4 (by omega), e _ 5 (by omega), e _ 6 (by omega), e _ 7 (by omega)⟩

/-- C1 (code at the failing input). Round trip on a record of format 8 whose
flags byte is 0x54 (bit 0x04, withheld, set): decode returns 0, the encode of
the unmodified decoded record returns 0, and the store then holds 0x50 at
offset 15 of the record, not 0x54: the round trip is not the identity. -/
theorem C1_roundtrip_clears_extended_flags :
    (decode_then_encode rawArith ext_file 1 ext_header 0).map (fun q => (q.1, q.2.1.content)) =
      some (0, lead_bytes ++ ext_rec0 ++ ext_rec1.set 15 0x50) ∧
    ext_rec1.getD 15 0 = 0x54 ∧
    lead_bytes ++ ext_rec0 ++ ext_rec1.set 15 0x50 ≠ ext_file.content := by
  decide

/-- C2 (code at the failing input). Flag isolation on a record of format 8:
decode, set only `withheld = 1`, encode, decode again; all three calls return
0 and the second decode reports `withheld = 0`. -/
theorem C2_withheld_lost_in_extended_regime :
    (withheld_run rawArith ext_file 1 ext_header 0).map (fun p => p.2.withheld) = some 0 ∧
    (slas_update_point_data ext_after_read 1 ext_header 0
        { ext_decoded with withheld := 1 }).map (fun q => (q.1, q.2.1.content.getD 57 0)) =
      some (0, 0x54) := by
  decide

/-- C7 (code at the failing input). Two records of format 8 whose flags bytes
are 0x0F (all four flag bits set) and 0x54 (only bit 0x04 set): both decode
with code 0 and with overlap, synthetic, keypoint and withheld all 0. -/
theorem C7_extended_flags_decode_as_zero :
    ext_file.content.getD (4 + 15) 0 = 0x0F ∧ ext_file.content.getD (4 + 38 + 15) 0 = 0x54 ∧
    (outcome (slas_read_point_data rawArith ext_file 0 ext_header 0 SLAS_POINT_DATA.zero)).map
      (fun o => (o.1, o.2.overlap, o.2.synthetic, o.2.keypoint, o.2.withheld)) =
      some (0, 0, 0, 0, 0) ∧
    (outcome (slas_read_point_data rawArith ext_file 1 ext_header 0 SLAS_POINT_DATA.zero)).map
      (fun o => (o.1, o.2.overlap, o.2.synthetic, o.2.keypoint, o.2.withheld)) =
      some (0, 0, 0, 0, 0) := by
  decide

/-- C6 (counterexample). The claim without a condition on the record length
fails: on a store whose records are 16 bytes long in format 0, an encode of a
record with `user_data = 5` returns 0 and the decode that follows returns 0
with `user_data = 0`, since offset 17 lies beyond the record. -/
theorem C6_counterexample_short_record :
    ¬ (∀ (fa : FloatArith) (fp fp' fp'' : FILE) (recnum : Nat) (lasheader : LASheader)
        (swap : Nat) (record r' r0 d : SLAS_POINT_DATA),
        lasheader.point_data_format ≤ 10 → record.wf →
        slas_update_point_data fp recnum lasheader swap record = some (0, fp', r') →
        slas_read_point_data fa fp' recnum lasheader swap r0 = some (0, fp'', d) →
        d.classification = record.classification ∧ d.user_data = record.user_data ∧
        (lasheader.point_data_format ∈ [2, 3, 5, 7, 8, 10] →
          d.red = record.red ∧ d.green = record.green ∧ d.blue = record.blue) ∧
        (lasheader.point_data_format ∈ [8, 10] → d.NIR = record.NIR)) := by
  intro h
  have h1 := h rawArith short_file short_after_update short_after_reread 0 short_header 0
    short_record short_record SLAS_POINT_DATA.zero short_redecoded
    (by decide) (by decide) (by decide) (by decide)
  exact absurd h1.2.1 (by decide)

/-- C3 (witness): `legacy_new_record` encoded at record 1 of `legacy_file`. -/
theorem C3_witness :
    legacy_header.point_data_format ≤ 10 ∧
    slas_update_point_data legacy_file 1 legacy_header 0 legacy_new_record =
      some (0, legacy_after_update, legacy_new_record) ∧
    (∀ j, j < legacy_header.point_data_record_length →
      holds_nonmodifiable legacy_header.point_data_format j = true →
      legacy_after_update.content.getD ((record_addr legacy_header 1).toNat + j) 0 =
        legacy_file.content.getD ((record_addr legacy_header 1).toNat + j) 0) ∧
    (∀ record2, same_modifiable legacy_new_record record2 →
      ∃ r2', slas_update_point_data legacy_file 1 legacy_header 0 record2 =
        some (0, legacy_after_update, r2')) :=
  ⟨by decide, by decide,
   C3_encode_preserves_nonmodifiable legacy_file legacy_after_update 1 legacy_header 0
     legacy_new_record legacy_new_record (by decide) (by decide)⟩

/-- C4 (witness): classification 32 encoded at record 1 of `legacy_file`. -/
theorem C4_witness :
    out_of_bounds legacy_header 1 = false ∧
    legacy_header.point_data_record_length ≤ 128 ∧
    (fseeko64 legacy_file (record_addr legacy_header 1)).1 = 0 ∧
    (fread zeroed_buffer legacy_header.point_data_record_length
      (fseeko64 legacy_file (record_addr legacy_header 1)).2).1 = 1 ∧
    ((∃ fp' r', slas_update_point_data legacy_file 1 legacy_header 0
        { legacy_decoded with classification := 32 } = some (-4, fp', r')) ↔
      (legacy_header.point_data_format ≤ 5 ∧
        ({ legacy_decoded with classification := 32 } : SLAS_POINT_DATA).classification > 31)) :=
  ⟨by decide, by decide, by decide, by decide,
   (C4_validation rawArith legacy_file 1 legacy_header 0
     { legacy_decoded with classification := 32 }
     (by decide) (by decide) (by decide) (by decide)).1⟩

/-- C5 (witness): record number 2, the record count, on a store on which every
call fails. -/
theorem C5_witness :
    slas_read_point_data rawArith failing_file 2 legacy_header 1 legacy_decoded =
      some (-1, failing_file, legacy_decoded) ∧
    slas_update_point_data failing_file 2 legacy_header 1 legacy_decoded =
      some (-1, failing_file, legacy_decoded) :=
  (C5_bounds rawArith failing_file 2 legacy_header 1 legacy_decoded).2.2
    (Or.inl ⟨by decide, by decide⟩)

/-- C6 (witness): `ext_new_record` encoded with swap set at record 1 of
`ext_file`, a store of format 8 whose records are 38 bytes long. -/
theorem C6_witness :
    ext_header.point_data_format ≤ 10 ∧
    layout_size ext_header.point_data_format ≤ ext_header.point_data_record_length ∧
    ext_new_record.wf ∧
    slas_update_point_data ext_file 1 ext_header 1 ext_new_record =
      some (0, ext_after_update, swap_nir (swap_rgb ext_new_record)) ∧
    (∀ r0 fp'' d,
      slas_read_point_data rawArith ext_after_update 1 ext_header 1 r0 = some (0, fp'', d) →
      d.classification = ext_new_record.classification ∧
      d.user_data = ext_new_record.user_data ∧
      (ext_header.point_data_format ∈ [2, 3, 5, 7, 8, 10] →
        d.red = ext_new_record.red ∧ d.green = ext_new_record.green ∧
        d.blue = ext_new_record.blue) ∧
      (ext_header.point_data_format ∈ [8, 10] → d.NIR = ext_new_record.NIR)) :=
  ⟨by decide, by decide, by decide, by decide,
   (C6_write_then_read rawArith ext_file ext_after_update 1 ext_header 1 ext_new_record
     (swap_nir (swap_rgb ext_new_record)) (by decide) (by decide) (by decide) (by decide)).1⟩

/-- C8 (witness): record 1 of `legacy_file`, format 3. -/
theorem C8_witness :
    legacy_header.point_data_format ≤ 5 ∧
    slas_read_point_data rawArith legacy_file 1 legacy_header 0 SLAS_POINT_DATA.zero =
      some (0, legacy_after_read, legacy_decoded) ∧
    legacy_decoded.overlap = 0 :=
  ⟨by decide, by decide,
   C8_legacy_overlap_zero rawArith legacy_file legacy_after_read 1 legacy_header 0
     SLAS_POINT_DATA.zero legacy_decoded (by decide) (by decide)⟩

/-- C9 (witness): record 1 of `legacy_file`, whose returns byte is 0xD5 and
whose classification byte is 0xA7. -/
theorem C9_witness :
    legacy_header.point_data_format ≤ 5 ∧
    slas_read_point_data rawArith legacy_file 1 legacy_header 0 SLAS_POINT_DATA.zero =
      some (0, legacy_after_read, legacy_decoded) ∧
    record_byte legacy_file legacy_header 1 14 = 0xD5 ∧
    record_byte legacy_file legacy_header 1 15 = 0xA7 ∧
    legacy_decoded.return_number = record_byte legacy_file legacy_header 1 14 % 8 ∧
    legacy_decoded.number_of_returns = record_byte legacy_file legacy_header 1 14 / 8 % 8 ∧
    legacy_decoded.scan_direction_flag = record_byte legacy_file legacy_header 1 14 / 64 % 2 ∧
    legacy_decoded.edge_of_flightline = record_byte legacy_file legacy_header 1 14 / 128 % 2 ∧
    legacy_decoded.classification = record_byte legacy_file legacy_header 1 15 % 32 ∧
    legacy_decoded.classification ≤ 31 ∧
    legacy_decoded.synthetic = record_byte legacy_file legacy_header 1 15 / 32 % 2 ∧
    legacy_decoded.keypoint = record_byte legacy_file legacy_header 1 15 / 64 % 2 ∧
    legacy_decoded.withheld = record_byte legacy_file legacy_header 1 15 / 128 % 2 ∧
    legacy_decoded.scanner_channel = 0 :=
  ⟨by decide, by decide, by decide, by decide,
   C9_legacy_bit_layout rawArith legacy_file legacy_after_read 1 legacy_header 0
     SLAS_POINT_DATA.zero legacy_decoded (by decide) (by decide)⟩

/-- C10 (witness): record 1 of `ext_file`, whose returns byte is 0x21, whose
flags byte is 0x54 and whose classification byte is 200. -/
theorem C10_witness :
    ext_header.point_data_format > 5 ∧
    slas_read_point_data rawArith ext_file 1 ext_header 0 SLAS_POINT_DATA.zero =
      some (0, ext_after_read, ext_decoded) ∧
    record_byte ext_file ext_header 1 16 = 200 ∧
    ext_decoded.return_number = record_byte ext_file ext_header 1 14 % 16 ∧
    ext_decoded.number_of_returns = record_byte ext_file ext_header 1 14 / 16 % 16 ∧
    ext_decoded.scanner_channel = record_byte ext_file ext_header 1 15 / 16 % 4 ∧
    ext_decoded.scan_direction_flag = record_byte ext_file ext_header 1 15 / 64 % 2 ∧
    ext_decoded.edge_of_flightline = record_byte ext_file ext_header 1 15 / 128 % 2 ∧
    ext_decoded.classification = record_byte ext_file ext_header 1 16 :=
  ⟨by decide, by decide, by decide,
   C10_extended_bit_layout rawArith ext_file ext_after_read 1 ext_header 0
     SLAS_POINT_DATA.zero ext_decoded (by decide) (by decide)⟩

/-! ## Layout of the decoded fields, for the statements -/

theorem cond_swap_two (swap v : Nat) :
    cond_swap swap 2 v = if swap ≠ 0 then swap_short v else v := rfl

theorem read_optional_none (data : List Nat) (fmt pos : Nat) (r : SLAS_POINT_DATA)
    (h : 10 < fmt ∨ fmt = 0) : read_optional data fmt pos r = (r, pos) := by
  unfold read_optional
  split <;> first | (exfalso; omega) | rfl

theorem swap_optional_none (fmt : Nat) (r : SLAS_POINT_DATA)
    (h : 10 < fmt ∨ fmt = 0) : swap_optional fmt r = r := by
  unfold swap_optional
  split <;> first | (exfalso; omega) | rfl

theorem has_none (fmt : Nat) (h : 10 < fmt ∨ fmt = 0) :
    has_gps_time fmt = false ∧ has_rgb fmt = false ∧ has_nir fmt = false ∧
    has_wave fmt = false := by
  simp only [has_gps_time, has_rgb, has_nir, has_wave, decide_eq_false_iff_not, List.mem_cons,
    List.mem_singleton, List.not_mem_nil, or_false]
  omega

/-- The optional fields that the two `switch` statements of decode produce,
for every value of the format. -/
theorem optional_fields (data : List Nat) (fmt swap : Nat) (r : SLAS_POINT_DATA)
    (hr : r.gps_time = 0 ∧ r.red = 0 ∧ r.green = 0 ∧ r.blue = 0 ∧ r.NIR = 0 ∧
      r.wavepacket_descriptor_index = 0 ∧ r.byte_offset_to_waveform_data = 0 ∧
      r.waveform_packet_size = 0 ∧ r.return_point_waveform_location = 0 ∧
      r.Xt = 0 ∧ r.Yt = 0 ∧ r.Zt = 0) :
    (optional_decoded data fmt swap r).gps_time = (if has_gps_time fmt then
        cond_swap swap 8 (leVal (bytesAt data (optional_start fmt) 8)) else 0) ∧
    (optional_decoded data fmt swap r).red = (if has_rgb fmt then cond_swap swap 2 (leVal (bytesAt data (rgb_pos fmt) 2))
      else 0) ∧
    (optional_decoded data fmt swap r).green = (if has_rgb fmt then cond_swap swap 2 (leVal (bytesAt data (rgb_pos fmt + 2) 2))
      else 0) ∧
    (optional_decoded data fmt swap r).blue = (if has_rgb fmt then cond_swap swap 2 (leVal (bytesAt data (rgb_pos fmt + 4) 2))
      else 0) ∧
    (optional_decoded data fmt swap r).NIR = (if has_nir fmt then cond_swap swap 2 (leVal (bytesAt data (nir_pos fmt) 2))
      else 0) ∧
    (optional_decoded data fmt swap r).wavepacket_descriptor_index =
      (if has_wave fmt then leVal (bytesAt data (wave_pos fmt) 1) else 0) ∧
    (optional_decoded data fmt swap r).byte_offset_to_waveform_data =
      (if has_wave fmt then cond_swap swap 8 (leVal (bytesAt data (wave_pos fmt + 1) 8))
       else 0) ∧
    (optional_decoded data fmt swap r).waveform_packet_size =
      (if has_wave fmt then cond_swap swap 4 (leVal (bytesAt data (wave_pos fmt + 9) 4))
       else 0) ∧
    (optional_decoded data fmt swap r).return_point_waveform_location =
      (if has_wave fmt then cond_swap swap 4 (leVal (bytesAt data (wave_pos fmt + 13) 4))
       else 0) ∧
    (optional_decoded data fmt swap r).Xt = (if has_wave fmt then cond_swap swap 4 (leVal (bytesAt data (wave_pos fmt + 17) 4))
      else 0) ∧
    (optional_decoded data fmt swap r).Yt = (if has_wave fmt then cond_swap swap 4 (leVal (bytesAt data (wave_pos fmt + 21) 4))
      else 0) ∧
    (optional_decoded data fmt swap r).Zt = (if has_wave fmt then cond_swap swap 4 (leVal (bytesAt data (wave_pos fmt + 25) 4))
      else 0) := by
  obtain ⟨h1, h2, h3, h4, h5, h6, h7, h8, h9, h10, h11, h12⟩ := hr
  by_cases hk : 10 < fmt ∨ fmt = 0
  · obtain ⟨g1, g2, g3, g4⟩ := has_none fmt hk
    have e : optional_decoded data fmt swap r = r := by
      simp only [optional_decoded, read_optional_none data fmt _ r hk,
        swap_optional_none fmt r hk]
      split <;> rfl
    rw [e]
    simp [g1, g2, g3, g4, h1, h2, h3, h4, h5, h6, h7, h8, h9, h10, h11, h12]
  · have hlo : 1 ≤ fmt := by omega
    have hhi : fmt ≤ 10 := by omega
    clear hk
    by_cases hs : swap = 0
    · interval_cases fmt <;>
        simp [optional_decoded, hs, cond_swap, read_optional, has_gps_time, has_rgb, has_nir, has_wave,
          optional_start, rgb_pos, nir_pos, wave_pos, get_gps_time, get_rgb, get_nir, get_wave,
          h1, h2, h3, h4, h5, h6, h7, h8, h9, h10, h11, h12]
    · interval_cases fmt <;>
        simp [optional_decoded, hs, cond_swap, read_optional, has_gps_time, has_rgb, has_nir, has_wave,
          optional_start, rgb_pos, nir_pos, wave_pos, get_gps_time, get_rgb, get_nir, get_wave,
          swap_optional, swap_gps_time, swap_rgb, swap_nir, swap_wave, swap_short, swap_int,
          swap_float, swap_double, h1, h2, h3, h4, h5, h6, h7, h8, h9, h10, h11, h12]

theorem swap_optional_same (fmt : Nat) {r1 r2 : SLAS_POINT_DATA} (h : same_optional r1 r2) :
    same_optional (swap_optional fmt r1) (swap_optional fmt r2) := by
  obtain ⟨h1, h2, h3, h4, h5, h6, h7, h8, h9, h10, h11, h12⟩ := h
  unfold swap_optional same_optional
  split <;>
    simp [swap_gps_time, swap_rgb, swap_nir, swap_wave,
      h1, h2, h3, h4, h5, h6, h7, h8, h9, h10, h11, h12]

theorem read_optional_same (data : List Nat) (fmt pos : Nat) {r1 r2 : SLAS_POINT_DATA}
    (h : same_optional r1 r2) :
    same_optional (read_optional data fmt pos r1).1 (read_optional data fmt pos r2).1 := by
  obtain ⟨h1, h2, h3, h4, h5, h6, h7, h8, h9, h10, h11, h12⟩ := h
  unfold read_optional same_optional
  split <;>
    simp [get_gps_time, get_rgb, get_nir, get_wave,
      h1, h2, h3, h4, h5, h6, h7, h8, h9, h10, h11, h12]

theorem read_fields_optional (data : List Nat) (fmt : Nat) :
    same_optional (read_fields data fmt SLAS_POINT_DATA.zero).record
      (read_optional data fmt (optional_start fmt) SLAS_POINT_DATA.zero).1 := by
  unfold read_fields optional_start
  simp only []
  by_cases hf : fmt > 5
  · simp only [hf, if_true]
    exact read_optional_same data fmt _ ⟨rfl, rfl, rfl, rfl, rfl, rfl, rfl, rfl, rfl, rfl, rfl, rfl⟩
  · simp only [hf, if_false]
    exact read_optional_same data fmt _ ⟨rfl, rfl, rfl, rfl, rfl, rfl, rfl, rfl, rfl, rfl, rfl, rfl⟩

theorem decoded_optional (fa : FloatArith) (hd : LASheader) (swap : Nat) (data : List Nat) :
    same_optional (decoded fa hd swap data)
      (optional_decoded data hd.point_data_format swap SLAS_POINT_DATA.zero) := by
  have h1 := read_fields_optional data hd.point_data_format
  have h0 : same_optional (decoded fa hd swap data) (read_state hd swap data).record := by
    unfold decoded decode_fields read_state
    simp only []
    split <;> exact ⟨rfl, rfl, rfl, rfl, rfl, rfl, rfl, rfl, rfl, rfl, rfl, rfl⟩
  have h2 : same_optional (read_state hd swap data).record
      (optional_decoded data hd.point_data_format swap SLAS_POINT_DATA.zero) := by
    unfold read_state swap_fields optional_decoded
    by_cases hs : swap = 0
    · simp only [hs, ne_eq, not_true_eq_false, if_false]; exact h1
    · simp only [hs, ne_eq, not_false_eq_true, if_true]
      apply swap_optional_same
      obtain ⟨g1, g2, g3, g4, g5, g6, g7, g8, g9, g10, g11, g12⟩ := h1
      exact ⟨g1, g2, g3, g4, g5, g6, g7, g8, g9, g10, g11, g12⟩
  obtain ⟨a1, a2, a3, a4, a5, a6, a7, a8, a9, a10, a11, a12⟩ := h0
  obtain ⟨b1, b2, b3, b4, b5, b6, b7, b8, b9, b10, b11, b12⟩ := h2
  exact ⟨a1.trans b1, a2.trans b2, a3.trans b3, a4.trans b4, a5.trans b5, a6.trans b6,
    a7.trans b7, a8.trans b8, a9.trans b9, a10.trans b10, a11.trans b11, a12.trans b12⟩

theorem bytesAt_record_buffer {fp : FILE} {hd : LASheader} {i : Nat} (pos n : Nat)
    (h : (record_addr hd i).toNat + hd.point_data_record_length ≤ fp.content.length) :
    bytesAt (record_buffer fp.content (record_addr hd i).toNat hd.point_data_record_length)
      pos n = record_bytes fp hd i pos n := by
  unfold bytesAt record_bytes
  apply List.map_congr_left
  intro k _
  exact buffer_byte (pos + k) h

theorem read_state_xyz (hd : LASheader) (swap : Nat) (data : List Nat) :
    (read_state hd swap data).x = cond_swap swap 4 (leVal (bytesAt data 0 4)) ∧
    (read_state hd swap data).y = cond_swap swap 4 (leVal (bytesAt data 4 4)) ∧
    (read_state hd swap data).z = cond_swap swap 4 (leVal (bytesAt data 8 4)) := by
  unfold read_state swap_fields cond_swap
  by_cases hs : swap = 0
  · simp only [hs, ne_eq, not_true_eq_false, if_false]; exact ⟨rfl, rfl, rfl⟩
  · simp only [hs, ne_eq, not_false_eq_true, if_true]; exact ⟨rfl, rfl, rfl⟩

theorem decoded_xyz (fa : FloatArith) (hd : LASheader) (swap : Nat) (data : List Nat) :
    (decoded fa hd swap data).x =
      fa.scale64 (toSigned 32 (read_state hd swap data).x) hd.x_scale_factor hd.x_offset ∧
    (decoded fa hd swap data).y =
      fa.scale64 (toSigned 32 (read_state hd swap data).y) hd.y_scale_factor hd.y_offset ∧
    (decoded fa hd swap data).z =
      fa.scale32 (toSigned 32 (read_state hd swap data).z) hd.z_scale_factor hd.z_offset := by
  unfold decoded decode_fields read_state
  simp only []
  split <;> exact ⟨rfl, rfl, rfl⟩

theorem read_fields_leading (data : List Nat) (fmt : Nat) :
    (read_fields data fmt SLAS_POINT_DATA.zero).record.intensity = leVal (bytesAt data 12 2) ∧
    (read_fields data fmt SLAS_POINT_DATA.zero).record.point_source_id =
      leVal (bytesAt data (if fmt > 5 then 20 else 18) 2) ∧
    (read_fields data fmt SLAS_POINT_DATA.zero).record.scan_angle =
      (if fmt > 5 then toSigned 16 (leVal (bytesAt data 18 2))
       else toSigned 16 (data.getD 16 0)) := by
  unfold read_fields
  simp only [(read_optional_fixed data fmt _ _).2.2.1, (read_optional_fixed data fmt _ _).2.2.2.1,
    (read_optional_fixed data fmt _ _).2.2.2.2.1]
  by_cases hf : fmt > 5
  · simp [hf]
  · simp [hf, bytesAt_one, leVal]

theorem decoded_leading (fa : FloatArith) (hd : LASheader) (swap : Nat) (data : List Nat) :
    (decoded fa hd swap data).intensity = cond_swap swap 2 (leVal (bytesAt data 12 2)) ∧
    (decoded fa hd swap data).point_source_id =
      cond_swap swap 2 (leVal (bytesAt data (if hd.point_data_format > 5 then 20 else 18) 2)) ∧
    (decoded fa hd swap data).scan_angle =
      (if hd.point_data_format > 5 then toSigned 16 (leVal (bytesAt data 18 2))
       else toSigned 16 (data.getD 16 0)) := by
  obtain ⟨p1, p2, p3⟩ := read_fields_leading data hd.point_data_format
  have h0 : (decoded fa hd swap data).intensity = (read_state hd swap data).record.intensity ∧
      (decoded fa hd swap data).point_source_id =
        (read_state hd swap data).record.point_source_id ∧
      (decoded fa hd swap data).scan_angle = (read_state hd swap data).record.scan_angle := by
    unfold decoded decode_fields read_state
    simp only []
    split <;> exact ⟨rfl, rfl, rfl⟩
  rw [h0.1, h0.2.1, h0.2.2]
  unfold read_state swap_fields cond_swap
  by_cases hs : swap = 0
  · simp only [hs, ne_eq, not_true_eq_false, if_false]; exact ⟨p1, p2, p3⟩
  · simp only [hs, ne_eq, not_false_eq_true, if_true, (swap_optional_fixed _ _).2.2.1,
      (swap_optional_fixed _ _).2.2.2.1, (swap_optional_fixed _ _).2.2.2.2.1, p1, p2, p3]
    exact ⟨rfl, rfl, trivial⟩

/-- The layout of the optional block for the formats 0-10: which of
`gps_time`, colour, `NIR` and the waveform block are present, and the offsets
of the four blocks. -/
theorem optional_layout_table :
    (List.range 11).map (fun f => (has_gps_time f, has_rgb f, has_nir f, has_wave f)) =
      [(false, false, false, false), (true, false, false, false), (false, true, false, false),
       (true, true, false, false), (true, false, false, true), (true, true, false, true),
       (true, false, false, false), (true, true, false, false), (true, true, true, false),
       (true, false, false, true), (true, true, true, true)] ∧
    (List.range 11).map (fun f => (optional_start f, rgb_pos f, nir_pos f, wave_pos f)) =
      [(20, 20, 20, 20), (20, 28, 28, 28), (20, 20, 26, 26), (20, 28, 34, 34),
       (20, 28, 28, 28), (20, 28, 34, 34), (22, 30, 30, 30), (22, 30, 36, 36),
       (22, 30, 36, 38), (22, 30, 30, 30), (22, 30, 36, 38)] := by
  decide

/-- The optional fields of a successfully decoded record, by format. -/
theorem decode_optional_layout (fa : FloatArith) (fp fp' : FILE) (recnum : Nat)
    (lasheader : LASheader) (swap : Nat) (record d : SLAS_POINT_DATA)
    (h : slas_read_point_data fa fp recnum lasheader swap record = some (0, fp', d)) :
    d.gps_time = (if has_gps_time lasheader.point_data_format then
      cond_swap swap 8 (leVal (record_bytes fp lasheader recnum
        (optional_start lasheader.point_data_format) 8)) else 0) ∧
    d.red = (if has_rgb lasheader.point_data_format then
      cond_swap swap 2 (leVal (record_bytes fp lasheader recnum
        (rgb_pos lasheader.point_data_format) 2)) else 0) ∧
    d.green = (if has_rgb lasheader.point_data_format then
      cond_swap swap 2 (leVal (record_bytes fp lasheader recnum
        (rgb_pos lasheader.point_data_format + 2) 2)) else 0) ∧
    d.blue = (if has_rgb lasheader.point_data_format then
      cond_swap swap 2 (leVal (record_bytes fp lasheader recnum
        (rgb_pos lasheader.point_data_format + 4) 2)) else 0) ∧
    d.NIR = (if has_nir lasheader.point_data_format then
      cond_swap swap 2 (leVal (record_bytes fp lasheader recnum
        (nir_pos lasheader.point_data_format) 2)) else 0) ∧
    d.wavepacket_descriptor_index = (if has_wave lasheader.point_data_format then
      leVal (record_bytes fp lasheader recnum (wave_pos lasheader.point_data_format) 1)
      else 0) ∧
    d.byte_offset_to_waveform_data = (if has_wave lasheader.point_data_format then
      cond_swap swap 8 (leVal (record_bytes fp lasheader recnum
        (wave_pos lasheader.point_data_format + 1) 8)) else 0) ∧
    d.waveform_packet_size = (if has_wave lasheader.point_data_format then
      cond_swap swap 4 (leVal (record_bytes fp lasheader recnum
        (wave_pos lasheader.point_data_format + 9) 4)) else 0) ∧
    d.return_point_waveform_location = (if has_wave lasheader.point_data_format then
      cond_swap swap 4 (leVal (record_bytes fp lasheader recnum
        (wave_pos lasheader.point_data_format + 13) 4)) else 0) ∧
    d.Xt = (if has_wave lasheader.point_data_format then
      cond_swap swap 4 (leVal (record_bytes fp lasheader recnum
        (wave_pos lasheader.point_data_format + 17) 4)) else 0) ∧
    d.Yt = (if has_wave lasheader.point_data_format then
      cond_swap swap 4 (leVal (record_bytes fp lasheader recnum
        (wave_pos lasheader.point_data_format + 21) 4)) else 0) ∧
    d.Zt = (if has_wave lasheader.point_data_format then
      cond_swap swap 4 (leVal (record_bytes fp lasheader recnum
        (wave_pos lasheader.point_data_format + 25) 4)) else 0) := by
  obtain ⟨-, -, -, -, hlen, -, hd⟩ := read_ok h
  obtain ⟨a1, a2, a3, a4, a5, a6, a7, a8, a9, a10, a11, a12⟩ := decoded_optional fa lasheader swap
    (record_buffer fp.content (record_addr lasheader recnum).toNat
      lasheader.point_data_record_length)
  obtain ⟨b1, b2, b3, b4, b5, b6, b7, b8, b9, b10, b11, b12⟩ := optional_fields
    (record_buffer fp.content (record_addr lasheader recnum).toNat
      lasheader.point_data_record_length) lasheader.point_data_format swap SLAS_POINT_DATA.zero
    ⟨rfl, rfl, rfl, rfl, rfl, rfl, rfl, rfl, rfl, rfl, rfl, rfl⟩
  simp only [bytesAt_record_buffer _ _ hlen] at b1 b2 b3 b4 b5 b6 b7 b8 b9 b10 b11 b12
  rw [hd]
  exact ⟨a1.trans b1, a2.trans b2, a3.trans b3, a4.trans b4, a5.trans b5, a6.trans b6,
    a7.trans b7, a8.trans b8, a9.trans b9, a10.trans b10, a11.trans b11, a12.trans b12⟩

/-- C11 (as amended). Optional-field presence by format: a successful
`slas_read_point_data` takes `gps_time` from the record exactly for formats 1,
3, 4, 5, 6, 7, 8, 9, 10, the colours exactly for formats 2, 3, 5, 7, 8, 10,
`NIR` exactly for formats 8, 10 and the waveform block exactly for formats 4,
5, 9, 10; the blocks present lie contiguously in the order gps_time, RGB, NIR,
waveform block right after `point_source_id`; a field whose block is absent
is 0 whatever the record bytes are. -/
theorem C11_optional_fields (fa : FloatArith) (fp fp' : FILE) (recnum : Nat)
    (lasheader : LASheader) (swap : Nat) (record d : SLAS_POINT_DATA)
    (h : slas_read_point_data fa fp recnum lasheader swap record = some (0, fp', d)) :
    d.gps_time = (if has_gps_time lasheader.point_data_format then
      cond_swap swap 8 (leVal (record_bytes fp lasheader recnum
        (optional_start lasheader.point_data_format) 8)) else 0) ∧
    d.red = (if has_rgb lasheader.point_data_format then
      cond_swap swap 2 (leVal (record_bytes fp lasheader recnum
        (rgb_pos lasheader.point_data_format) 2)) else 0) ∧
    d.green = (if has_rgb lasheader.point_data_format then
      cond_swap swap 2 (leVal (record_bytes fp lasheader recnum
        (rgb_pos lasheader.point_data_format + 2) 2)) else 0) ∧
    d.blue = (if has_rgb lasheader.point_data_format then
      cond_swap swap 2 (leVal (record_bytes fp lasheader recnum
        (rgb_pos lasheader.point_data_format + 4) 2)) else 0) ∧
    d.NIR = (if has_nir lasheader.point_data_format then
      cond_swap swap 2 (leVal (record_bytes fp lasheader recnum
        (nir_pos lasheader.point_data_format) 2)) else 0) ∧
    d.wavepacket_descriptor_index = (if has_wave lasheader.point_data_format then
      leVal (record_bytes fp lasheader recnum (wave_pos lasheader.point_data_format) 1)
      else 0) ∧
    d.byte_offset_to_waveform_data = (if has_wave lasheader.point_data_format then
      cond_swap swap 8 (leVal (record_bytes fp lasheader recnum
        (wave_pos lasheader.point_data_format + 1) 8)) else 0) ∧
    d.waveform_packet_size = (if has_wave lasheader.point_data_format then
      cond_swap swap 4 (leVal (record_bytes fp lasheader recnum
        (wave_pos lasheader.point_data_format + 9) 4)) else 0) ∧
    d.return_point_waveform_location = (if has_wave lasheader.point_data_format then
      cond_swap swap 4 (leVal (record_bytes fp lasheader recnum
        (wave_pos lasheader.point_data_format + 13) 4)) else 0) ∧
    d.Xt = (if has_wave lasheader.point_data_format then
      cond_swap swap 4 (leVal (record_bytes fp lasheader recnum
        (wave_pos lasheader.point_data_format + 17) 4)) else 0) ∧
    d.Yt = (if has_wave lasheader.point_data_format then
      cond_swap swap 4 (leVal (record_bytes fp lasheader recnum
        (wave_pos lasheader.point_data_format + 21) 4)) else 0) ∧
    d.Zt = (if has_wave lasheader.point_data_format then
      cond_swap swap 4 (leVal (record_bytes fp lasheader recnum
        (wave_pos lasheader.point_data_format + 25) 4)) else 0) :=
  decode_optional_layout fa fp fp' recnum lasheader swap record d h

/-- C11 (counterexample). With the format list of the claim, which leaves
format 8 out of the formats that carry `gps_time`, the statement fails: record
1 of `ext_file`, of format 8, decodes with the `gps_time` held by its bytes
22-29, not with 0. -/
theorem C11_counterexample_format_8 :
    ¬ (∀ (fa : FloatArith) (fp fp' : FILE) (recnum : Nat) (lasheader : LASheader) (swap : Nat)
        (record d : SLAS_POINT_DATA),
        slas_read_point_data fa fp recnum lasheader swap record = some (0, fp', d) →
        d.gps_time = (if lasheader.point_data_format ∈ [1, 3, 4, 5, 6, 7, 9, 10] then
          cond_swap swap 8 (leVal (record_bytes fp lasheader recnum
            (optional_start lasheader.point_data_format) 8)) else 0)) := by
  intro h
  have h1 := h rawArith ext_file ext_after_read 1 ext_header 0 SLAS_POINT_DATA.zero ext_decoded
    (by decide)
  exact absurd h1 (by decide)

/-- C11 (witness): record 1 of `ext_file`, format 8, decoded without swap. -/
theorem C11_witness :
    slas_read_point_data rawArith ext_file 1 ext_header 0 SLAS_POINT_DATA.zero =
      some (0, ext_after_read, ext_decoded) ∧
    ext_decoded.gps_time = leVal (record_bytes ext_file ext_header 1 22 8) ∧
    ext_decoded.red = leVal (record_bytes ext_file ext_header 1 30 2) ∧
    ext_decoded.NIR = leVal (record_bytes ext_file ext_header 1 36 2) ∧
    ext_decoded.Zt = 0 :=
  ⟨by decide,
   (C11_optional_fields rawArith ext_file ext_after_read 1 ext_header 0 SLAS_POINT_DATA.zero
     ext_decoded (by decide)).1,
   (C11_optional_fields rawArith ext_file ext_after_read 1 ext_header 0 SLAS_POINT_DATA.zero
     ext_decoded (by decide)).2.1,
   (C11_optional_fields rawArith ext_file ext_after_read 1 ext_header 0 SLAS_POINT_DATA.zero
     ext_decoded (by decide)).2.2.2.2.1,
   (C11_optional_fields rawArith ext_file ext_after_read 1 ext_header 0 SLAS_POINT_DATA.zero
     ext_decoded (by decide)).2.2.2.2.2.2.2.2.2.2.2⟩

theorem decoded_returns (fa : FloatArith) (hd : LASheader) (swap : Nat) (data : List Nat) :
    (decoded fa hd swap data).return_number =
      data.getD 14 0 % (if hd.point_data_format > 5 then 16 else 8) ∧
    (hd.point_data_format > 5 →
      (decoded fa hd swap data).scanner_channel = data.getD 15 0 / 16 % 4) := by
  have hr := (decoded_rets_cls hd swap data).1
  have hc := (decoded_rets_cls hd swap data).2
  unfold decoded decode_fields
  simp only []
  by_cases hf : hd.point_data_format > 5
  · simp only [hf, if_true, hr, hc]
    exact ⟨low_bits _ 4, fun _ => bit_field _ 4 2⟩
  · simp only [hf, if_false, hr]
    exact ⟨low_bits _ 3, fun hh => False.elim hh⟩

/-- C12. Common prefix and regime branch layout: a successful decode takes the
raw x, y, z from record offsets 0-3, 4-7, 8-11 (byte-reversed when swap is
set, then scaled), intensity from 12-13, the returns byte from 14 and the
classification/flags byte from 15; for format > 5 classification from offset
16, user_data from 17, the 16 bit scan_angle from 18-19 and point_source_id
from 20-21, the optional block starting at 22; for format <= 5 the 8 bit
scan_angle from offset 16, user_data from 17 and point_source_id from 18-19,
the optional block starting at 20. -/
theorem C12_prefix_layout (fa : FloatArith) (fp fp' : FILE) (recnum : Nat)
    (lasheader : LASheader) (swap : Nat) (record d : SLAS_POINT_DATA)
    (h : slas_read_point_data fa fp recnum lasheader swap record = some (0, fp', d)) :
    d.x = fa.scale64
      (toSigned 32 (cond_swap swap 4 (leVal (record_bytes fp lasheader recnum 0 4))))
      lasheader.x_scale_factor lasheader.x_offset ∧
    d.y = fa.scale64
      (toSigned 32 (cond_swap swap 4 (leVal (record_bytes fp lasheader recnum 4 4))))
      lasheader.y_scale_factor lasheader.y_offset ∧
    d.z = fa.scale32
      (toSigned 32 (cond_swap swap 4 (leVal (record_bytes fp lasheader recnum 8 4))))
      lasheader.z_scale_factor lasheader.z_offset ∧
    d.intensity = cond_swap swap 2 (leVal (record_bytes fp lasheader recnum 12 2)) ∧
    d.return_number = record_byte fp lasheader recnum 14 %
      (if lasheader.point_data_format > 5 then 16 else 8) ∧
    d.user_data = record_byte fp lasheader recnum 17 ∧
    (lasheader.point_data_format > 5 →
      d.scanner_channel = record_byte fp lasheader recnum 15 / 16 % 4 ∧
      d.classification = record_byte fp lasheader recnum 16 ∧
      d.scan_angle = toSigned 16 (leVal (record_bytes fp lasheader recnum 18 2)) ∧
      d.point_source_id = cond_swap swap 2 (leVal (record_bytes fp lasheader recnum 20 2)) ∧
      optional_start lasheader.point_data_format = 22 ∧
      (has_gps_time lasheader.point_data_format = true →
        d.gps_time = cond_swap swap 8 (leVal (record_bytes fp lasheader recnum 22 8)))) ∧
    (lasheader.point_data_format ≤ 5 →
      d.classification = record_byte fp lasheader recnum 15 % 32 ∧
      d.scan_angle = toSigned 16 (record_byte fp lasheader recnum 16) ∧
      d.point_source_id = cond_swap swap 2 (leVal (record_bytes fp lasheader recnum 18 2)) ∧
      optional_start lasheader.point_data_format = 20 ∧
      (has_gps_time lasheader.point_data_format = true →
        d.gps_time = cond_swap swap 8 (leVal (record_bytes fp lasheader recnum 20 8))) ∧
      (lasheader.point_data_format = 2 →
        d.red = cond_swap swap 2 (leVal (record_bytes fp lasheader recnum 20 2)))) := by
  have hopt := decode_optional_layout fa fp fp' recnum lasheader swap record d h
  obtain ⟨-, -, -, -, hlen, -, hd⟩ := read_ok h
  obtain ⟨x1, x2, x3⟩ := decoded_xyz fa lasheader swap
    (record_buffer fp.content (record_addr lasheader recnum).toNat
      lasheader.point_data_record_length)
  obtain ⟨s1, s2, s3⟩ := read_state_xyz lasheader swap
    (record_buffer fp.content (record_addr lasheader recnum).toNat
      lasheader.point_data_record_length)
  obtain ⟨p1, p2, p3⟩ := decoded_leading fa lasheader swap
    (record_buffer fp.content (record_addr lasheader recnum).toNat
      lasheader.point_data_record_length)
  have hu := decoded_user_data fa lasheader swap
    (record_buffer fp.content (record_addr lasheader recnum).toNat
      lasheader.point_data_record_length)
  have hc := decoded_classification fa lasheader swap
    (record_buffer fp.content (record_addr lasheader recnum).toNat
      lasheader.point_data_record_length)
  obtain ⟨r1, r2⟩ := decoded_returns fa lasheader swap
    (record_buffer fp.content (record_addr lasheader recnum).toNat
      lasheader.point_data_record_length)
  simp only [bytesAt_record_buffer _ _ hlen, buffer_byte _ hlen] at s1 s2 s3 p1 p2 p3 hu hc r1 r2
  rw [s1] at x1; rw [s2] at x2; rw [s3] at x3
  rw [← hd] at x1 x2 x3 p1 p2 p3 hu hc r1 r2
  refine ⟨x1, x2, x3, p1, r1, hu, ?_, ?_⟩
  · intro hf
    have e : optional_start lasheader.point_data_format = 22 := by simp [optional_start, hf]
    rw [if_pos hf] at p2 p3 hc
    refine ⟨r2 hf, hc, p3, p2, e, fun hg => ?_⟩
    rw [hopt.1, if_pos hg, e]
  · intro hf
    have hf' : ¬ lasheader.point_data_format > 5 := by omega
    have e : optional_start lasheader.point_data_format = 20 := by simp [optional_start, hf']
    rw [if_neg hf'] at p2 p3 hc
    refine ⟨by rw [hc]; exact low_bits _ 5, p3, p2, e, fun hg => ?_, fun h2 => ?_⟩
    · rw [hopt.1, if_pos hg, e]
    · rw [hopt.2.1, h2]; rfl

/-- C12 (witness): record 1 of `legacy_file`, format 3, decoded without swap. -/
theorem C12_witness :
    slas_read_point_data rawArith legacy_file 1 legacy_header 0 SLAS_POINT_DATA.zero =
      some (0, legacy_after_read, legacy_decoded) ∧
    legacy_decoded.intensity =
      cond_swap 0 2 (leVal (record_bytes legacy_file legacy_header 1 12 2)) ∧
    legacy_decoded.return_number = record_byte legacy_file legacy_header 1 14 %
      (if legacy_header.point_data_format > 5 then 16 else 8) ∧
    legacy_decoded.user_data = record_byte legacy_file legacy_header 1 17 :=
  ⟨by decide,
   (C12_prefix_layout rawArith legacy_file legacy_after_read 1 legacy_header 0
     SLAS_POINT_DATA.zero legacy_decoded (by decide)).2.2.2.1,
   (C12_prefix_layout rawArith legacy_file legacy_after_read 1 legacy_header 0
     SLAS_POINT_DATA.zero legacy_decoded (by decide)).2.2.2.2.1,
   (C12_prefix_layout rawArith legacy_file legacy_after_read 1 legacy_header 0
     SLAS_POINT_DATA.zero legacy_decoded (by decide)).2.2.2.2.2.1⟩

/-- C13 (code at the failing input). Record 1 of `legacy_file`, format 3, holds
the byte 0xF6 at offset 16, whose signed 8 bit value is -10; the decode returns
0 and reports `scan_angle = 246`: the byte is copied into the low byte of the
zeroed 16 bit field (line 153) and not sign-extended. -/
theorem C13_legacy_scan_angle_not_sign_extended :
    legacy_header.point_data_format ≤ 5 ∧
    record_byte legacy_file legacy_header 1 16 = 0xF6 ∧
    toSigned 8 0xF6 = -10 ∧
    (outcome (slas_read_point_data rawArith legacy_file 1 legacy_header 0
      SLAS_POINT_DATA.zero)).map (fun o => (o.1, o.2.scan_angle)) = some (0, 246) := by
  decide

/-- C14 (code at the failing input). Record 1 of `ext_file`, format 8, holds the
bytes 1, 2 at offsets 18-19; decoded with swap set, intensity (bytes 13, 14 at
offsets 12-13) comes back byte-reversed, 0x0D0E, but `scan_angle` comes back
as 0x0201 = 513, the value of the bytes as stored, not as the byte-reversed
0x0102 = 258: lines 234-309 hold no swap of `scan_angle`. -/
theorem C14_scan_angle_not_swapped :
    ext_header.point_data_format > 5 ∧
    record_bytes ext_file ext_header 1 18 2 = [1, 2] ∧
    toSigned 16 (swap_short (leVal [1, 2])) = 258 ∧
    (outcome (slas_read_point_data rawArith ext_file 1 ext_header 1
      SLAS_POINT_DATA.zero)).map (fun o => (o.1, o.2.intensity, o.2.scan_angle)) =
      some (0, 0x0D0E, 513) ∧
    (outcome (slas_read_point_data rawArith ext_file 1 ext_header 0
      SLAS_POINT_DATA.zero)).map (fun o => (o.1, o.2.intensity, o.2.scan_angle)) =
      some (0, 0x0E0D, 513) := by
  decide

/-! ## The steps of `slas_update_point_data`, for the statements -/

theorem record_byte_lt (fp : FILE) (hd : LASheader) (i k : Nat) (hwf : fp.wf) :
    record_byte fp hd i k < 256 := by
  unfold record_byte
  split
  · rw [List.getD_eq_getElem?_getD]
    cases hg : fp.content[(record_addr hd i).toNat + k]? with
    | none => simp
    | some b =>
      simp only [Option.getD_some]
      exact hwf b (List.getElem?_mem hg)
  · omega

theorem record_bytes_four (fp : FILE) (hd : LASheader) (i pos : Nat) :
    record_bytes fp hd i pos 4 = [record_byte fp hd i pos, record_byte fp hd i (pos + 1),
      record_byte fp hd i (pos + 2), record_byte fp hd i (pos + 3)] := rfl

theorem record_bytes_two (fp : FILE) (hd : LASheader) (i pos : Nat) :
    record_bytes fp hd i pos 2 = [record_byte fp hd i pos, record_byte fp hd i (pos + 1)] := rfl

theorem byteSwap_four (b0 b1 b2 b3 : Nat) (h0 : b0 < 256) (h1 : b1 < 256) (h2 : b2 < 256)
    (h3 : b3 < 256) : byteSwap 4 (leVal [b0, b1, b2, b3]) = leVal [b3, b2, b1, b0] := by
  have e : leBytes 4 (leVal [b0, b1, b2, b3]) = [b0, b1, b2, b3] := by
    simp only [leBytes, leVal, List.cons.injEq, and_true]
    refine ⟨by omega, by omega, by omega, by omega⟩
  unfold byteSwap
  rw [e]; rfl

theorem byteSwap_two (b0 b1 : Nat) (h0 : b0 < 256) (h1 : b1 < 256) :
    byteSwap 2 (leVal [b0, b1]) = leVal [b1, b0] := by
  have e : leBytes 2 (leVal [b0, b1]) = [b0, b1] := by
    simp only [leBytes, leVal, List.cons.injEq, and_true]
    refine ⟨by omega, by omega⟩
  unfold byteSwap
  rw [e]; rfl

theorem leVal_four_lt (b0 b1 b2 b3 : Nat) (h0 : b0 < 256) (h1 : b1 < 256) (h2 : b2 < 256)
    (h3 : b3 < 256) : leVal [b0, b1, b2, b3] < 4294967296 := by
  simp only [leVal]; omega

theorem toSigned_32_inj (v w : Nat) (hv : v < 4294967296) (hw : w < 4294967296) :
    toSigned 32 v = toSigned 32 w ↔ v = w := by
  unfold toSigned
  have e1 : (2 : Nat) ^ 32 = 4294967296 := by norm_num
  have e2 : (2 : Nat) ^ (32 - 1) = 2147483648 := by norm_num
  have e3 : (2 : Int) ^ 32 = 4294967296 := by norm_num
  rw [e1, e2, e3, Nat.mod_eq_of_lt hv, Nat.mod_eq_of_lt hw]
  constructor
  · intro h
    split at h <;> split at h <;> omega
  · intro h; rw [h]

/-- The raw integer of four stored bytes read with and without swap. -/
theorem swap_sensitive_four (s b0 b1 b2 b3 : Nat) (hs : s ≠ 0) (h0 : b0 < 256) (h1 : b1 < 256)
    (h2 : b2 < 256) (h3 : b3 < 256) :
    (toSigned 32 (cond_swap s 4 (leVal [b0, b1, b2, b3])) =
      toSigned 32 (cond_swap 0 4 (leVal [b0, b1, b2, b3]))) ↔ (b0 = b3 ∧ b1 = b2) := by
  simp only [cond_swap, hs, ne_eq, not_false_eq_true, if_true, not_true_eq_false, if_false]
  rw [byteSwap_four _ _ _ _ h0 h1 h2 h3,
    toSigned_32_inj _ _ (leVal_four_lt _ _ _ _ h3 h2 h1 h0) (leVal_four_lt _ _ _ _ h0 h1 h2 h3)]
  simp only [leVal]
  omega

theorem raw_xyz_eq (fp : FILE) (hd : LASheader) (i swap : Nat)
    (hlen : (record_addr hd i).toNat + hd.point_data_record_length ≤ fp.content.length) :
    raw_xyz fp hd i swap =
      (toSigned 32 (cond_swap swap 4 (leVal (record_bytes fp hd i 0 4))),
       toSigned 32 (cond_swap swap 4 (leVal (record_bytes fp hd i 4 4))),
       toSigned 32 (cond_swap swap 4 (leVal (record_bytes fp hd i 8 4)))) := by
  obtain ⟨s1, s2, s3⟩ := read_state_xyz hd swap
    (record_buffer fp.content (record_addr hd i).toNat hd.point_data_record_length)
  simp only [bytesAt_record_buffer _ _ hlen] at s1 s2 s3
  unfold raw_xyz
  simp only [s1, s2, s3]

/-- C20. Endianness sensitivity: for every format and every stored record,
decoding the same bytes with swap set and with swap clear yields the same
intensity exactly when the two stored intensity bytes are equal, and the same
raw x (resp. y, z) integer exactly when its four stored bytes form a
palindrome; otherwise the two decodes differ in that field.  The raw
integers are the ones the decoded x, y, z are scaled from. -/
theorem C20_endianness_sensitivity (fa : FloatArith) (fp f0 f1 : FILE) (recnum : Nat)
    (lasheader : LASheader) (swap : Nat) (r0 r1 d0 d1 : SLAS_POINT_DATA)
    (hwf : fp.wf) (hs : swap ≠ 0)
    (h0 : slas_read_point_data fa fp recnum lasheader 0 r0 = some (0, f0, d0))
    (h1 : slas_read_point_data fa fp recnum lasheader swap r1 = some (0, f1, d1)) :
    (d1.intensity = d0.intensity ↔
      record_byte fp lasheader recnum 12 = record_byte fp lasheader recnum 13) ∧
    ((raw_xyz fp lasheader recnum swap).1 = (raw_xyz fp lasheader recnum 0).1 ↔
      (record_byte fp lasheader recnum 0 = record_byte fp lasheader recnum 3 ∧
       record_byte fp lasheader recnum 1 = record_byte fp lasheader recnum 2)) ∧
    ((raw_xyz fp lasheader recnum swap).2.1 = (raw_xyz fp lasheader recnum 0).2.1 ↔
      (record_byte fp lasheader recnum 4 = record_byte fp lasheader recnum 7 ∧
       record_byte fp lasheader recnum 5 = record_byte fp lasheader recnum 6)) ∧
    ((raw_xyz fp lasheader recnum swap).2.2 = (raw_xyz fp lasheader recnum 0).2.2 ↔
      (record_byte fp lasheader recnum 8 = record_byte fp lasheader recnum 11 ∧
       record_byte fp lasheader recnum 9 = record_byte fp lasheader recnum 10)) ∧
    d0.x = fa.scale64 (raw_xyz fp lasheader recnum 0).1
      lasheader.x_scale_factor lasheader.x_offset ∧
    d1.x = fa.scale64 (raw_xyz fp lasheader recnum swap).1
      lasheader.x_scale_factor lasheader.x_offset ∧
    d0.y = fa.scale64 (raw_xyz fp lasheader recnum 0).2.1
      lasheader.y_scale_factor lasheader.y_offset ∧
    d1.y = fa.scale64 (raw_xyz fp lasheader recnum swap).2.1
      lasheader.y_scale_factor lasheader.y_offset ∧
    d0.z = fa.scale32 (raw_xyz fp lasheader recnum 0).2.2
      lasheader.z_scale_factor lasheader.z_offset ∧
    d1.z = fa.scale32 (raw_xyz fp lasheader recnum swap).2.2
      lasheader.z_scale_factor lasheader.z_offset := by
  obtain ⟨-, -, -, -, hlen, -, hd0⟩ := read_ok h0
  obtain ⟨-, -, -, -, -, -, hd1⟩ := read_ok h1
  have b : ∀ k, record_byte fp lasheader recnum k < 256 :=
    fun k => record_byte_lt fp lasheader recnum k hwf
  have p0 := (decoded_leading fa lasheader 0
    (record_buffer fp.content (record_addr lasheader recnum).toNat
      lasheader.point_data_record_length)).1
  have p1 := (decoded_leading fa lasheader swap
    (record_buffer fp.content (record_addr lasheader recnum).toNat
      lasheader.point_data_record_length)).1
  obtain ⟨x0, y0, z0⟩ := decoded_xyz fa lasheader 0
    (record_buffer fp.content (record_addr lasheader recnum).toNat
      lasheader.point_data_record_length)
  obtain ⟨x1, y1, z1⟩ := decoded_xyz fa lasheader swap
    (record_buffer fp.content (record_addr lasheader recnum).toNat
      lasheader.point_data_record_length)
  simp only [bytesAt_record_buffer _ _ hlen] at p0 p1
  rw [← hd0] at p0 x0 y0 z0
  rw [← hd1] at p1 x1 y1 z1
  refine ⟨?_, ?_, ?_, ?_, x0, x1, y0, y1, z0, z1⟩
  · rw [p0, p1, record_bytes_two]
    simp only [cond_swap, hs, ne_eq, not_false_eq_true, if_true, not_true_eq_false, if_false]
    rw [byteSwap_two _ _ (b 12) (b 13)]
    have h12 := b 12
    have h13 := b 13
    generalize record_byte fp lasheader recnum 12 = u at h12 ⊢
    generalize record_byte fp lasheader recnum 13 = v at h13 ⊢
    simp only [leVal]
    constructor <;> intro h <;> omega
  · rw [raw_xyz_eq _ _ _ _ hlen, raw_xyz_eq _ _ _ _ hlen, record_bytes_four]
    exact swap_sensitive_four swap _ _ _ _ hs (b 0) (b 1) (b 2) (b 3)
  · rw [raw_xyz_eq _ _ _ _ hlen, raw_xyz_eq _ _ _ _ hlen, record_bytes_four]
    exact swap_sensitive_four swap _ _ _ _ hs (b 4) (b 5) (b 6) (b 7)
  · rw [raw_xyz_eq _ _ _ _ hlen, raw_xyz_eq _ _ _ _ hlen, record_bytes_four]
    exact swap_sensitive_four swap _ _ _ _ hs (b 8) (b 9) (b 10) (b 11)

theorem fwrite_store (data : List Nat) (size : Nat) (fp : FILE) :
    (fwrite data size fp).2.log = .write (data.take size) :: fp.log ∧
    ((fwrite data size fp).1 = 0 → (fwrite data size fp).2.content = fp.content) ∧
    ((fwrite data size fp).1 ≠ 0 →
      (fwrite data size fp).2.content = written fp.content fp.pos size data) := by
  rcases fwrite_cases data size fp with ⟨h1, -, h3⟩ | ⟨h1, -, -, h3⟩
  · rw [h1, h3]; exact ⟨rfl, fun _ => rfl, fun h => absurd rfl h⟩
  · rw [h1, h3]; exact ⟨rfl, fun h => absurd h (by decide), fun _ => rfl⟩

/-- The function `slas_update_point_data` in terms of its steps. -/
theorem update_unfold (fp : FILE) (i : Nat) (hd : LASheader) (swap : Nat) (r : SLAS_POINT_DATA)
    (hlen : hd.point_data_record_length ≤ 128) :
    slas_update_point_data fp i hd swap r =
      if out_of_bounds hd i then some (-1, fp, r)
      else if (enc_seek1 fp hd i).1 < 0 then some (-2, (enc_seek1 fp hd i).2, r)
      else if (enc_read fp hd i).1 = 0 then some (-3, (enc_read fp hd i).2.2, r)
      else match enc_fields fp hd i swap r with
        | none => some (-4, (enc_read fp hd i).2.2, r)
        | some p =>
          if (enc_seek2 fp hd i).1 < 0 then some (-5, (enc_seek2 fp hd i).2, p.2)
          else if (enc_write fp hd i p.1).1 = 0 then some (-6, (enc_write fp hd i p.1).2, p.2)
          else some (0, (enc_write fp hd i p.1).2, p.2) := by
  have hl : ¬ hd.point_data_record_length > 128 := by omega
  unfold slas_update_point_data enc_write enc_seek2 enc_fields enc_read enc_seek1
  simp only [hl, if_false]
  split
  · rfl
  · split
    · rfl
    · split
      · rfl
      · cases update_fields (fread zeroed_buffer hd.point_data_record_length
          (fseeko64 fp (record_addr hd i)).2).2.1 hd.point_data_format swap r with
        | none => rfl
        | some p => rfl

/-- The function `slas_read_point_data` in terms of its steps. -/
theorem read_unfold (fa : FloatArith) (fp : FILE) (i : Nat) (hd : LASheader) (swap : Nat)
    (r : SLAS_POINT_DATA) (hlen : hd.point_data_record_length ≤ 128) :
    slas_read_point_data fa fp i hd swap r =
      if out_of_bounds hd i then some (-1, fp, r)
      else if (enc_seek1 fp hd i).1 < 0 then some (-2, (enc_seek1 fp hd i).2, r)
      else if (enc_read fp hd i).1 = 0 then
        some (-3, (enc_read fp hd i).2.2, SLAS_POINT_DATA.zero)
      else some (0, (enc_read fp hd i).2.2, decoded fa hd swap (enc_read fp hd i).2.1) := by
  have hl : ¬ hd.point_data_record_length > 128 := by omega
  unfold slas_read_point_data enc_read enc_seek1
  simp only [hl, if_false]
  split
  · rfl
  · split
    · rfl
    · split <;> rfl

theorem update_code_steps (fp : FILE) (i : Nat) (hd : LASheader) (swap : Nat)
    (r : SLAS_POINT_DATA) (hlen : hd.point_data_record_length ≤ 128) :
    ∃ fp' r', slas_update_point_data fp i hd swap r =
      some (first_failure
        [(out_of_bounds hd i, -1),
         (decide ((enc_seek1 fp hd i).1 < 0), -2),
         (decide ((enc_read fp hd i).1 = 0), -3),
         (decide (hd.point_data_format ≤ 5 ∧ r.classification > 31), -4),
         (decide ((enc_seek2 fp hd i).1 < 0), -5),
         (decide ((enc_write fp hd i
            (((enc_fields fp hd i swap r).map Prod.fst).getD [])).1 = 0), -6)], fp', r') := by
  rw [update_unfold fp i hd swap r hlen]
  by_cases h1 : out_of_bounds hd i = true
  · exact ⟨fp, r, by simp [first_failure, h1]⟩
  by_cases h2 : (enc_seek1 fp hd i).1 < 0
  · exact ⟨(enc_seek1 fp hd i).2, r, by simp [first_failure, h1, h2]⟩
  by_cases h3 : (enc_read fp hd i).1 = 0
  · exact ⟨(enc_read fp hd i).2.2, r, by simp [first_failure, h1, h2, h3]⟩
  cases h4 : enc_fields fp hd i swap r with
  | none =>
    have hv := (update_fields_none_iff _ _ _ _).1 h4
    exact ⟨(enc_read fp hd i).2.2, r, by simp [first_failure, h1, h2, h3, hv]⟩
  | some p =>
    have hv : ¬ (hd.point_data_format ≤ 5 ∧ r.classification > 31) := fun hv => by
      have := (update_fields_none_iff (enc_read fp hd i).2.1 hd.point_data_format swap r).2 hv
      unfold enc_fields at h4
      rw [this] at h4
      exact absurd h4 (by simp)
    by_cases h5 : (enc_seek2 fp hd i).1 < 0
    · exact ⟨(enc_seek2 fp hd i).2, p.2, by simp [first_failure, h1, h2, h3, hv, h5]⟩
    by_cases h6 : (enc_write fp hd i p.1).1 = 0
    · exact ⟨(enc_write fp hd i p.1).2, p.2,
        by simp [first_failure, h1, h2, h3, hv, h5, h6]⟩
    · exact ⟨(enc_write fp hd i p.1).2, p.2,
        by simp [first_failure, h1, h2, h3, hv, h5, h6]⟩

theorem first_failure_mem (steps : List (Bool × Int)) :
    first_failure steps = 0 ∨ first_failure steps ∈ steps.map Prod.snd := by
  induction steps with
  | nil => left; rfl
  | cons s rest ih =>
    obtain ⟨b, c⟩ := s
    cases b with
    | true => right; simp [first_failure]
    | false =>
      rcases ih with h | h
      · left; simpa [first_failure] using h
      · right; simp only [first_failure, Bool.false_eq_true, if_false, List.map_cons,
          List.mem_cons]; exact Or.inr h

theorem first_failure_zero (steps : List (Bool × Int)) (hc : ∀ s ∈ steps, s.2 ≠ 0) :
    first_failure steps = 0 ↔ ∀ s ∈ steps, s.1 = false := by
  induction steps with
  | nil => simp [first_failure]
  | cons s rest ih =>
    obtain ⟨b, c⟩ := s
    have hc0 : c ≠ 0 := hc (b, c) (List.mem_cons_self _ _)
    have ih' := ih (fun s hs => hc s (List.mem_cons_of_mem _ hs))
    cases b with
    | true => simp [first_failure, hc0]
    | false => simp [first_failure, ih']

/-- C18. Encode result codes: `slas_update_point_data` runs the steps bounds
check, seek, read, legacy classification validation, seek back, write in that
order and returns the code of the first step that fails: -1 bounds, -2 first
seek, -3 read, -4 validation, -5 second seek, -6 write; it returns 0 exactly
when no step fails, and never any other value.  (A step fails when the check
is true resp. the call reports failure; the record length is at most 128, the
size of the buffer.) -/
theorem C18_encode_result_codes (fp : FILE) (recnum : Nat) (lasheader : LASheader)
    (swap : Nat) (record : SLAS_POINT_DATA)
    (hlen : lasheader.point_data_record_length ≤ 128) :
    (∃ fp' r', slas_update_point_data fp recnum lasheader swap record =
      some (first_failure
        [(out_of_bounds lasheader recnum, -1),
         (decide ((enc_seek1 fp lasheader recnum).1 < 0), -2),
         (decide ((enc_read fp lasheader recnum).1 = 0), -3),
         (decide (lasheader.point_data_format ≤ 5 ∧ record.classification > 31), -4),
         (decide ((enc_seek2 fp lasheader recnum).1 < 0), -5),
         (decide ((enc_write fp lasheader recnum
            (((enc_fields fp lasheader recnum swap record).map Prod.fst).getD [])).1 = 0),
          -6)], fp', r')) ∧
    ((∃ fp' r', slas_update_point_data fp recnum lasheader swap record = some (0, fp', r')) ↔
      (out_of_bounds lasheader recnum = false ∧
       ¬ (enc_seek1 fp lasheader recnum).1 < 0 ∧
       ¬ (enc_read fp lasheader recnum).1 = 0 ∧
       ¬ (lasheader.point_data_format ≤ 5 ∧ record.classification > 31) ∧
       ¬ (enc_seek2 fp lasheader recnum).1 < 0 ∧
       ¬ (enc_write fp lasheader recnum
            (((enc_fields fp lasheader recnum swap record).map Prod.fst).getD [])).1 = 0)) ∧
    (∀ c fp' r', slas_update_point_data fp recnum lasheader swap record = some (c, fp', r') →
      c ∈ [0, -1, -2, -3, -4, -5, -6]) := by
  obtain ⟨f, q, hq⟩ := update_code_steps fp recnum lasheader swap record hlen
  have hz := first_failure_zero
    [(out_of_bounds lasheader recnum, -1),
     (decide ((enc_seek1 fp lasheader recnum).1 < 0), -2),
     (decide ((enc_read fp lasheader recnum).1 = 0), -3),
     (decide (lasheader.point_data_format ≤ 5 ∧ record.classification > 31), -4),
     (decide ((enc_seek2 fp lasheader recnum).1 < 0), -5),
     (decide ((enc_write fp lasheader recnum
        (((enc_fields fp lasheader recnum swap record).map Prod.fst).getD [])).1 = 0), -6)]
    (by simp)
  have hm := first_failure_mem
    [(out_of_bounds lasheader recnum, -1),
     (decide ((enc_seek1 fp lasheader recnum).1 < 0), -2),
     (decide ((enc_read fp lasheader recnum).1 = 0), -3),
     (decide (lasheader.point_data_format ≤ 5 ∧ record.classification > 31), -4),
     (decide ((enc_seek2 fp lasheader recnum).1 < 0), -5),
     (decide ((enc_write fp lasheader recnum
        (((enc_fields fp lasheader recnum swap record).map Prod.fst).getD [])).1 = 0), -6)]
  refine ⟨⟨f, q, hq⟩, ⟨?_, ?_⟩, ?_⟩
  · rintro ⟨fp', r', h⟩
    rw [hq] at h
    simp only [Option.some.injEq, Prod.mk.injEq] at h
    have := hz.1 h.1
    simpa using this
  · intro hall
    have : first_failure _ = 0 := hz.2 (by simpa using hall)
    exact ⟨f, q, by rw [hq, this]⟩
  · intro c fp' r' h
    rw [hq] at h
    simp only [Option.some.injEq, Prod.mk.injEq] at h
    rw [← h.1]
    rcases hm with h0 | h0
    · rw [h0]; simp
    · simp only [List.map_cons, List.map_nil] at h0
      simp only [List.mem_cons, List.mem_singleton, List.not_mem_nil, or_false] at h0 ⊢
      omega

theorem fread_fails_iff (data : List Nat) (size : Nat) (fp : FILE) :
    (fread data size fp).1 = 0 ↔ (size = 0 ∨ bytes_readable fp < size) := by
  unfold bytes_readable
  rcases fread_cases data size fp with ⟨h1, h2, -, -⟩ | ⟨h1, h2, h3, h4, -, -⟩
  · rw [h1]
    simp only [true_iff]
    by_cases h0 : size = 0
    · exact Or.inl h0
    right
    rcases h2 with h | h | h
    · exact absurd h h0
    · rw [h]; simp only [if_true]; omega
    · split <;> omega
  · rw [h1, h3]
    simp only [one_ne_zero, Bool.false_eq_true, if_false, false_iff, not_or]
    exact ⟨h2, by omega⟩

theorem read_code_steps (fa : FloatArith) (fp : FILE) (i : Nat) (hd : LASheader) (swap : Nat)
    (r : SLAS_POINT_DATA) (hlen : hd.point_data_record_length ≤ 128) :
    ∃ fp' r', slas_read_point_data fa fp i hd swap r =
      some (first_failure
        [(out_of_bounds hd i, -1),
         (decide ((enc_seek1 fp hd i).1 < 0), -2),
         (decide (hd.point_data_record_length = 0 ∨
            bytes_readable (enc_seek1 fp hd i).2 < hd.point_data_record_length), -3)],
        fp', r') := by
  rw [read_unfold fa fp i hd swap r hlen]
  have hf := fread_fails_iff zeroed_buffer hd.point_data_record_length (enc_seek1 fp hd i).2
  by_cases h1 : out_of_bounds hd i = true
  · exact ⟨fp, r, by simp [first_failure, h1]⟩
  by_cases h2 : (enc_seek1 fp hd i).1 < 0
  · exact ⟨(enc_seek1 fp hd i).2, r, by simp [first_failure, h1, h2]⟩
  by_cases h3 : (enc_read fp hd i).1 = 0
  · have h3' := hf.1 h3
    exact ⟨(enc_read fp hd i).2.2, SLAS_POINT_DATA.zero,
      by simp [first_failure, h1, h2, h3, h3']⟩
  · have h3' : ¬ (hd.point_data_record_length = 0 ∨
        bytes_readable (enc_seek1 fp hd i).2 < hd.point_data_record_length) :=
      fun hh => h3 (hf.2 hh)
    exact ⟨(enc_read fp hd i).2.2, decoded fa hd swap (enc_read fp hd i).2.1,
      by simp [first_failure, h1, h2, h3, h3']⟩

/-- C19 (as amended). Decode result codes: `slas_read_point_data` returns -1
when the index is out of range, otherwise -2 when the seek fails, otherwise -3
when `point_data_record_length` is 0 or fewer than `point_data_record_length`
bytes can be read, and 0 exactly when none of these holds; it never returns
-4, -5 or -6.  (The record length is at most 128, the size of the buffer.) -/
theorem C19_decode_result_codes (fa : FloatArith) (fp : FILE) (recnum : Nat)
    (lasheader : LASheader) (swap : Nat) (record : SLAS_POINT_DATA)
    (hlen : lasheader.point_data_record_length ≤ 128) :
    (∃ fp' r', slas_read_point_data fa fp recnum lasheader swap record =
      some (first_failure
        [(out_of_bounds lasheader recnum, -1),
         (decide ((enc_seek1 fp lasheader recnum).1 < 0), -2),
         (decide (lasheader.point_data_record_length = 0 ∨
            bytes_readable (enc_seek1 fp lasheader recnum).2 <
              lasheader.point_data_record_length), -3)], fp', r')) ∧
    ((∃ fp' r', slas_read_point_data fa fp recnum lasheader swap record = some (0, fp', r')) ↔
      (out_of_bounds lasheader recnum = false ∧
       ¬ (enc_seek1 fp lasheader recnum).1 < 0 ∧
       ¬ (lasheader.point_data_record_length = 0 ∨
          bytes_readable (enc_seek1 fp lasheader recnum).2 <
            lasheader.point_data_record_length))) ∧
    (∀ c fp' r', slas_read_point_data fa fp recnum lasheader swap record = some (c, fp', r') →
      c ∈ [0, -1, -2, -3]) := by
  obtain ⟨f, q, hq⟩ := read_code_steps fa fp recnum lasheader swap record hlen
  have hz := first_failure_zero
    [(out_of_bounds lasheader recnum, -1),
     (decide ((enc_seek1 fp lasheader recnum).1 < 0), -2),
     (decide (lasheader.point_data_record_length = 0 ∨
        bytes_readable (enc_seek1 fp lasheader recnum).2 <
          lasheader.point_data_record_length), -3)]
    (by simp)
  have hm := first_failure_mem
    [(out_of_bounds lasheader recnum, -1),
     (decide ((enc_seek1 fp lasheader recnum).1 < 0), -2),
     (decide (lasheader.point_data_record_length = 0 ∨
        bytes_readable (enc_seek1 fp lasheader recnum).2 <
          lasheader.point_data_record_length), -3)]
  refine ⟨⟨f, q, hq⟩, ⟨?_, ?_⟩, ?_⟩
  · rintro ⟨fp', r', h⟩
    rw [hq] at h
    simp only [Option.some.injEq, Prod.mk.injEq] at h
    have := hz.1 h.1
    simpa using this
  · intro hall
    have : first_failure _ = 0 := hz.2 (by simpa using hall)
    exact ⟨f, q, by rw [hq, this]⟩
  · intro c fp' r' h
    rw [hq] at h
    simp only [Option.some.injEq, Prod.mk.injEq] at h
    rw [← h.1]
    rcases hm with h0 | h0
    · rw [h0]; simp
    · simp only [List.map_cons, List.map_nil] at h0
      simp only [List.mem_cons, List.mem_singleton, List.not_mem_nil, or_false] at h0 ⊢
      omega

/-- C19 (counterexample). With -3 tied only to "fewer than
`point_data_record_length` bytes can be read", the claim fails for a header
whose record length is 0: the index is in range, the seek succeeds, 16 bytes
can be read, and `slas_read_point_data` returns -3 (`fread` of 0 bytes
delivers no item). -/
theorem C19_counterexample_zero_length :
    ¬ (∀ (fa : FloatArith) (fp : FILE) (recnum : Nat) (lasheader : LASheader) (swap : Nat)
        (record : SLAS_POINT_DATA), lasheader.point_data_record_length ≤ 128 →
        ∃ fp' r', slas_read_point_data fa fp recnum lasheader swap record =
          some (first_failure
            [(out_of_bounds lasheader recnum, -1),
             (decide ((enc_seek1 fp lasheader recnum).1 < 0), -2),
             (decide (bytes_readable (enc_seek1 fp lasheader recnum).2 <
                lasheader.point_data_record_length), -3)], fp', r')) := by
  intro h
  obtain ⟨fp', r', hq⟩ := h rawArith short_file 0 empty_header 0 SLAS_POINT_DATA.zero
    (by decide)
  have e : outcome (slas_read_point_data rawArith short_file 0 empty_header 0
      SLAS_POINT_DATA.zero) = some (-3, SLAS_POINT_DATA.zero) := by decide
  rw [hq] at e
  simp only [outcome, Option.map_some', Option.some.injEq, Prod.mk.injEq] at e
  exact absurd e.1 (by decide)

/-- C19 (witness): record 1 of `legacy_file`. -/
theorem C19_witness :
    legacy_header.point_data_record_length ≤ 128 ∧
    (∃ fp' r', slas_read_point_data rawArith legacy_file 1 legacy_header 0
        SLAS_POINT_DATA.zero =
      some (first_failure
        [(out_of_bounds legacy_header 1, -1),
         (decide ((enc_seek1 legacy_file legacy_header 1).1 < 0), -2),
         (decide (legacy_header.point_data_record_length = 0 ∨
            bytes_readable (enc_seek1 legacy_file legacy_header 1).2 <
              legacy_header.point_data_record_length), -3)], fp', r')) :=
  ⟨by decide,
   (C19_decode_result_codes rawArith legacy_file 1 legacy_header 0 SLAS_POINT_DATA.zero
     (by decide)).1⟩

/-- C18 (witness): classification 32 encoded at record 1 of `legacy_file`,
where validation is the first step that fails. -/
theorem C18_witness :
    legacy_header.point_data_record_length ≤ 128 ∧
    (∀ c fp' r', slas_update_point_data legacy_file 1 legacy_header 0
        { legacy_decoded with classification := 32 } = some (c, fp', r') →
      c ∈ [0, -1, -2, -3, -4, -5, -6]) ∧
    (slas_update_point_data legacy_file 1 legacy_header 0
        { legacy_decoded with classification := 32 }).map Prod.fst = some (-4) :=
  ⟨by decide,
   (C18_encode_result_codes legacy_file 1 legacy_header 0
     { legacy_decoded with classification := 32 } (by decide)).2.2,
   by decide⟩

/-- C20 (witness): record 1 of `legacy_file`, whose x bytes are FF FF FF FF and
whose intensity bytes are CD AB. -/
theorem C20_witness :
    legacy_file.wf ∧ (1 : Nat) ≠ 0 ∧
    slas_read_point_data rawArith legacy_file 1 legacy_header 0 SLAS_POINT_DATA.zero =
      some (0, legacy_after_read, legacy_decoded) ∧
    slas_read_point_data rawArith legacy_file 1 legacy_header 1 SLAS_POINT_DATA.zero =
      some (0, legacy_after_read, legacy_decoded_swapped) ∧
    (legacy_decoded_swapped.intensity = legacy_decoded.intensity ↔
      record_byte legacy_file legacy_header 1 12 = record_byte legacy_file legacy_header 1 13) ∧
    ((raw_xyz legacy_file legacy_header 1 1).1 = (raw_xyz legacy_file legacy_header 1 0).1 ↔
      (record_byte legacy_file legacy_header 1 0 = record_byte legacy_file legacy_header 1 3 ∧
       record_byte legacy_file legacy_header 1 1 = record_byte legacy_file legacy_header 1 2)) :=
  ⟨by decide, by decide, by decide, by decide,
   (C20_endianness_sensitivity rawArith legacy_file legacy_after_read legacy_after_read 1
     legacy_header 1 SLAS_POINT_DATA.zero SLAS_POINT_DATA.zero legacy_decoded
     legacy_decoded_swapped (by decide) (by decide) (by decide) (by decide)).1,
   (C20_endianness_sensitivity rawArith legacy_file legacy_after_read legacy_after_read 1
     legacy_header 1 SLAS_POINT_DATA.zero SLAS_POINT_DATA.zero legacy_decoded
     legacy_decoded_swapped (by decide) (by decide) (by decide) (by decide)).2.1⟩

theorem toInt64_of_lt (n : Nat) (h : n < 2 ^ 63) : toInt64 (n : Int) = n := by
  unfold toInt64
  have e1 : (2 : Int) ^ 63 = 9223372036854775808 := by norm_num
  have e2 : (2 : Int) ^ 64 = 18446744073709551616 := by norm_num
  have e3 : (2 : Nat) ^ 63 = 9223372036854775808 := by norm_num
  rw [e3] at h
  rw [e1, e2]
  omega

theorem toInt64_zero : toInt64 0 = 0 := by
  unfold toInt64; norm_num

/-- The record address when the 64 bit computation does not overflow. -/
theorem record_addr_exact (hd : LASheader) (i : Nat)
    (h : hd.offset_to_point_data + hd.point_data_record_length * i < 2 ^ 63) :
    record_addr hd i = ((hd.offset_to_point_data + hd.point_data_record_length * i : Nat) : Int)
    := by
  unfold record_addr
  have ho : hd.offset_to_point_data < 2 ^ 63 := by omega
  have hp : hd.point_data_record_length * i < 2 ^ 63 := by omega
  rw [toInt64_of_lt _ ho]
  by_cases hl : hd.point_data_record_length = 0
  · rw [hl]
    simp only [Nat.cast_zero, Nat.zero_mul, Nat.add_zero]
    rw [toInt64_zero, zero_mul, toInt64_zero, add_zero]
    exact toInt64_of_lt _ ho
  by_cases hi : i = 0
  · rw [hi]
    simp only [Nat.cast_zero, Nat.mul_zero, Nat.add_zero]
    rw [toInt64_zero, mul_zero, toInt64_zero, add_zero]
    exact toInt64_of_lt _ ho
  have hl2 : hd.point_data_record_length < 2 ^ 63 :=
    lt_of_le_of_lt (Nat.le_mul_of_pos_right _ (Nat.pos_of_ne_zero hi)) hp
  have hi2 : i < 2 ^ 63 :=
    lt_of_le_of_lt (Nat.le_mul_of_pos_left _ (Nat.pos_of_ne_zero hl)) hp
  rw [toInt64_of_lt _ hl2, toInt64_of_lt _ hi2]
  have e : ((hd.point_data_record_length : Int) * (i : Int)) =
      ((hd.point_data_record_length * i : Nat) : Int) := by push_cast; rfl
  rw [e, toInt64_of_lt _ hp]
  have e2 : ((hd.offset_to_point_data : Int) + ((hd.point_data_record_length * i : Nat) : Int))
      = ((hd.offset_to_point_data + hd.point_data_record_length * i : Nat) : Int) := by
    push_cast; rfl
  rw [e2, toInt64_of_lt _ h]

/-- The store after a call of `slas_update_point_data` that does not return 0
holds the bytes it held before. -/
theorem update_failed_content {fp fp' : FILE} {i : Nat} {hd : LASheader} {swap : Nat}
    {r r' : SLAS_POINT_DATA} {c : Int}
    (h : slas_update_point_data fp i hd swap r = some (c, fp', r')) (hc : c ≠ 0) :
    fp'.content = fp.content := by
  have s1 : (enc_seek1 fp hd i).2.content = fp.content := (fseeko64_store _ _).1
  have s2 : (enc_read fp hd i).2.2.content = fp.content := by
    unfold enc_read; rw [(fread_store _ _ _).1, s1]
  have s3 : (enc_seek2 fp hd i).2.content = fp.content := by
    unfold enc_seek2; rw [(fseeko64_store _ _).1, s2]
  by_cases hlen : hd.point_data_record_length ≤ 128
  · rw [update_unfold fp i hd swap r hlen] at h
    split at h
    · simp only [Option.some.injEq, Prod.mk.injEq] at h; rw [← h.2.1]
    · split at h
      · simp only [Option.some.injEq, Prod.mk.injEq] at h; rw [← h.2.1, s1]
      · split at h
        · simp only [Option.some.injEq, Prod.mk.injEq] at h; rw [← h.2.1, s2]
        · split at h
          · simp only [Option.some.injEq, Prod.mk.injEq] at h; rw [← h.2.1, s2]
          · split at h
            · simp only [Option.some.injEq, Prod.mk.injEq] at h; rw [← h.2.1, s3]
            · split at h
              · rename_i hw
                simp only [Option.some.injEq, Prod.mk.injEq] at h
                rw [← h.2.1]
                unfold enc_write at hw ⊢
                rw [(fwrite_store _ _ _).2.1 hw, s3]
              · simp only [Option.some.injEq, Prod.mk.injEq] at h
                exact absurd h.1.symm hc
  · unfold slas_update_point_data at h
    have hl : hd.point_data_record_length > 128 := by omega
    simp only [hl, if_true] at h
    split at h
    · simp only [Option.some.injEq, Prod.mk.injEq] at h; rw [← h.2.1]
    · split at h
      · simp only [Option.some.injEq, Prod.mk.injEq] at h
        rw [← h.2.1]; exact (fseeko64_store _ _).1
      · exact absurd h (by simp)

theorem enc_read_length (fp : FILE) (hd : LASheader) (i : Nat)
    (hlen : hd.point_data_record_length ≤ 128) (h : ¬ (enc_read fp hd i).1 = 0) :
    (enc_read fp hd i).2.1.length = 128 := by
  unfold enc_read at h ⊢
  rcases fread_cases zeroed_buffer hd.point_data_record_length (enc_seek1 fp hd i).2
    with ⟨g1, -, -, -⟩ | ⟨-, -, -, g4, g5, -⟩
  · exact absurd g1 h
  · rw [g5]
    simp only [List.length_append, List.length_take, List.length_drop, zeroed_buffer,
      List.length_replicate]
    omega

/-- The calls that a successful `slas_update_point_data` issues on the store. -/
theorem update_ok_log {fp fp' : FILE} {i : Nat} {hd : LASheader} {swap : Nat}
    {r r' : SLAS_POINT_DATA}
    (h : slas_update_point_data fp i hd swap r = some (0, fp', r')) :
    ∃ bytes : List Nat, bytes.length = hd.point_data_record_length ∧
      fp'.log = .write bytes :: .seek (record_addr hd i) ::
        .read hd.point_data_record_length :: .seek (record_addr hd i) :: fp.log := by
  obtain ⟨-, -, hlen, -, -, -⟩ := update_ok h
  have l1 : (enc_seek1 fp hd i).2.log = .seek (record_addr hd i) :: fp.log :=
    (fseeko64_store _ _).2.1
  have l2 : (enc_read fp hd i).2.2.log =
      .read hd.point_data_record_length :: .seek (record_addr hd i) :: fp.log := by
    unfold enc_read; rw [(fread_store _ _ _).2.1, l1]
  have l3 : (enc_seek2 fp hd i).2.log = .seek (record_addr hd i) ::
      .read hd.point_data_record_length :: .seek (record_addr hd i) :: fp.log := by
    unfold enc_seek2; rw [(fseeko64_store _ _).2.1, l2]
  rw [update_unfold fp i hd swap r hlen] at h
  split at h
  · simp at h
  · split at h
    · simp at h
    · split at h
      · simp at h
      · rename_i hread
        split at h
        · simp at h
        · rename_i p hp
          split at h
          · simp at h
          · split at h
            · simp at h
            · simp only [Option.some.injEq, Prod.mk.injEq, true_and] at h
              refine ⟨p.1.take hd.point_data_record_length, ?_, ?_⟩
              · have hp' : update_fields (enc_read fp hd i).2.1 hd.point_data_format swap r =
                    some (p.1, p.2) := hp
                have := (update_fields_frame hp').1
                rw [enc_read_length fp hd i hlen hread] at this
                rw [List.length_take, this]
                omega
              · rw [← h.1]
                unfold enc_write
                rw [(fwrite_store _ _ _).1, l3]

/-- C17. Encode touches only its own record: a call of
`slas_update_point_data` leaves the length of the store and every byte
outside `[addr, addr + point_data_record_length)` unchanged, `addr` being the
record address computed in 64 bit arithmetic; when it returns 0 it has issued
exactly seek to `addr`, read of `point_data_record_length` bytes, seek to
`addr` and write of `point_data_record_length` bytes; `addr` is
`offset_to_point_data + point_data_record_length * recnum` whenever that is
below 2^63, and then the bytes of every record j other than `recnum` are
unchanged. -/
theorem C17_encode_touches_own_record (fp fp' : FILE) (recnum : Nat) (lasheader : LASheader)
    (swap : Nat) (record r' : SLAS_POINT_DATA) (c : Int)
    (h : slas_update_point_data fp recnum lasheader swap record = some (c, fp', r')) :
    fp'.content.length = fp.content.length ∧
    (∀ k, ¬ ((record_addr lasheader recnum).toNat ≤ k ∧
        k < (record_addr lasheader recnum).toNat + lasheader.point_data_record_length) →
      fp'.content.getD k 0 = fp.content.getD k 0) ∧
    (c = 0 → ∃ bytes : List Nat, bytes.length = lasheader.point_data_record_length ∧
      fp'.log = .write bytes :: .seek (record_addr lasheader recnum) ::
        .read lasheader.point_data_record_length ::
        .seek (record_addr lasheader recnum) :: fp.log) ∧
    (lasheader.offset_to_point_data + lasheader.point_data_record_length * recnum < 2 ^ 63 →
      record_addr lasheader recnum =
        ((lasheader.offset_to_point_data + lasheader.point_data_record_length * recnum : Nat)
          : Int) ∧
      ∀ j, j ≠ recnum → ∀ t, t < lasheader.point_data_record_length →
        fp'.content.getD
          (lasheader.offset_to_point_data + lasheader.point_data_record_length * j + t) 0 =
        fp.content.getD
          (lasheader.offset_to_point_data + lasheader.point_data_record_length * j + t) 0) := by
  have key : fp'.content.length = fp.content.length ∧
      (∀ k, ¬ ((record_addr lasheader recnum).toNat ≤ k ∧
          k < (record_addr lasheader recnum).toNat + lasheader.point_data_record_length) →
        fp'.content.getD k 0 = fp.content.getD k 0) := by
    by_cases hc : c = 0
    · subst hc
      obtain ⟨-, -, h128, -, hlen, data', hu, hw⟩ := update_ok h
      have hl' := (update_fields_frame hu).1
      rw [length_record_buffer _ _ _ hlen h128] at hl'
      rw [hw]
      refine ⟨length_written _ _ _ _ hlen (by omega), fun k hk => ?_⟩
      rw [getD_written _ _ _ _ _ hlen (by omega), if_neg hk]
    · rw [update_failed_content h hc]
      exact ⟨rfl, fun _ _ => rfl⟩
  refine ⟨key.1, key.2, fun hc => ?_, fun hno => ?_⟩
  · subst hc
    exact update_ok_log h
  · have ha := record_addr_exact lasheader recnum hno
    refine ⟨ha, fun j hj t ht => key.2 _ ?_⟩
    rw [ha, Int.toNat_ofNat]
    intro hk
    rcases Nat.lt_or_gt_of_ne hj with hlt | hgt
    · have : lasheader.point_data_record_length * (j + 1) ≤
          lasheader.point_data_record_length * recnum := Nat.mul_le_mul_left _ hlt
      rw [Nat.mul_add, Nat.mul_one] at this
      omega
    · have : lasheader.point_data_record_length * (recnum + 1) ≤
          lasheader.point_data_record_length * j := Nat.mul_le_mul_left _ hgt
      rw [Nat.mul_add, Nat.mul_one] at this
      omega

/-- C17 (witness): `legacy_new_record` encoded at record 1 of `legacy_file`. -/
theorem C17_witness :
    slas_update_point_data legacy_file 1 legacy_header 0 legacy_new_record =
      some (0, legacy_after_update, legacy_new_record) ∧
    legacy_after_update.content.length = legacy_file.content.length ∧
    (∀ k, ¬ ((record_addr legacy_header 1).toNat ≤ k ∧
        k < (record_addr legacy_header 1).toNat + legacy_header.point_data_record_length) →
      legacy_after_update.content.getD k 0 = legacy_file.content.getD k 0) ∧
    record_addr legacy_header 1 = 38 :=
  ⟨by decide,
   (C17_encode_touches_own_record legacy_file legacy_after_update 1 legacy_header 0
     legacy_new_record legacy_new_record 0 (by decide)).1,
   (C17_encode_touches_own_record legacy_file legacy_after_update 1 legacy_header 0
     legacy_new_record legacy_new_record 0 (by decide)).2.1,
   by decide⟩

theorem length_unpack_loop (data : List Nat) (size : Nat) :
    ∀ (count pos : Nat), (unpack_loop data size count pos).length = count := by
  intro count
  induction count with
  | zero => intro pos; rfl
  | succ n ih => intro pos; simp [unpack_loop, ih]

theorem getD_unpack_loop (data : List Nat) (size : Nat) :
    ∀ (count pos k : Nat), k < count →
      (unpack_loop data size count pos).getD k 0 = bit_unpack data (pos + k * size) size := by
  intro count
  induction count with
  | zero => intro pos k hk; omega
  | succ n ih =>
    intro pos k hk
    cases k with
    | zero => simp [unpack_loop]
    | succ j =>
      simp only [unpack_loop, List.getD_cons_succ]
      rw [ih (pos + size) j (by omega)]
      congr 1
      rw [Nat.add_mul, Nat.one_mul]
      omega

theorem foldl_bits_bound (bits : List Nat) (hb : ∀ b ∈ bits, b ≤ 1) :
    ∀ acc, bits.foldl (fun a b => 2 * a + b) acc + 1 ≤ 2 ^ bits.length * (acc + 1) := by
  induction bits with
  | nil => intro acc; simp
  | cons b bs ih =>
    intro acc
    have hb1 : b ≤ 1 := hb b (List.mem_cons_self _ _)
    have ih' := ih (fun x hx => hb x (List.mem_cons_of_mem _ hx)) (2 * acc + b)
    simp only [List.foldl_cons, List.length_cons]
    calc bs.foldl (fun a b => 2 * a + b) (2 * acc + b) + 1
        ≤ 2 ^ bs.length * (2 * acc + b + 1) := ih'
      _ ≤ 2 ^ bs.length * (2 * (acc + 1)) := Nat.mul_le_mul_left _ (by omega)
      _ = 2 ^ (bs.length + 1) * (acc + 1) := by rw [pow_succ]; ring

theorem bits_value_lt (buffer : List Nat) (first width : Nat) :
    bits_value (stream_bits buffer first width) < 2 ^ width := by
  have h := foldl_bits_bound (stream_bits buffer first width) (by
    intro b hb
    simp only [stream_bits, List.mem_map, List.mem_range] at hb
    obtain ⟨t, -, rfl⟩ := hb
    unfold stream_bit
    omega) 0
  simp only [stream_bits, List.length_map, List.length_range, Nat.zero_add, Nat.mul_one] at h
  unfold bits_value stream_bits
  omega

theorem bit_unpack_eq (buffer : List Nat) (start numbits : Nat) (h : numbits ≤ 32) :
    bit_unpack buffer start numbits = bits_value (stream_bits buffer start numbits) := by
  unfold bit_unpack
  apply Nat.mod_eq_of_lt
  exact lt_of_lt_of_le (bits_value_lt buffer start numbits) (Nat.pow_le_pow_right (by norm_num) h)

theorem wave_ok {fp fp' : FILE} {hd : LASheader} {record : SLAS_POINT_DATA}
    {descs : List SLAS_WAVEFORM_PACKET_DESCRIPTOR} {wave : List Nat}
    (h : slas_read_waveform_data fp hd record descs = some (0, fp', wave)) :
    ∃ desc, descs[record.wavepacket_descriptor_index]? = some desc ∧
      (waveform_packet fp hd record).length = record.waveform_packet_size ∧
      (toSigned 32 desc.number_of_samples).toNat * desc.bits_per_sample ≤
        8 * (waveform_packet fp hd record).length ∧
      wave = unpack_loop (waveform_packet fp hd record) desc.bits_per_sample
        (toSigned 32 desc.number_of_samples).toNat 0 := by
  unfold slas_read_waveform_data at h
  simp only [] at h
  rcases fseeko64_cases fp (wave_addr hd record) with ⟨h1, -, -⟩ | ⟨h1, -, -, h3⟩
  · simp [h1] at h
  simp only [h1, lt_self_iff_false, if_false] at h
  have hc : (fseeko64 fp (wave_addr hd record)).2.content = fp.content :=
    (fseeko64_store _ _).1
  have hp : (fseeko64 fp (wave_addr hd record)).2.pos =
      (wave_addr hd record).toNat := by rw [h3]
  rcases fread_cases (List.replicate record.waveform_packet_size 0) record.waveform_packet_size
      (fseeko64 fp (wave_addr hd record)).2
    with ⟨g1, -, -, -⟩ | ⟨g1, -, -, g4, g5, -⟩
  · simp [g1] at h
  simp only [g1, one_ne_zero, if_false] at h
  rw [hc, hp] at g4 g5
  have e : List.drop record.waveform_packet_size
      (List.replicate record.waveform_packet_size 0) = [] := by simp
  rw [e, List.append_nil] at g5
  rw [g5] at h
  have hlen : (waveform_packet fp hd record).length = record.waveform_packet_size := by
    unfold waveform_packet
    simp only [List.length_take, List.length_drop]
    omega
  cases hd' : descs[record.wavepacket_descriptor_index]? with
  | none => simp [hd'] at h
  | some desc =>
    simp only [hd'] at h
    refine ⟨desc, rfl, hlen, ?_⟩
    change (if _ then none else some (_, _, unpack_loop (waveform_packet fp hd record) _ _ 0)) = _
      at h
    split at h
    · exact absurd h (by simp)
    · rename_i hle
      simp only [Option.some.injEq, Prod.mk.injEq, true_and] at h
      change ¬ _ > 8 * (waveform_packet fp hd record).length at hle
      exact ⟨by omega, h.2.symm⟩

theorem count_toNat (n : Nat) (h : n < 2 ^ 32) :
    (toSigned 32 n).toNat = if n < 2 ^ 31 then n else 0 := by
  unfold toSigned
  have e : n % 2 ^ 32 = n := Nat.mod_eq_of_lt h
  rw [e]
  norm_num at h ⊢
  split_ifs <;> omega

theorem wave_total {fp : FILE} {hd : LASheader} {record : SLAS_POINT_DATA}
    {descs : List SLAS_WAVEFORM_PACKET_DESCRIPTOR} {desc : SLAS_WAVEFORM_PACKET_DESCRIPTOR}
    (hq : fp.faults = []) (hf : fp.faultDefault = false)
    (ha : 0 ≤ wave_addr hd record)
    (hs : record.waveform_packet_size ≠ 0)
    (hfit : (wave_addr hd record).toNat + record.waveform_packet_size ≤ fp.content.length)
    (hdesc : descs[record.wavepacket_descriptor_index]? = some desc)
    (hbuf : (toSigned 32 desc.number_of_samples).toNat * desc.bits_per_sample ≤
      8 * record.waveform_packet_size) :
    ∃ fp', slas_read_waveform_data fp hd record descs =
      some (0, fp', unpack_loop (waveform_packet fp hd record) desc.bits_per_sample
        (toSigned 32 desc.number_of_samples).toNat 0) := by
  have hlen : (waveform_packet fp hd record).length = record.waveform_packet_size := by
    unfold waveform_packet
    simp only [List.length_take, List.length_drop]
    omega
  have hnf : fp.nextFault = false := by simp [FILE.nextFault, hq, hf]
  unfold slas_read_waveform_data
  simp only []
  rcases fseeko64_cases fp (wave_addr hd record) with ⟨-, h2 | h2, -⟩ | ⟨h1, -, -, h3⟩
  · rw [hnf] at h2; exact absurd h2 (by simp)
  · omega
  simp only [h1, lt_self_iff_false, if_false]
  have hc : (fseeko64 fp (wave_addr hd record)).2.content = fp.content :=
    (fseeko64_store _ _).1
  have hp : (fseeko64 fp (wave_addr hd record)).2.pos = (wave_addr hd record).toNat := by
    rw [h3]
  have hnf2 : (fseeko64 fp (wave_addr hd record)).2.nextFault = false := by
    rw [h3]; simp [FILE.nextFault, FILE.issue, hq, hf]
  rcases fread_cases (List.replicate record.waveform_packet_size 0) record.waveform_packet_size
      (fseeko64 fp (wave_addr hd record)).2
    with ⟨-, g2 | g2 | g2, -, -⟩ | ⟨g1, -, -, g4, g5, -⟩
  · exact absurd g2 hs
  · rw [hnf2] at g2; exact absurd g2 (by simp)
  · rw [hc, hp] at g2; omega
  simp only [g1, one_ne_zero, if_false, hdesc]
  rw [hc, hp] at g5
  have e : List.drop record.waveform_packet_size
      (List.replicate record.waveform_packet_size 0) = [] := by simp
  rw [e, List.append_nil] at g5
  rw [g5]
  change ∃ fp', (if (toSigned 32 desc.number_of_samples).toNat * desc.bits_per_sample >
      8 * (waveform_packet fp hd record).length then none
      else some (_, _, unpack_loop (waveform_packet fp hd record) _ _ 0)) = _
  rw [hlen, if_neg (by omega)]
  exact ⟨_, rfl⟩

/-- The spec's example: two samples of 12 bits in the packet AB CD EF are
0xABC and 0xDEF. -/
theorem wave_example :
    slas_read_waveform_data wave_file wave_header wave_record
      [mkDescriptor 8 1, mkDescriptor 12 2] = some (0, wave_after_read, [2748, 3567]) := by
  decide

/-- C15: with no I/O failure, a packet that lies within the file, a sample
width W of 1 to 32 bits and a packet of at least ceil(N*W/8) bytes,
`slas_read_waveform_data` returns 0 and every sample k it produces is the
unsigned integer formed by bits k*W .. (k+1)*W-1 of the packet read as one bit
stream, most significant bit of each byte first, in stream order.  It
produces N samples when `number_of_samples` N is below 2^31; from 2^31 up the
signed 32-bit loop counter is negative and it produces none, so the samples
the claim speaks of are missing there. -/
theorem C15_waveform_samples (fp : FILE) (hd : LASheader) (record : SLAS_POINT_DATA)
    (descs : List SLAS_WAVEFORM_PACKET_DESCRIPTOR) (desc : SLAS_WAVEFORM_PACKET_DESCRIPTOR)
    (hq : fp.faults = []) (hf : fp.faultDefault = false)
    (ha : 0 ≤ wave_addr hd record)
    (hs : record.waveform_packet_size ≠ 0)
    (hfit : (wave_addr hd record).toNat + record.waveform_packet_size ≤ fp.content.length)
    (hdesc : descs[record.wavepacket_descriptor_index]? = some desc)
    (hW : 1 ≤ desc.bits_per_sample ∧ desc.bits_per_sample ≤ 32)
    (hN : desc.number_of_samples < 2 ^ 32)
    (hbuf : desc.number_of_samples * desc.bits_per_sample ≤ 8 * record.waveform_packet_size) :
    ∃ fp' wave, slas_read_waveform_data fp hd record descs = some (0, fp', wave) ∧
      wave.length = (if desc.number_of_samples < 2 ^ 31 then desc.number_of_samples else 0) ∧
      ∀ k, k < wave.length →
        wave.getD k 0 = bits_value (stream_bits (waveform_packet fp hd record)
          (k * desc.bits_per_sample) desc.bits_per_sample) := by
  have hc := count_toNat desc.number_of_samples hN
  have hle : (toSigned 32 desc.number_of_samples).toNat ≤ desc.number_of_samples := by
    rw [hc]; split_ifs <;> omega
  have hbuf' : (toSigned 32 desc.number_of_samples).toNat * desc.bits_per_sample ≤
      8 * record.waveform_packet_size :=
    le_trans (Nat.mul_le_mul_right _ hle) hbuf
  obtain ⟨fp', h⟩ := wave_total hq hf ha hs hfit hdesc hbuf'
  refine ⟨fp', _, h, ?_, ?_⟩
  · rw [length_unpack_loop, hc]
  · intro k hk
    rw [length_unpack_loop] at hk
    rw [getD_unpack_loop _ _ _ _ _ hk, Nat.zero_add, bit_unpack_eq _ _ _ hW.2]

/-- C15, at a packet of 2^28 bytes 0xFF with samples of 1 bit and
`number_of_samples` 2^31: the call returns 0 and produces no sample, where the
claim has 2^31 samples, sample 0 being 1. -/
theorem C15_witness :
    stream_bit (waveform_packet long_wave_file wave_header long_wave_record) 0 = 1 ∧
    ∃ fp', slas_read_waveform_data long_wave_file wave_header long_wave_record
      [mkDescriptor 1 2147483648] = some (0, fp', []) := by
  constructor
  · rfl
  · obtain ⟨fp', wave, h, hl, -⟩ :=
      C15_waveform_samples long_wave_file wave_header long_wave_record
        [mkDescriptor 1 2147483648] (mkDescriptor 1 2147483648) rfl rfl (by decide) (by decide)
        (by
          show _ ≤ (lead_bytes ++ List.replicate 268435456 255).length
          rw [List.length_append, List.length_replicate]
          decide)
        rfl (by decide) (by decide) (by decide)
    have hl0 : wave.length = 0 := by
      rw [hl]; decide
    rw [List.length_eq_zero] at hl0
    exact ⟨fp', by rw [← hl0]; exact h⟩

/-- C16: a descriptor whose `number_of_samples` is 2^31 (samples of 8 bits,
packet AB CD EF): `slas_read_waveform_data` returns 0 and writes no sample at
all, where the claim has it write exactly `number_of_samples` samples. -/
theorem C16_no_samples_from_2_pow_31 :
    (mkDescriptor 8 2147483648).number_of_samples = 2147483648 ∧
    slas_read_waveform_data wave_file wave_header wave_record
      [mkDescriptor 8 1, mkDescriptor 8 2147483648] = some (0, wave_after_read, []) := by
  decide

theorem reversed_four (s b0 b1 b2 b3 : Nat) (h0 : b0 < 256) (h1 : b1 < 256) (h2 : b2 < 256)
    (h3 : b3 < 256) :
    cond_swap s 4 (leVal [b0, b1, b2, b3]) =
      leVal (if s ≠ 0 then [b0, b1, b2, b3].reverse else [b0, b1, b2, b3]) := by
  unfold cond_swap
  by_cases hs : s ≠ 0
  · rw [if_pos hs, if_pos hs, byteSwap_four _ _ _ _ h0 h1 h2 h3]
    rfl
  · rw [if_neg hs, if_neg hs]

/-- The integers that a successful decode hands to the floating point unit are
the signed 32 bit integers formed from the record bytes 0-3, 4-7, 8-11, taken
in reverse order when swap is set and in stored order when it is clear. -/
theorem scaled_raw_xyz (fa : FloatArith) (fp fp' : FILE) (recnum : Nat)
    (lasheader : LASheader) (swap : Nat) (record d : SLAS_POINT_DATA)
    (hwf : fp.wf)
    (h : slas_read_point_data fa fp recnum lasheader swap record = some (0, fp', d)) :
    d.x = fa.scale64
      (toSigned 32 (leVal (if swap ≠ 0 then (record_bytes fp lasheader recnum 0 4).reverse
        else record_bytes fp lasheader recnum 0 4)))
      lasheader.x_scale_factor lasheader.x_offset ∧
    d.y = fa.scale64
      (toSigned 32 (leVal (if swap ≠ 0 then (record_bytes fp lasheader recnum 4 4).reverse
        else record_bytes fp lasheader recnum 4 4)))
      lasheader.y_scale_factor lasheader.y_offset ∧
    d.z = fa.scale32
      (toSigned 32 (leVal (if swap ≠ 0 then (record_bytes fp lasheader recnum 8 4).reverse
        else record_bytes fp lasheader recnum 8 4)))
      lasheader.z_scale_factor lasheader.z_offset := by
  obtain ⟨-, -, -, -, hlen, -, hd⟩ := read_ok h
  have b : ∀ k, record_byte fp lasheader recnum k < 256 :=
    fun k => record_byte_lt fp lasheader recnum k hwf
  obtain ⟨x1, y1, z1⟩ := decoded_xyz fa lasheader swap
    (record_buffer fp.content (record_addr lasheader recnum).toNat
      lasheader.point_data_record_length)
  obtain ⟨s1, s2, s3⟩ := read_state_xyz lasheader swap
    (record_buffer fp.content (record_addr lasheader recnum).toNat
      lasheader.point_data_record_length)
  simp only [bytesAt_record_buffer _ _ hlen] at s1 s2 s3
  rw [← hd, s1] at x1
  rw [← hd, s2] at y1
  rw [← hd, s3] at z1
  rw [record_bytes_four, reversed_four _ _ _ _ _ (b _) (b _) (b _) (b _)] at x1 y1 z1
  simp only [record_bytes_four]
  exact ⟨x1, y1, z1⟩

theorem bit_length_le (fuel : Nat) : ∀ n k, n < 2 ^ k → bit_length fuel n ≤ k := by
  induction fuel with
  | zero => intro n k _; simp [bit_length]
  | succ f ih =>
    intro n k h
    unfold bit_length
    by_cases hn : n = 0
    · rw [if_pos hn]; omega
    · rw [if_neg hn]
      cases k with
      | zero => simp at h; omega
      | succ k =>
        have := ih (n / 2) k (by rw [pow_succ] at h; omega)
        omega

theorem lt_pow_bit_length (fuel : Nat) : ∀ n, n ≤ fuel → n < 2 ^ bit_length fuel n := by
  induction fuel with
  | zero => intro n h; simp [bit_length]; omega
  | succ f ih =>
    intro n h
    unfold bit_length
    by_cases hn : n = 0
    · rw [if_pos hn, hn]; simp
    · rw [if_neg hn]
      have := ih (n / 2) (by omega)
      rw [pow_succ]
      omega

theorem emin_binary64 : binary64.emin = -1074 := by decide

theorem emin_binary32 : binary32.emin = -149 := by decide

theorem exp_field_signed64 (neg : Bool) (mag : Nat) (h : mag < 2 ^ 63) :
    binary64.exp_field (binary64.signed neg mag) = mag / 2 ^ 52 := by
  unfold FloatFormat.exp_field FloatFormat.signed FloatFormat.sign_weight binary64
  cases neg <;> simp <;> omega

theorem frac_field_signed64 (neg : Bool) (mag : Nat) :
    binary64.frac_field (binary64.signed neg mag) = mag % 2 ^ 52 := by
  unfold FloatFormat.frac_field FloatFormat.signed FloatFormat.sign_weight binary64
  cases neg
  · simp
  · simp
    omega

theorem exp_field_signed32 (neg : Bool) (mag : Nat) (h : mag < 2 ^ 31) :
    binary32.exp_field (binary32.signed neg mag) = mag / 2 ^ 23 := by
  unfold FloatFormat.exp_field FloatFormat.signed FloatFormat.sign_weight binary32
  cases neg <;> simp <;> omega

theorem frac_field_signed32 (neg : Bool) (mag : Nat) :
    binary32.frac_field (binary32.signed neg mag) = mag % 2 ^ 23 := by
  unfold FloatFormat.frac_field FloatFormat.signed FloatFormat.sign_weight binary32
  cases neg
  · simp
  · simp
    omega


theorem finite_not_nan (f : FloatFormat) (b : Nat) (h : f.is_finite b = true) :
    f.is_nan b = false := by
  unfold FloatFormat.is_finite at h
  unfold FloatFormat.is_nan
  simp only [decide_eq_true_eq] at h
  simp only [Bool.and_eq_false_imp, decide_eq_true_eq]
  omega

theorem finite_not_inf (f : FloatFormat) (b : Nat) (h : f.is_finite b = true) :
    f.is_inf b = false := by
  unfold FloatFormat.is_finite at h
  unfold FloatFormat.is_inf
  simp only [decide_eq_true_eq] at h
  simp only [Bool.and_eq_false_imp, decide_eq_true_eq]
  omega

theorem signed_not_nan64 (neg : Bool) (mag : Nat) (h : mag ≤ 2047 * 2 ^ 52) :
    binary64.is_nan (binary64.signed neg mag) = false := by
  unfold FloatFormat.is_nan
  rw [exp_field_signed64 neg mag (by omega), frac_field_signed64]
  simp only [Bool.and_eq_false_imp, decide_eq_true_eq, FloatFormat.max_field, binary64]
  intro h1
  simp only [ne_eq, decide_not, Bool.not_eq_false', decide_eq_true_eq]
  omega

theorem signed_not_nan32 (neg : Bool) (mag : Nat) (h : mag ≤ 255 * 2 ^ 23) :
    binary32.is_nan (binary32.signed neg mag) = false := by
  unfold FloatFormat.is_nan
  rw [exp_field_signed32 neg mag (by omega), frac_field_signed32]
  simp only [Bool.and_eq_false_imp, decide_eq_true_eq, FloatFormat.max_field, binary32]
  intro h1
  simp only [ne_eq, decide_not, Bool.not_eq_false', decide_eq_true_eq]
  omega

theorem pack_not_nan64 (neg : Bool) (last : Int) (q : Nat) :
    binary64.is_nan (binary64.pack neg last q) = false := by
  unfold FloatFormat.pack
  split
  · exact signed_not_nan64 neg _ (by simp [FloatFormat.max_field, binary64])
  · rename_i h
    simp only [FloatFormat.max_field, binary64, ge_iff_le, not_le] at h
    exact signed_not_nan64 neg _ (by simp only [binary64]; omega)

theorem pack_not_nan32 (neg : Bool) (last : Int) (q : Nat) :
    binary32.is_nan (binary32.pack neg last q) = false := by
  unfold FloatFormat.pack
  split
  · exact signed_not_nan32 neg _ (by simp [FloatFormat.max_field, binary32])
  · rename_i h
    simp only [FloatFormat.max_field, binary32, ge_iff_le, not_le] at h
    exact signed_not_nan32 neg _ (by simp only [binary32]; omega)

theorem round_not_nan64 (neg : Bool) (m : Nat) (e : Int) :
    binary64.is_nan (binary64.round neg m e) = false := by
  unfold FloatFormat.round
  split
  · exact signed_not_nan64 neg 0 (by omega)
  · exact pack_not_nan64 neg _ _

theorem round_not_nan32 (neg : Bool) (m : Nat) (e : Int) :
    binary32.is_nan (binary32.round neg m e) = false := by
  unfold FloatFormat.round
  split
  · exact signed_not_nan32 neg 0 (by omega)
  · exact pack_not_nan32 neg _ _

theorem toSigned_32_abs (v : Nat) : (toSigned 32 v).natAbs ≤ 2 ^ 31 := by
  unfold toSigned
  have h : v % 2 ^ 32 < 2 ^ 32 := Nat.mod_lt _ (by norm_num)
  split <;> omega

theorem exp_field_pack64 (neg : Bool) (k q : Nat) (hk : k ≤ 2044) (hq : q < 2 ^ 53) :
    binary64.exp_field (binary64.pack neg ((k : Int) - 1074) q) < 2047 := by
  unfold FloatFormat.pack
  have e1 : ((k : Int) - 1074 - binary64.emin).toNat = k := by
    rw [emin_binary64]; omega
  have e2 : binary64.max_field * 2 ^ (binary64.prec - 1) = 2047 * 2 ^ 52 := by decide
  have e3 : binary64.prec - 1 = 52 := rfl
  rw [e1, e2, e3, if_neg (by omega), exp_field_signed64 _ _ (by omega)]
  omega

theorem of_int_finite (v : Int) (hv : v.natAbs ≤ 2 ^ 31) :
    binary64.is_finite (binary64.of_int v) = true := by
  unfold FloatFormat.of_int FloatFormat.round FloatFormat.is_finite
  have e0 : binary64.max_field = 2047 := by decide
  rw [e0, decide_eq_true_eq]
  by_cases hm : v.natAbs = 0
  · rw [if_pos hm, exp_field_signed64 _ _ (by norm_num)]
    norm_num
  · rw [if_neg hm]
    unfold FloatFormat.last_exp round_to
    have h1 : bit_length v.natAbs v.natAbs ≤ 32 :=
      bit_length_le _ _ _ (by omega)
    have h2 : v.natAbs < 2 ^ bit_length v.natAbs v.natAbs := lt_pow_bit_length _ _ (le_refl _)
    generalize bit_length v.natAbs v.natAbs = L at h1 h2
    generalize v.natAbs = m at hm h2
    have e3 : (binary64.prec : Int) = 53 := rfl
    have hl : max (0 + (L : Int) - binary64.prec) binary64.emin = ((L + 1021 : Nat) : Int) - 1074 := by
      rw [emin_binary64, e3]; omega
    rw [hl, if_pos (by omega)]
    have e4 : (0 - (((L + 1021 : Nat) : Int) - 1074)).toNat = 53 - L := by omega
    rw [e4]
    apply exp_field_pack64 _ _ _ (by omega)
    calc m * 2 ^ (53 - L) < 2 ^ L * 2 ^ (53 - L) :=
          Nat.mul_lt_mul_of_pos_right h2 (Nat.two_pow_pos _)
      _ = 2 ^ 53 := by rw [← pow_add, show L + (53 - L) = 53 by omega]

theorem mul_not_nan (a b : Nat) (ha : binary64.is_finite a = true)
    (hb : binary64.is_finite b = true) : binary64.is_nan (binary64.mul a b) = false := by
  unfold FloatFormat.mul
  rw [finite_not_nan _ _ ha, finite_not_nan _ _ hb, finite_not_inf _ _ ha, finite_not_inf _ _ hb]
  simp only [Bool.false_eq_true, if_false, or_self]
  exact round_not_nan64 _ _ _

theorem add_not_nan (a b : Nat) (ha : binary64.is_nan a = false)
    (hb : binary64.is_finite b = true) : binary64.is_nan (binary64.add a b) = false := by
  unfold FloatFormat.add
  rw [ha, finite_not_nan _ _ hb, finite_not_inf _ _ hb]
  simp only [Bool.false_eq_true, if_false, false_and]
  split
  · exact ha
  · split
    · exact signed_not_nan64 _ 0 (by omega)
    · exact round_not_nan64 _ _ _

theorem convert_not_nan (a : Nat) (ha : binary64.is_nan a = false) :
    binary32.is_nan (binary64.convert binary32 a) = false := by
  unfold FloatFormat.convert
  rw [ha]
  simp only [Bool.false_eq_true, if_false]
  split
  · exact signed_not_nan32 _ _ (by simp [FloatFormat.max_field, binary32])
  · exact round_not_nan32 _ _ _

theorem scaled_not_nan (v : Int) (s o : Nat) (hv : v.natAbs ≤ 2 ^ 31)
    (hs : binary64.is_finite s = true) (ho : binary64.is_finite o = true) :
    binary64.is_nan (binary64.add (binary64.mul (binary64.of_int v) s) o) = false :=
  add_not_nan _ _ (mul_not_nan _ _ (of_int_finite v hv) hs) ho

set_option maxRecDepth 100000 in
/-- Values of the arithmetic: 0.1 + 0.2 is 0.30000000000000004; 3.0 * 0.5 is
1.5; 1e308 * 10.0 overflows to infinity; 2^-1074 * 0.5 is a tie and rounds to
zero, 2^-1074 * 1.5 is a tie and rounds to 2^-1073; (double) 2^53 + 1 is a tie
and rounds to 2^53; (double) -1 is -1.0; (float) 0.1 is 0x3DCCCCCD;
(float) 1e39 is infinity; 1.0 + 2^-53 is a tie and rounds to 1.0;
1.0 - 1.0 is +0.0. -/
theorem ieee_values :
    binary64.add 0x3FB999999999999A 0x3FC999999999999A = 0x3FD3333333333334 ∧
    binary64.mul 0x4008000000000000 0x3FE0000000000000 = 0x3FF8000000000000 ∧
    binary64.mul 0x7FE1CCF385EBC8A0 0x4024000000000000 = 0x7FF0000000000000 ∧
    binary64.mul 1 0x3FE0000000000000 = 0 ∧
    binary64.mul 1 0x3FF8000000000000 = 2 ∧
    binary64.of_int 9007199254740993 = 0x4340000000000000 ∧
    binary64.of_int (-1) = 0xBFF0000000000000 ∧
    binary64.convert binary32 0x3FB999999999999A = 0x3DCCCCCD ∧
    binary64.convert binary32 0x48078287F49C4A1D = 0x7F800000 ∧
    binary64.add 0x3FF0000000000000 0x3CA0000000000000 = 0x3FF0000000000000 ∧
    binary64.add 0x3FF0000000000000 0xBFF0000000000000 = 0 := by
  decide

set_option maxRecDepth 100000 in
theorem scaled_read_swapped :
    slas_read_point_data ieeeArith legacy_file 1 scaled_header 1 SLAS_POINT_DATA.zero =
      some (0, legacy_after_read, scaled_decoded_swapped) := by
  decide

set_option maxRecDepth 100000 in
theorem scaled_read_stored :
    slas_read_point_data ieeeArith legacy_file 1 scaled_header 0 SLAS_POINT_DATA.zero =
      some (0, legacy_after_read, scaled_decoded) := by
  decide

/-- C22. Scaling after swap, under the IEEE 754 arithmetic of the host and for
a header whose scale factors and offsets are finite numbers: a successful decode
reports x = ((double) x_raw * x_scale_factor) + x_offset, the product and the
sum each rounded to `double`, y likewise, and
z = (float) (((double) z_raw * z_scale_factor) + z_offset), where x_raw, y_raw,
z_raw are the signed 32 bit integers formed from the record bytes 0-3, 4-7, 8-11
taken in reverse order when swap is set and in stored order when it is clear.
None of the three values is a NaN. -/
theorem C22_scaling_after_swap (fp fp' : FILE) (recnum : Nat)
    (lasheader : LASheader) (swap : Nat) (record d : SLAS_POINT_DATA)
    (hwf : fp.wf) (hfin : finite_scaling lasheader = true)
    (h : slas_read_point_data ieeeArith fp recnum lasheader swap record = some (0, fp', d)) :
    d.x = binary64.add (binary64.mul (binary64.of_int
        (toSigned 32 (leVal (if swap ≠ 0 then (record_bytes fp lasheader recnum 0 4).reverse
          else record_bytes fp lasheader recnum 0 4))))
      lasheader.x_scale_factor) lasheader.x_offset ∧
    d.y = binary64.add (binary64.mul (binary64.of_int
        (toSigned 32 (leVal (if swap ≠ 0 then (record_bytes fp lasheader recnum 4 4).reverse
          else record_bytes fp lasheader recnum 4 4))))
      lasheader.y_scale_factor) lasheader.y_offset ∧
    d.z = binary64.convert binary32 (binary64.add (binary64.mul (binary64.of_int
        (toSigned 32 (leVal (if swap ≠ 0 then (record_bytes fp lasheader recnum 8 4).reverse
          else record_bytes fp lasheader recnum 8 4))))
      lasheader.z_scale_factor) lasheader.z_offset) ∧
    binary64.is_nan d.x = false ∧ binary64.is_nan d.y = false ∧
    binary32.is_nan d.z = false := by
  obtain ⟨hx, hy, hz⟩ := scaled_raw_xyz ieeeArith fp fp' recnum lasheader swap record d hwf h
  unfold finite_scaling at hfin
  simp only [Bool.and_eq_true] at hfin
  obtain ⟨⟨⟨⟨⟨sx, sy⟩, sz⟩, ox⟩, oy⟩, oz⟩ := hfin
  refine ⟨hx, hy, hz, ?_, ?_, ?_⟩
  · rw [hx]
    exact scaled_not_nan _ _ _ (toSigned_32_abs _) sx ox
  · rw [hy]
    exact scaled_not_nan _ _ _ (toSigned_32_abs _) sy oy
  · rw [hz]
    exact convert_not_nan _ (scaled_not_nan _ _ _ (toSigned_32_abs _) sz oz)

/-- C22 (witness): record 1 of `legacy_file` decoded with swap set under
`scaled_header`; its bytes 4-7 are 7, 1, 0, 0, so that y_raw is
0x07010000 = 117506048 and y = 117506048 * 0.01 - 1234.5 = 1173825.98. -/
theorem C22_witness :
    legacy_file.wf ∧ finite_scaling scaled_header = true ∧
    slas_read_point_data ieeeArith legacy_file 1 scaled_header 1 SLAS_POINT_DATA.zero =
      some (0, legacy_after_read, scaled_decoded_swapped) ∧
    record_bytes legacy_file scaled_header 1 4 4 = [7, 1, 0, 0] ∧
    toSigned 32 (leVal [0, 0, 1, 7]) = 117506048 ∧
    scaled_decoded_swapped.y = 0x4131E941FAE147AE ∧
    scaled_decoded_swapped.y = binary64.add (binary64.mul (binary64.of_int
        (toSigned 32 (leVal (if (1 : Nat) ≠ 0 then
          (record_bytes legacy_file scaled_header 1 4 4).reverse
          else record_bytes legacy_file scaled_header 1 4 4))))
      scaled_header.y_scale_factor) scaled_header.y_offset :=
  ⟨by decide, by decide, scaled_read_swapped, by decide, by decide, by decide,
   (C22_scaling_after_swap legacy_file legacy_after_read 1 scaled_header 1
     SLAS_POINT_DATA.zero scaled_decoded_swapped (by decide) (by decide)
     scaled_read_swapped).2.1⟩

theorem decoded_channel_legacy (fa : FloatArith) (hd : LASheader) (swap : Nat)
    (data : List Nat) (hf : hd.point_data_format ≤ 5) :
    (decoded fa hd swap data).scanner_channel = 0 := by
  have hf' : ¬ hd.point_data_format > 5 := by omega
  simp only [decoded, decode_fields, hf', if_false]
  rw [(swap_fields_fixed _ _ _).2.2.2]
  exact (read_fields_fixed _ _).1

/-- C28. Absent fields decode as zero: a successful `slas_read_point_data`
returns, whatever the output record held before the call, gps_time = 0 for
formats 0 and 2; red = green = blue = 0 for formats 0, 1, 4, 6, 9; NIR = 0 for
every format other than 8 and 10; the seven waveform linkage fields 0 for
every format other than 4, 5, 9, 10; scanner_channel = 0 for formats <= 5. -/
theorem C28_absent_fields_zero (fa : FloatArith) (fp fp' : FILE) (recnum : Nat)
    (lasheader : LASheader) (swap : Nat) (record d : SLAS_POINT_DATA)
    (h : slas_read_point_data fa fp recnum lasheader swap record = some (0, fp', d)) :
    (lasheader.point_data_format ∈ [0, 2] → d.gps_time = 0) ∧
    (lasheader.point_data_format ∈ [0, 1, 4, 6, 9] → d.red = 0 ∧ d.green = 0 ∧ d.blue = 0) ∧
    (lasheader.point_data_format ∉ [8, 10] → d.NIR = 0) ∧
    (lasheader.point_data_format ∉ [4, 5, 9, 10] →
      d.wavepacket_descriptor_index = 0 ∧ d.byte_offset_to_waveform_data = 0 ∧
      d.waveform_packet_size = 0 ∧ d.return_point_waveform_location = 0 ∧
      d.Xt = 0 ∧ d.Yt = 0 ∧ d.Zt = 0) ∧
    (lasheader.point_data_format ≤ 5 → d.scanner_channel = 0) := by
  obtain ⟨a1, a2, a3, a4, a5, a6, a7, a8, a9, a10, a11, a12⟩ :=
    decode_optional_layout fa fp fp' recnum lasheader swap record d h
  obtain ⟨-, -, -, -, -, -, hd⟩ := read_ok h
  refine ⟨?_, ?_, ?_, ?_, ?_⟩
  · intro hf
    have e : has_gps_time lasheader.point_data_format = false := by
      simp only [List.mem_cons, List.mem_singleton, List.not_mem_nil, or_false] at hf
      rcases hf with hf | hf <;> rw [hf] <;> decide
    rw [a1, e]; rfl
  · intro hf
    have e : has_rgb lasheader.point_data_format = false := by
      simp only [List.mem_cons, List.mem_singleton, List.not_mem_nil, or_false] at hf
      rcases hf with hf | hf | hf | hf | hf <;> rw [hf] <;> decide
    rw [a2, a3, a4, e]
    exact ⟨rfl, rfl, rfl⟩
  · intro hf
    have e : has_nir lasheader.point_data_format = false := by
      unfold has_nir; exact decide_eq_false hf
    rw [a5, e]; rfl
  · intro hf
    have e : has_wave lasheader.point_data_format = false := by
      unfold has_wave; exact decide_eq_false hf
    rw [a6, a7, a8, a9, a10, a11, a12, e]
    exact ⟨rfl, rfl, rfl, rfl, rfl, rfl, rfl⟩
  · intro hf
    rw [hd]
    exact decoded_channel_legacy fa lasheader swap _ hf

/-- C28 (witness): record 1 of `legacy_file`, format 3, which carries neither
NIR nor the waveform block nor a scanner channel. -/
theorem C28_witness :
    slas_read_point_data rawArith legacy_file 1 legacy_header 0 legacy_new_record =
      some (0, legacy_after_read, legacy_decoded) ∧
    legacy_header.point_data_format ∉ [8, 10] ∧ legacy_decoded.NIR = 0 ∧
    legacy_header.point_data_format ≤ 5 ∧ legacy_decoded.scanner_channel = 0 :=
  ⟨by decide, by decide,
   (C28_absent_fields_zero rawArith legacy_file legacy_after_read 1 legacy_header 0
     legacy_new_record legacy_decoded (by decide)).2.2.1 (by decide),
   by decide,
   (C28_absent_fields_zero rawArith legacy_file legacy_after_read 1 legacy_header 0
     legacy_new_record legacy_decoded (by decide)).2.2.2.2 (by decide)⟩

theorem flags_byte (b : Nat) (hb : b < 256) (s k w o : Prop) [Decidable s] [Decidable k]
    [Decidable w] [Decidable o] :
    (let c := if s then b ||| 0x01 else b &&& 0xfe
     let c := if k then c ||| 0x02 else c &&& 0xfd
     let c := if w then c ||| 0x04 else c &&& 0xfb
     if o then c ||| 0x08 else c &&& 0xf7) =
    ((b &&& 0xF0) ||| (if s then 0x01 else 0) ||| (if k then 0x02 else 0) |||
      (if w then 0x04 else 0) ||| (if o then 0x08 else 0)) := by
  by_cases h1 : s <;> by_cases h2 : k <;> by_cases h3 : w <;> by_cases h4 : o <;>
    simp only [h1, h2, h3, h4, if_true, if_false] <;>
    (interval_cases b <;> decide)

theorem flags_byte_high (b : Nat) (hb : b < 256) (s k w o : Prop) [Decidable s] [Decidable k]
    [Decidable w] [Decidable o] :
    ((b &&& 0xF0) ||| (if s then 0x01 else 0) ||| (if k then 0x02 else 0) |||
      (if w then 0x04 else 0) ||| (if o then 0x08 else 0)) / 16 = b / 16 := by
  by_cases h1 : s <;> by_cases h2 : k <;> by_cases h3 : w <;> by_cases h4 : o <;>
    simp only [h1, h2, h3, h4, if_true, if_false] <;>
    (interval_cases b <;> decide)

theorem update_cls_extended (fmt b : Nat) (r : SLAS_POINT_DATA) (hf : fmt > 5) (hb : b < 256) :
    update_cls fmt b r =
      some ((b &&& 0xF0) ||| (if r.synthetic ≠ 0 then 0x01 else 0) |||
        (if r.keypoint ≠ 0 then 0x02 else 0) ||| (if r.withheld ≠ 0 then 0x04 else 0) |||
        (if r.overlap ≠ 0 then 0x08 else 0)) := by
  unfold update_cls
  simp only [hf, if_true]
  exact congrArg some (flags_byte b hb _ _ _ _)

/-- C24. Extended-regime flags byte on encode: for every format > 5, every flags
byte b held at record offset 15 and every caller record, a successful
`slas_update_point_data` leaves at offset 15 the byte
(b AND 0xF0) OR 0x01 (synthetic set) OR 0x02 (keypoint set) OR 0x04 (withheld
set) OR 0x08 (overlap set): each flag sets or clears only its own bit, and bits
4-7 (scanner channel, scan direction, edge of flightline) are those of b. -/
theorem C24_extended_flags_byte (fp fp' : FILE) (recnum : Nat) (lasheader : LASheader)
    (swap : Nat) (record r' : SLAS_POINT_DATA)
    (hfmt : lasheader.point_data_format > 5) (hwf : fp.wf)
    (h15 : 15 < lasheader.point_data_record_length)
    (h : slas_update_point_data fp recnum lasheader swap record = some (0, fp', r')) :
    fp'.content.getD ((record_addr lasheader recnum).toNat + 15) 0 =
      ((record_byte fp lasheader recnum 15 &&& 0xF0) |||
        (if record.synthetic ≠ 0 then 0x01 else 0) |||
        (if record.keypoint ≠ 0 then 0x02 else 0) |||
        (if record.withheld ≠ 0 then 0x04 else 0) |||
        (if record.overlap ≠ 0 then 0x08 else 0)) ∧
    fp'.content.getD ((record_addr lasheader recnum).toNat + 15) 0 / 16 =
      record_byte fp lasheader recnum 15 / 16 := by
  obtain ⟨-, -, hl, -, hlen, data', hu, hc⟩ := update_ok h
  have hb := record_byte_lt fp lasheader recnum 15 hwf
  have hL := length_record_buffer fp.content (record_addr lasheader recnum).toNat
    lasheader.point_data_record_length hlen hl
  have hv := (update_fields_values hL hu).1
  rw [buffer_byte 15 hlen, update_cls_extended _ _ _ hfmt hb, Option.some.injEq] at hv
  have hL' := (update_fields_frame hu).1
  have hg : fp'.content.getD ((record_addr lasheader recnum).toNat + 15) 0 =
      data'.getD 15 0 := by
    rw [hc, getD_written _ _ _ _ _ hlen (by omega)]
    have e : (record_addr lasheader recnum).toNat + 15 - (record_addr lasheader recnum).toNat
        = 15 := by omega
    rw [if_pos (by omega), e]
  rw [hg, ← hv]
  exact ⟨rfl, flags_byte_high _ hb _ _ _ _⟩

/-- C24 (witness): `ext_new_record` (withheld set, the other flags clear)
encoded at record 1 of `ext_file`, whose flags byte is 0x54. -/
theorem C24_witness :
    ext_header.point_data_format > 5 ∧ ext_file.wf ∧
    15 < ext_header.point_data_record_length ∧
    slas_update_point_data ext_file 1 ext_header 1 ext_new_record =
      some (0, ext_after_update, swap_nir (swap_rgb ext_new_record)) ∧
    record_byte ext_file ext_header 1 15 = 0x54 ∧
    ext_after_update.content.getD ((record_addr ext_header 1).toNat + 15) 0 / 16 =
      record_byte ext_file ext_header 1 15 / 16 :=
  ⟨by decide, by decide, by decide, by decide, by decide,
   (C24_extended_flags_byte ext_file ext_after_update 1 ext_header 1 ext_new_record
     (swap_nir (swap_rgb ext_new_record)) (by decide) (by decide) (by decide) (by decide)).2⟩

theorem put_optional_none (data : List Nat) (fmt swap pos : Nat) (r : SLAS_POINT_DATA)
    (h : 10 < fmt ∨ fmt = 0) : put_optional data fmt swap pos r = (data, r) := by
  unfold put_optional
  split <;> first | (exfalso; omega) | rfl

theorem put_optional_record (data : List Nat) (fmt swap pos : Nat) (r : SLAS_POINT_DATA) :
    (put_optional data fmt swap pos r).2 =
      { r with
        red := if swap ≠ 0 ∧ has_rgb fmt = true then swap_short r.red else r.red,
        green := if swap ≠ 0 ∧ has_rgb fmt = true then swap_short r.green else r.green,
        blue := if swap ≠ 0 ∧ has_rgb fmt = true then swap_short r.blue else r.blue,
        NIR := if swap ≠ 0 ∧ has_nir fmt = true then swap_short r.NIR else r.NIR } := by
  by_cases hk : 10 < fmt ∨ fmt = 0
  · rw [put_optional_none _ _ _ _ _ hk]
    obtain ⟨-, h2, h3, -⟩ := has_none fmt hk
    simp [h2, h3]
  · have hle : fmt ≤ 10 := by omega
    have hne : fmt ≠ 0 := by omega
    by_cases hs : swap ≠ 0
    · interval_cases fmt <;>
        simp [put_optional, put_rgb, put_rgb_nir, swap_rgb, swap_nir, has_rgb, has_nir, hs] at hne ⊢
    · interval_cases fmt <;>
        simp [put_optional, put_rgb, put_rgb_nir, swap_rgb, swap_nir, has_rgb, has_nir, hs] at hne ⊢

theorem update_fields_record {data : List Nat} {fmt swap : Nat} {r : SLAS_POINT_DATA}
    {p : List Nat × SLAS_POINT_DATA} (h : update_fields data fmt swap r = some p) :
    p.2 = { r with
        red := if swap ≠ 0 ∧ has_rgb fmt = true then swap_short r.red else r.red,
        green := if swap ≠ 0 ∧ has_rgb fmt = true then swap_short r.green else r.green,
        blue := if swap ≠ 0 ∧ has_rgb fmt = true then swap_short r.blue else r.blue,
        NIR := if swap ≠ 0 ∧ has_nir fmt = true then swap_short r.NIR else r.NIR } := by
  unfold update_fields at h
  cases hc : update_cls fmt (leVal (bytesAt data (0 + 4 + 4 + 4 + 2 + 1) 1)) r with
  | none => simp [hc] at h
  | some c =>
    simp only [hc, Option.some.injEq] at h
    rw [← h]
    exact put_optional_record _ _ _ _ _

theorem update_record {fp fp' : FILE} {i : Nat} {hd : LASheader} {swap : Nat}
    {r r' : SLAS_POINT_DATA} {c : Int}
    (h : slas_update_point_data fp i hd swap r = some (c, fp', r')) :
    ((c = 0 ∨ c = -5 ∨ c = -6) → r' = { r with
        red := if swap ≠ 0 ∧ has_rgb hd.point_data_format = true then swap_short r.red
          else r.red,
        green := if swap ≠ 0 ∧ has_rgb hd.point_data_format = true then swap_short r.green
          else r.green,
        blue := if swap ≠ 0 ∧ has_rgb hd.point_data_format = true then swap_short r.blue
          else r.blue,
        NIR := if swap ≠ 0 ∧ has_nir hd.point_data_format = true then swap_short r.NIR
          else r.NIR }) ∧
    (¬ (c = 0 ∨ c = -5 ∨ c = -6) → r' = r) := by
  by_cases hlen : hd.point_data_record_length ≤ 128
  · rw [update_unfold fp i hd swap r hlen] at h
    split at h
    · simp only [Option.some.injEq, Prod.mk.injEq] at h
      obtain ⟨h1, -, h3⟩ := h
      subst h1; subst h3
      exact ⟨fun hc => by omega, fun _ => rfl⟩
    split at h
    · simp only [Option.some.injEq, Prod.mk.injEq] at h
      obtain ⟨h1, -, h3⟩ := h
      subst h1; subst h3
      exact ⟨fun hc => by omega, fun _ => rfl⟩
    split at h
    · simp only [Option.some.injEq, Prod.mk.injEq] at h
      obtain ⟨h1, -, h3⟩ := h
      subst h1; subst h3
      exact ⟨fun hc => by omega, fun _ => rfl⟩
    cases hp : enc_fields fp hd i swap r with
    | none =>
      simp only [hp, Option.some.injEq, Prod.mk.injEq] at h
      obtain ⟨h1, -, h3⟩ := h
      subst h1; subst h3
      exact ⟨fun hc => by omega, fun _ => rfl⟩
    | some p =>
      simp only [hp] at h
      have hr := update_fields_record hp
      split at h
      · simp only [Option.some.injEq, Prod.mk.injEq] at h
        obtain ⟨h1, -, h3⟩ := h
        subst h1; subst h3
        exact ⟨fun _ => hr, fun hc => by omega⟩
      split at h
      · simp only [Option.some.injEq, Prod.mk.injEq] at h
        obtain ⟨h1, -, h3⟩ := h
        subst h1; subst h3
        exact ⟨fun _ => hr, fun hc => by omega⟩
      · simp only [Option.some.injEq, Prod.mk.injEq] at h
        obtain ⟨h1, -, h3⟩ := h
        subst h1; subst h3
        exact ⟨fun _ => hr, fun hc => by omega⟩
  · have hl : hd.point_data_record_length > 128 := by omega
    unfold slas_update_point_data at h
    simp only [] at h
    split at h
    · simp only [Option.some.injEq, Prod.mk.injEq] at h
      obtain ⟨h1, -, h3⟩ := h
      subst h1; subst h3
      exact ⟨fun hc => by omega, fun _ => rfl⟩
    split at h
    · simp only [Option.some.injEq, Prod.mk.injEq] at h
      obtain ⟨h1, -, h3⟩ := h
      subst h1; subst h3
      exact ⟨fun hc => by omega, fun _ => rfl⟩
    · simp [hl] at h

/-- C26. Encode mutates the caller's record only through the colour swap: when
`slas_update_point_data` gets as far as the colour overlay (it returns 0, -5 or
-6) with swap set, the caller's record holds red, green, blue byte-reversed for
the formats that carry colour (2, 3, 5, 7, 8, 10) and NIR byte-reversed for
formats 8 and 10; every other field of the caller's record is unchanged, and
the whole record is unchanged when swap is clear, when the format carries no
colour, or when the call returns before the overlay. -/
theorem C26_encode_mutates_colours_only (fp fp' : FILE) (recnum : Nat)
    (lasheader : LASheader) (swap : Nat) (record r' : SLAS_POINT_DATA) (c : Int)
    (h : slas_update_point_data fp recnum lasheader swap record = some (c, fp', r')) :
    ({ r' with red := record.red, green := record.green, blue := record.blue,
               NIR := record.NIR } = record) ∧
    ((c = 0 ∨ c = -5 ∨ c = -6) → swap ≠ 0 →
      (has_rgb lasheader.point_data_format = true →
        r'.red = swap_short record.red ∧ r'.green = swap_short record.green ∧
        r'.blue = swap_short record.blue) ∧
      (has_nir lasheader.point_data_format = true → r'.NIR = swap_short record.NIR) ∧
      (has_nir lasheader.point_data_format = false → r'.NIR = record.NIR) ∧
      (has_rgb lasheader.point_data_format = false → r' = record)) ∧
    (swap = 0 → r' = record) ∧
    (¬ (c = 0 ∨ c = -5 ∨ c = -6) → r' = record) := by
  obtain ⟨h1, h2⟩ := update_record h
  have hn : has_rgb lasheader.point_data_format = false →
      has_nir lasheader.point_data_format = false := by
    intro hr
    unfold has_rgb at hr
    unfold has_nir
    simp only [List.mem_cons, List.mem_singleton, List.not_mem_nil, or_false,
      decide_eq_false_iff_not, not_or] at hr ⊢
    exact ⟨hr.2.2.2.2.1, hr.2.2.2.2.2⟩
  by_cases hc : c = 0 ∨ c = -5 ∨ c = -6
  · have e := h1 hc
    refine ⟨?_, fun _ hs => ⟨?_, ?_, ?_, ?_⟩, ?_, fun hc' => absurd hc hc'⟩
    · rw [e]
    · intro hr
      rw [e]
      simp only [hs, hr, ne_eq, not_false_eq_true, and_self, if_true]
    · intro hr
      rw [e]
      simp only [hs, hr, ne_eq, not_false_eq_true, and_self, if_true]
    · intro hr
      rw [e]
      simp only [hr, Bool.false_eq_true, and_false, if_false]
    · intro hr
      rw [e]
      simp only [hr, hn hr, Bool.false_eq_true, and_false, if_false]
    · intro hs
      rw [e]
      simp only [hs, ne_eq, not_true_eq_false, false_and, if_false]
  · have e := h2 hc
    refine ⟨?_, fun hc' => absurd hc' hc, fun _ => e, fun _ => e⟩
    rw [e]

/-- C26 (witness): `ext_new_record` encoded with swap set at record 1 of
`ext_file`, format 8: the caller's record comes back with the four colours
byte-reversed. -/
theorem C26_witness :
    slas_update_point_data ext_file 1 ext_header 1 ext_new_record =
      some (0, ext_after_update, swap_nir (swap_rgb ext_new_record)) ∧
    ext_new_record.red = 0x1234 ∧ (swap_nir (swap_rgb ext_new_record)).red = 0x3412 ∧
    ({ swap_nir (swap_rgb ext_new_record) with
        red := ext_new_record.red, green := ext_new_record.green, blue := ext_new_record.blue,
        NIR := ext_new_record.NIR } = ext_new_record) :=
  ⟨by decide, by decide, by decide,
   (C26_encode_mutates_colours_only ext_file ext_after_update 1 ext_header 1 ext_new_record
     (swap_nir (swap_rgb ext_new_record)) 0 (by decide)).1⟩

theorem read_content {fa : FloatArith} {fp fp' : FILE} {i : Nat} {hd : LASheader} {swap : Nat}
    {r d : SLAS_POINT_DATA} {c : Int}
    (h : slas_read_point_data fa fp i hd swap r = some (c, fp', d)) :
    fp'.content = fp.content := by
  unfold slas_read_point_data at h
  simp only [] at h
  split at h
  · simp only [Option.some.injEq, Prod.mk.injEq] at h
    rw [← h.2.1]
  split at h
  · simp only [Option.some.injEq, Prod.mk.injEq] at h
    rw [← h.2.1]
    exact (fseeko64_store _ _).1
  split at h
  · exact absurd h (by simp)
  split at h
  · simp only [Option.some.injEq, Prod.mk.injEq] at h
    rw [← h.2.1, (fread_store _ _ _).1]
    exact (fseeko64_store _ _).1
  · simp only [Option.some.injEq, Prod.mk.injEq] at h
    rw [← h.2.1, (fread_store _ _ _).1]
    exact (fseeko64_store _ _).1

theorem read_result (fa : FloatArith) (fp : FILE) (i : Nat) (hd : LASheader) (swap : Nat)
    (r : SLAS_POINT_DATA) :
    slas_read_point_data fa fp i hd swap r =
      (slas_read_point_data fa fp i hd swap SLAS_POINT_DATA.zero).map
        (fun q => (q.1, q.2.1, if q.1 = -1 ∨ q.1 = -2 then r else q.2.2)) := by
  unfold slas_read_point_data
  simp only []
  split
  · rfl
  split
  · rfl
  split
  · rfl
  split <;> rfl

theorem read_code_congr (fa : FloatArith) (f g : FILE) (i : Nat) (hd : LASheader) (swap : Nat)
    (r1 r2 : SLAS_POINT_DATA)
    (hc : f.content = g.content) (hf : f.faults = g.faults)
    (hfd : f.faultDefault = g.faultDefault) :
    (slas_read_point_data fa f i hd swap r1).map Prod.fst =
      (slas_read_point_data fa g i hd swap r2).map Prod.fst ∧
    (∀ c f' d, slas_read_point_data fa f i hd swap r1 = some (c, f', d) →
      (c = 0 ∨ c = -3) → ∃ g', slas_read_point_data fa g i hd swap r2 = some (c, g', d)) ∧
    (∀ c f' d, slas_read_point_data fa f i hd swap r1 = some (c, f', d) →
      (c = -1 ∨ c = -2) → d = r1) := by
  have ho := read_outcome_congr fa f g i hd swap SLAS_POINT_DATA.zero hc hf hfd
  rw [read_result fa f i hd swap r1, read_result fa g i hd swap r2]
  cases hF : slas_read_point_data fa f i hd swap SLAS_POINT_DATA.zero with
  | none =>
    rw [hF] at ho
    cases hG : slas_read_point_data fa g i hd swap SLAS_POINT_DATA.zero with
    | none => simp
    | some q => rw [hG] at ho; simp [outcome] at ho
  | some p =>
    rw [hF] at ho
    cases hG : slas_read_point_data fa g i hd swap SLAS_POINT_DATA.zero with
    | none => rw [hG] at ho; simp [outcome] at ho
    | some q =>
      rw [hG] at ho
      simp only [outcome, Option.map_some', Option.some.injEq, Prod.mk.injEq] at ho
      obtain ⟨e1, e2⟩ := ho
      simp only [Option.map_some', Option.some.injEq, Prod.mk.injEq]
      refine ⟨e1, ?_, ?_⟩
      · rintro c f' d ⟨h1, -, h3⟩ hcd
        have n1 : ¬ (p.1 = -1 ∨ p.1 = -2) := by omega
        have n2 : ¬ (q.1 = -1 ∨ q.1 = -2) := by omega
        rw [if_neg n1] at h3
        exact ⟨q.2.1, by rw [← e1]; exact h1, rfl, by rw [if_neg n2, ← e2]; exact h3⟩
      · rintro c f' d ⟨h1, -, h3⟩ hcd
        have n1 : p.1 = -1 ∨ p.1 = -2 := by omega
        rw [if_pos n1] at h3
        exact h3.symm

/-- C21 (as amended). Decode is pure: `slas_read_point_data` leaves every byte
of the store unchanged; its return code depends only on the store's bytes, the
header and recnum, and, when the call returns 0 or -3, the returned record
depends only on these and swap - neither on the file position before the call
nor on the previous contents of the output record (`f` and `g` are two stores
with the same bytes, and the same I/O failures ahead, `r1` and `r2` two output
records); a call that returns -1 or -2 leaves the output record as it was.
Hence two successful decodes of i and j return the same two records in either
order, and decoding i twice returns equal records. -/
theorem C21_decode_pure (fa : FloatArith) (f g : FILE) (i : Nat) (lasheader : LASheader)
    (swap : Nat) (r1 r2 : SLAS_POINT_DATA)
    (hc : f.content = g.content) (hf : f.faults = g.faults)
    (hfd : f.faultDefault = g.faultDefault) :
    (∀ c f' d, slas_read_point_data fa f i lasheader swap r1 = some (c, f', d) →
      f'.content = f.content) ∧
    ((slas_read_point_data fa f i lasheader swap r1).map Prod.fst =
      (slas_read_point_data fa g i lasheader swap r2).map Prod.fst) ∧
    (∀ c f' d, slas_read_point_data fa f i lasheader swap r1 = some (c, f', d) →
      (c = 0 ∨ c = -3) →
      ∃ g', slas_read_point_data fa g i lasheader swap r2 = some (c, g', d)) ∧
    (∀ c f' d, slas_read_point_data fa f i lasheader swap r1 = some (c, f', d) →
      (c = -1 ∨ c = -2) → d = r1) ∧
    (∀ j f1 f2 g1 g2 di dj dj' di',
      slas_read_point_data fa f i lasheader swap r1 = some (0, f1, di) →
      slas_read_point_data fa f1 j lasheader swap di = some (0, f2, dj) →
      slas_read_point_data fa g j lasheader swap r2 = some (0, g1, dj') →
      slas_read_point_data fa g1 i lasheader swap dj' = some (0, g2, di') →
      di' = di ∧ dj' = dj) ∧
    (∀ f1 f2 d d',
      slas_read_point_data fa f i lasheader swap r1 = some (0, f1, d) →
      slas_read_point_data fa f1 i lasheader swap d = some (0, f2, d') → d' = d) := by
  obtain ⟨p1, p2, p3⟩ := read_code_congr fa f g i lasheader swap r1 r2 hc hf hfd
  refine ⟨fun c f' d h => read_content h, p1, p2, p3, ?_, ?_⟩
  · intro j f1 f2 g1 g2 di dj dj' di' h1 h2 h3 h4
    obtain ⟨-, -, -, -, -, c1, e1⟩ := read_ok h1
    obtain ⟨-, -, -, -, -, -, e2⟩ := read_ok h2
    obtain ⟨-, -, -, -, -, c3, e3⟩ := read_ok h3
    obtain ⟨-, -, -, -, -, -, e4⟩ := read_ok h4
    rw [e1, e2, e3, e4, c1, c3, hc]
    exact ⟨rfl, rfl⟩
  · intro f1 f2 d d' h1 h2
    obtain ⟨-, -, -, -, -, c1, e1⟩ := read_ok h1
    obtain ⟨-, -, -, -, -, -, e2⟩ := read_ok h2
    rw [e1, e2, c1]

/-- C21 (counterexample). As the claim has it, the returned record would never
depend on the previous contents of the output record; for the out-of-range
index 2 of `legacy_file` the call returns -1 and the output record is what it
was before the call, so two calls that differ only in that record return
different records. -/
theorem C21_counterexample_failed_call :
    ¬ (∀ (fa : FloatArith) (f g : FILE) (i : Nat) (lasheader : LASheader) (swap : Nat)
        (r1 r2 : SLAS_POINT_DATA),
        f.content = g.content → f.faults = g.faults → f.faultDefault = g.faultDefault →
        outcome (slas_read_point_data fa f i lasheader swap r1) =
          outcome (slas_read_point_data fa g i lasheader swap r2)) := by
  intro h
  have e := h rawArith legacy_file legacy_file 2 legacy_header 0 SLAS_POINT_DATA.zero
    legacy_decoded rfl rfl rfl
  exact absurd e (by decide)

/-- C21 (witness): record 1 of `legacy_file` decoded from the start of the
store into a zeroed record, and from the position left by an earlier read into
a record that holds other values. -/
theorem C21_witness :
    legacy_file.content = legacy_after_read.content ∧
    legacy_file.pos ≠ legacy_after_read.pos ∧
    slas_read_point_data rawArith legacy_file 1 legacy_header 0 SLAS_POINT_DATA.zero =
      some (0, legacy_after_read, legacy_decoded) ∧
    (∃ g', slas_read_point_data rawArith legacy_after_read 1 legacy_header 0
      legacy_new_record = some (0, g', legacy_decoded)) :=
  ⟨by decide, by decide, by decide,
   (C21_decode_pure rawArith legacy_file legacy_after_read 1 legacy_header 0
     SLAS_POINT_DATA.zero legacy_new_record (by decide) (by decide) (by decide)).2.2.1
     0 legacy_after_read legacy_decoded (by decide) (Or.inl rfl)⟩

theorem update_outside {fp fp' : FILE} {i : Nat} {hd : LASheader} {swap : Nat}
    {r r' : SLAS_POINT_DATA} {c : Int}
    (h : slas_update_point_data fp i hd swap r = some (c, fp', r')) :
    fp'.content.length = fp.content.length ∧
    (∀ k, ¬ ((record_addr hd i).toNat ≤ k ∧
        k < (record_addr hd i).toNat + hd.point_data_record_length) →
      fp'.content.getD k 0 = fp.content.getD k 0) := by
  by_cases hc : c = 0
  · subst hc
    obtain ⟨-, -, h128, -, hlen, data', hu, hw⟩ := update_ok h
    have hl' := (update_fields_frame hu).1
    rw [length_record_buffer _ _ _ hlen h128] at hl'
    rw [hw]
    refine ⟨length_written _ _ _ _ hlen (by omega), fun k hk => ?_⟩
    rw [getD_written _ _ _ _ _ hlen (by omega), if_neg hk]
  · rw [update_failed_content h hc]
    exact ⟨rfl, fun _ _ => rfl⟩

theorem record_buffer_congr (c1 c2 : List Nat) (a len : Nat)
    (h1 : a + len ≤ c1.length) (h2 : a + len ≤ c2.length) (h128 : len ≤ 128)
    (h : ∀ k, k < len → c2.getD (a + k) 0 = c1.getD (a + k) 0) :
    record_buffer c2 a len = record_buffer c1 a len := by
  apply list_ext_getD
  · rw [length_record_buffer _ _ _ h2 h128, length_record_buffer _ _ _ h1 h128]
  · intro j
    rw [getD_record_buffer _ _ _ _ h2, getD_record_buffer _ _ _ _ h1]
    by_cases hj : j < len
    · rw [if_pos hj, if_pos hj, h j hj]
    · rw [if_neg hj, if_neg hj]

/-- C29. Short records never bleed into the next record: for every record
length, so also one smaller than the layout size of the format, a successful
decode parses a 128 byte buffer that holds the `point_data_record_length`
bytes of the record followed by zero bytes, so the layout bytes beyond the
record length are zero bytes, not bytes of record i+1, and the result is the
same for every store that agrees on the bytes of the record, whatever follows
them; and encode leaves every byte of the store from the end of the record on
unchanged, its one write being of exactly `point_data_record_length` bytes. -/
theorem C29_short_records_do_not_bleed (fa : FloatArith) (fp : FILE) (recnum : Nat)
    (lasheader : LASheader) (swap : Nat) (record : SLAS_POINT_DATA) :
    (∀ fp' d, slas_read_point_data fa fp recnum lasheader swap record = some (0, fp', d) →
      ∃ B : List Nat, B.length = 128 ∧
        (∀ k, B.getD k 0 =
          if k < lasheader.point_data_record_length then
            fp.content.getD ((record_addr lasheader recnum).toNat + k) 0
          else 0) ∧
        d = decoded fa lasheader swap B ∧
        ∀ (g g' : FILE) (r2 d2 : SLAS_POINT_DATA),
          (∀ k, k < lasheader.point_data_record_length →
            g.content.getD ((record_addr lasheader recnum).toNat + k) 0 =
              fp.content.getD ((record_addr lasheader recnum).toNat + k) 0) →
          slas_read_point_data fa g recnum lasheader swap r2 = some (0, g', d2) → d2 = d) ∧
    (∀ c fp' r', slas_update_point_data fp recnum lasheader swap record = some (c, fp', r') →
      fp'.content.length = fp.content.length ∧
      (∀ k, (record_addr lasheader recnum).toNat + lasheader.point_data_record_length ≤ k →
        fp'.content.getD k 0 = fp.content.getD k 0) ∧
      (c = 0 → ∃ bytes : List Nat, bytes.length = lasheader.point_data_record_length ∧
        fp'.log = .write bytes :: .seek (record_addr lasheader recnum) ::
          .read lasheader.point_data_record_length ::
          .seek (record_addr lasheader recnum) :: fp.log)) := by
  constructor
  · intro fp' d h
    obtain ⟨-, -, h128, -, hlen, -, hd⟩ := read_ok h
    refine ⟨_, length_record_buffer _ _ _ hlen h128,
      fun k => getD_record_buffer _ _ _ _ hlen, hd, ?_⟩
    intro g g' r2 d2 hg h2
    obtain ⟨-, -, -, -, hlen2, -, hd2⟩ := read_ok h2
    rw [hd, hd2, record_buffer_congr _ _ _ _ hlen hlen2 h128 hg]
  · intro c fp' r' h
    obtain ⟨k1, k2⟩ := update_outside h
    refine ⟨k1, fun k hk => k2 k (by omega), fun hc => ?_⟩
    subst hc
    exact update_ok_log h

/-- C29 (witness): record 0 of `short_pair_file`, 16 bytes long in format 0,
whose layout is 20 bytes long: the store holds BB at offset 17, the first
record's would-be `user_data`, and the decode reports `user_data = 0`. -/
theorem C29_witness :
    short_pair_header.point_data_record_length <
      layout_size short_pair_header.point_data_format ∧
    short_pair_file.content.getD 17 0 = 0xBB ∧
    slas_read_point_data rawArith short_pair_file 0 short_pair_header 0 SLAS_POINT_DATA.zero =
      some (0, short_pair_after_read, short_redecoded) ∧
    short_redecoded.user_data = 0 ∧
    (∃ B : List Nat, B.length = 128 ∧
      (∀ k, B.getD k 0 =
        if k < short_pair_header.point_data_record_length then
          short_pair_file.content.getD ((record_addr short_pair_header 0).toNat + k) 0
        else 0) ∧
      short_redecoded = decoded rawArith short_pair_header 0 B ∧
      ∀ (g g' : FILE) (r2 d2 : SLAS_POINT_DATA),
        (∀ k, k < short_pair_header.point_data_record_length →
          g.content.getD ((record_addr short_pair_header 0).toNat + k) 0 =
            short_pair_file.content.getD ((record_addr short_pair_header 0).toNat + k) 0) →
        slas_read_point_data rawArith g 0 short_pair_header 0 r2 = some (0, g', d2) →
        d2 = short_redecoded) :=
  ⟨by decide, by decide, by decide, by decide,
   (C29_short_records_do_not_bleed rawArith short_pair_file 0 short_pair_header 0
     SLAS_POINT_DATA.zero).1 short_pair_after_read short_redecoded (by decide)⟩

theorem bytesAt_append (B tail : List Nat) (pos n : Nat) (h : pos + n ≤ B.length) :
    bytesAt (B ++ tail) pos n = bytesAt B pos n := by
  unfold bytesAt
  apply List.map_congr_left
  intro k hk
  rw [List.mem_range] at hk
  exact List.getD_append _ _ _ _ (by omega)

theorem putBytes_append (tail bs : List Nat) : ∀ (B : List Nat) (pos : Nat),
    pos + bs.length ≤ B.length → putBytes (B ++ tail) pos bs = putBytes B pos bs ++ tail := by
  induction bs with
  | nil => intro B pos _; rfl
  | cons b bs ih =>
    intro B pos h
    simp only [List.length_cons] at h
    simp only [putBytes]
    rw [List.set_append_left _ _ (by omega), ih _ _ (by simp only [List.length_set]; omega)]

theorem read_optional_append (B tail : List Nat) (fmt pos : Nat) (r : SLAS_POINT_DATA)
    (hp : pos + 45 ≤ B.length) :
    read_optional (B ++ tail) fmt pos r = read_optional B fmt pos r := by
  unfold read_optional
  split <;>
    simp (disch := omega) only [get_gps_time, get_rgb, get_nir, get_wave, bytesAt_append]

theorem read_fields_append (B tail : List Nat) (fmt : Nat) (r : SLAS_POINT_DATA)
    (hB : B.length = 128) :
    read_fields (B ++ tail) fmt r = read_fields B fmt r := by
  unfold read_fields
  by_cases hf : fmt > 5
  · simp (disch := omega) only [hf, if_true, bytesAt_append, read_optional_append]
  · simp (disch := omega) only [hf, if_false, bytesAt_append, read_optional_append]

theorem put_rgb_append (swap : Nat) (B tail : List Nat) (pos : Nat) (r : SLAS_POINT_DATA)
    (hp : pos + 6 ≤ B.length) :
    put_rgb swap (B ++ tail) pos r = ((put_rgb swap B pos r).1 ++ tail, (put_rgb swap B pos r).2) := by
  unfold put_rgb
  simp only []
  rw [putBytes_append _ _ _ _ (by simp [leBytes]; omega),
    putBytes_append _ _ _ _ (by simp [leBytes, length_putBytes]; omega),
    putBytes_append _ _ _ _ (by simp [leBytes, length_putBytes]; omega)]

theorem put_rgb_nir_append (swap : Nat) (B tail : List Nat) (pos : Nat) (r : SLAS_POINT_DATA)
    (hp : pos + 8 ≤ B.length) :
    put_rgb_nir swap (B ++ tail) pos r =
      ((put_rgb_nir swap B pos r).1 ++ tail, (put_rgb_nir swap B pos r).2) := by
  unfold put_rgb_nir
  simp only []
  rw [putBytes_append _ _ _ _ (by simp [leBytes]; omega),
    putBytes_append _ _ _ _ (by simp [leBytes, length_putBytes]; omega),
    putBytes_append _ _ _ _ (by simp [leBytes, length_putBytes]; omega),
    putBytes_append _ _ _ _ (by simp [leBytes, length_putBytes]; omega)]

theorem put_optional_append (B tail : List Nat) (fmt swap pos : Nat) (r : SLAS_POINT_DATA)
    (hp : pos + 16 ≤ B.length) :
    put_optional (B ++ tail) fmt swap pos r =
      ((put_optional B fmt swap pos r).1 ++ tail, (put_optional B fmt swap pos r).2) := by
  unfold put_optional
  split <;>
    first
    | exact put_rgb_append _ _ _ _ _ (by omega)
    | exact put_rgb_nir_append _ _ _ _ _ (by omega)
    | rfl

theorem update_fields_append (B tail : List Nat) (fmt swap : Nat) (r : SLAS_POINT_DATA)
    (hB : B.length = 128) :
    update_fields (B ++ tail) fmt swap r =
      (update_fields B fmt swap r).map (fun p => (p.1 ++ tail, p.2)) := by
  unfold update_fields
  simp only []
  rw [bytesAt_append _ _ _ _ (by omega)]
  cases update_cls fmt (leVal (bytesAt B (0 + 4 + 4 + 4 + 2 + 1) 1)) r with
  | none => rfl
  | some c =>
    simp only [Option.map_some', Option.some.injEq]
    by_cases hf : fmt > 5
    · simp only [hf, if_true]
      rw [List.set_append_left _ _ (by omega),
        List.set_append_left _ _ (by simp only [List.length_set]; omega),
        List.set_append_left _ _ (by simp only [List.length_set]; omega),
        put_optional_append _ _ _ _ _ _ (by simp only [List.length_set]; omega)]
    · simp only [hf, if_false]
      rw [List.set_append_left _ _ (by omega),
        List.set_append_left _ _ (by simp only [List.length_set]; omega),
        put_optional_append _ _ _ _ _ _ (by simp only [List.length_set]; omega)]

theorem layout_size_le (fmt : Nat) : layout_size fmt ≤ 67 := by
  unfold layout_size read_optional
  split <;> simp only [get_gps_time, get_rgb, get_nir, get_wave] <;> split <;> omega

theorem bytesAt_congr (B1 B2 : List Nat) (pos n : Nat)
    (h : ∀ k, k < pos + n → B1.getD k 0 = B2.getD k 0) :
    bytesAt B1 pos n = bytesAt B2 pos n := by
  unfold bytesAt
  apply List.map_congr_left
  intro k hk
  rw [List.mem_range] at hk
  exact h _ (by omega)

theorem layout_size_large (fmt : Nat) (h : 10 < fmt) : layout_size fmt = 22 := by
  unfold layout_size
  rw [read_optional_none _ _ _ _ (Or.inl h)]
  have : fmt > 5 := by omega
  simp only [this, if_true]

theorem read_fields_congr (B1 B2 : List Nat) (fmt : Nat) (r : SLAS_POINT_DATA)
    (h : ∀ k, k < layout_size fmt → B1.getD k 0 = B2.getD k 0) :
    read_fields B1 fmt r = read_fields B2 fmt r := by
  by_cases hk : 10 < fmt
  · rw [layout_size_large fmt hk] at h
    have hf : fmt > 5 := by omega
    unfold read_fields
    simp only [hf, if_true, read_optional_none _ _ _ _ (Or.inl hk)]
    rw [bytesAt_congr B1 B2 0 4 (fun k hk => h k (by omega)),
      bytesAt_congr B1 B2 (0 + 4) 4 (fun k hk => h k (by omega)),
      bytesAt_congr B1 B2 (0 + 4 + 4) 4 (fun k hk => h k (by omega)),
      bytesAt_congr B1 B2 (0 + 4 + 4 + 4) 2 (fun k hk => h k (by omega)),
      bytesAt_congr B1 B2 (0 + 4 + 4 + 4 + 2) 1 (fun k hk => h k (by omega)),
      bytesAt_congr B1 B2 (0 + 4 + 4 + 4 + 2 + 1) 1 (fun k hk => h k (by omega)),
      bytesAt_congr B1 B2 (0 + 4 + 4 + 4 + 2 + 1 + 1) 1 (fun k hk => h k (by omega)),
      bytesAt_congr B1 B2 (0 + 4 + 4 + 4 + 2 + 1 + 1 + 1) 1 (fun k hk => h k (by omega)),
      bytesAt_congr B1 B2 (0 + 4 + 4 + 4 + 2 + 1 + 1 + 1 + 1) 2 (fun k hk => h k (by omega)),
      bytesAt_congr B1 B2 (0 + 4 + 4 + 4 + 2 + 1 + 1 + 1 + 1 + 2) 2
        (fun k hk => h k (by omega))]
  · have hle : fmt ≤ 10 := by omega
    have g : ∀ pos n, pos + n ≤ layout_size fmt → bytesAt B1 pos n = bytesAt B2 pos n :=
      fun pos n hp => bytesAt_congr B1 B2 pos n (fun k hk => h k (by omega))
    clear h
    interval_cases fmt <;>
      simp only [layout_size, read_optional, get_gps_time, get_rgb, get_nir, get_wave,
        gt_iff_lt, Nat.lt_irrefl, if_false, if_true, Nat.reduceLT, Nat.reduceAdd] at g <;>
      simp (disch := omega) only [read_fields, read_optional, get_gps_time, get_rgb, get_nir,
        get_wave, gt_iff_lt, Nat.lt_irrefl, if_false, if_true, Nat.reduceLT, Nat.reduceAdd, g]

theorem fread_append (B tail : List Nat) (size : Nat) (fp : FILE) (h : size ≤ B.length) :
    fread (B ++ tail) size fp =
      ((fread B size fp).1, (fread B size fp).2.1 ++ tail, (fread B size fp).2.2) := by
  unfold fread
  simp only []
  by_cases h0 : size = 0
  · simp only [h0, if_true]
  simp only [h0, if_false]
  by_cases hf : fp.nextFault = true
  · simp only [hf, if_true]
  simp only [hf, if_false]
  have hg : (List.take size (List.drop fp.pos fp.content)).length ≤ B.length := by
    rw [List.length_take]; omega
  rw [List.drop_append_of_le_length hg]
  by_cases hl : (List.take size (List.drop fp.pos fp.content)).length < size
  · simp only [hl, if_true, List.append_assoc, Bool.false_eq_true, if_false]
  · simp only [hl, if_false, List.append_assoc, Bool.false_eq_true]

theorem fread_length (B : List Nat) (size : Nat) (fp : FILE) (h : size ≤ B.length) :
    (fread B size fp).2.1.length = B.length := by
  unfold fread
  simp only []
  have hg : (List.take size (List.drop fp.pos fp.content)).length ≤ B.length := by
    rw [List.length_take]; omega
  split
  · rfl
  split
  · rfl
  split <;> simp only [List.length_append, List.length_drop] <;> omega

theorem length_zeroed_buffer : zeroed_buffer.length = 128 := by
  unfold zeroed_buffer
  exact List.length_replicate _ _

theorem fwrite_append (B tail : List Nat) (size : Nat) (fp : FILE) (h : size ≤ B.length) :
    fwrite (B ++ tail) size fp = fwrite B size fp := by
  unfold fwrite
  rw [List.take_append_of_le_length h]

/-- C30. Buffer indexing stays in range: for every header with
`point_data_record_length <= 128` and every value of `point_data_format`,
also above 10, the accesses of `slas_read_point_data` and
`slas_update_point_data` to the 128 byte record buffer `B` stay below index
128: whatever bytes `tail` follow the buffer in memory, the bulk read fills
only `B`, the bulk write takes only bytes of `B`, the per-field copies of
decode read the same values, and the overlay of encode leaves `tail` as it
is.  The per-field copies of decode read only offsets below the layout size
of the format, which is at most 67, the value reached for format 10. -/
theorem C30_buffer_indexing_in_range (lasheader : LASheader) (fp : FILE) (swap : Nat)
    (B tail : List Nat) (r0 r : SLAS_POINT_DATA)
    (hlen : lasheader.point_data_record_length ≤ 128) (hB : B.length = 128) :
    fread (B ++ tail) lasheader.point_data_record_length fp =
      ((fread B lasheader.point_data_record_length fp).1,
       (fread B lasheader.point_data_record_length fp).2.1 ++ tail,
       (fread B lasheader.point_data_record_length fp).2.2) ∧
    (fread B lasheader.point_data_record_length fp).2.1.length = 128 ∧
    fwrite (B ++ tail) lasheader.point_data_record_length fp =
      fwrite B lasheader.point_data_record_length fp ∧
    read_fields (B ++ tail) lasheader.point_data_format r0 =
      read_fields B lasheader.point_data_format r0 ∧
    (∀ B2 : List Nat,
      (∀ k, k < layout_size lasheader.point_data_format → B2.getD k 0 = B.getD k 0) →
      read_fields B2 lasheader.point_data_format r0 =
        read_fields B lasheader.point_data_format r0) ∧
    update_fields (B ++ tail) lasheader.point_data_format swap r =
      (update_fields B lasheader.point_data_format swap r).map
        (fun p => (p.1 ++ tail, p.2)) ∧
    layout_size lasheader.point_data_format ≤ 67 ∧ layout_size 10 = 67 :=
  ⟨fread_append B tail _ fp (by omega),
   by rw [fread_length B _ fp (by omega), hB],
   fwrite_append B tail _ fp (by omega),
   read_fields_append B tail _ r0 hB,
   fun B2 h => read_fields_congr B2 B _ r0 h,
   update_fields_append B tail _ swap r hB,
   layout_size_le _, by decide⟩

/-- C30 (witness): the zeroed buffer followed by three bytes, a header of
format 10 with records of 67 bytes. -/
theorem C30_witness :
    (mkHeader 10 67 1 0).point_data_record_length ≤ 128 ∧ zeroed_buffer.length = 128 ∧
    read_fields (zeroed_buffer ++ [1, 2, 3]) (mkHeader 10 67 1 0).point_data_format
        SLAS_POINT_DATA.zero =
      read_fields zeroed_buffer (mkHeader 10 67 1 0).point_data_format SLAS_POINT_DATA.zero ∧
    update_fields (zeroed_buffer ++ [1, 2, 3]) (mkHeader 10 67 1 0).point_data_format 1
        ext_new_record =
      (update_fields zeroed_buffer (mkHeader 10 67 1 0).point_data_format 1
        ext_new_record).map (fun p => (p.1 ++ [1, 2, 3], p.2)) ∧
    layout_size (mkHeader 10 67 1 0).point_data_format ≤ 67 :=
  ⟨by decide, length_zeroed_buffer,
   (C30_buffer_indexing_in_range (mkHeader 10 67 1 0) legacy_file 1 zeroed_buffer [1, 2, 3]
     SLAS_POINT_DATA.zero ext_new_record (by decide) length_zeroed_buffer).2.2.2.1,
   (C30_buffer_indexing_in_range (mkHeader 10 67 1 0) legacy_file 1 zeroed_buffer [1, 2, 3]
     SLAS_POINT_DATA.zero ext_new_record (by decide) length_zeroed_buffer).2.2.2.2.2.1,
   (C30_buffer_indexing_in_range (mkHeader 10 67 1 0) legacy_file 1 zeroed_buffer [1, 2, 3]
     SLAS_POINT_DATA.zero ext_new_record (by decide) length_zeroed_buffer).2.2.2.2.2.2.1⟩

theorem legacy_pack_unpack (b : Nat) (hb : b < 256) :
    (let cls := b &&& 0x1f
     let cls := if (b &&& 0x20) >>> 5 ≠ 0 then cls ||| 0x20 else cls &&& 0xdf
     let cls := if (b &&& 0x40) >>> 6 ≠ 0 then cls ||| 0x40 else cls &&& 0xbf
     if (b &&& 0x80) >>> 7 ≠ 0 then cls ||| 0x80 else cls &&& 0x7f) = b := by
  interval_cases b <;> decide

theorem update_cls_decoded (fa : FloatArith) (hd : LASheader) (s : ReadState) (b0 : Nat)
    (hf : hd.point_data_format ≤ 5) (hb : s.cls < 256) :
    update_cls hd.point_data_format b0 (decode_fields fa hd s) = some s.cls := by
  have hf' : ¬ hd.point_data_format > 5 := by omega
  have hc : ¬ (s.cls &&& 0x1f) > 31 := by
    have : s.cls &&& 0x1f ≤ 0x1f := Nat.and_le_right
    omega
  unfold update_cls
  simp only [decode_fields, hf', if_false, hc]
  exact congrArg some (legacy_pack_unpack s.cls hb)

theorem written_buffer (content : List Nat) (a len : Nat) (h1 : a + len ≤ content.length)
    (h2 : len ≤ 128) :
    written content a len (record_buffer content a len) = content := by
  have hL := length_record_buffer content a len h1 h2
  apply list_ext_getD
  · exact length_written _ _ _ _ h1 (by omega)
  · intro k
    rw [getD_written _ _ _ _ _ h1 (by omega)]
    by_cases hk : a ≤ k ∧ k < a + len
    · rw [if_pos hk, getD_record_buffer _ _ _ _ h1, if_pos (by omega)]
      congr 1
      omega
    · rw [if_neg hk]

theorem leBytes_leVal_two (a b : Nat) (ha : a < 256) (hb : b < 256) :
    leBytes 2 (leVal [a, b]) = [a, b] := by
  simp only [leBytes, leVal, List.cons.injEq, and_true]
  refine ⟨by omega, by omega⟩

theorem leVal_two_lt (a b : Nat) (ha : a < 256) (hb : b < 256) : leVal [a, b] < 65536 := by
  simp only [leVal]
  omega

theorem colour_back (swap a b : Nat) (ha : a < 256) (hb : b < 256) :
    leBytes 2 (if swap ≠ 0 then
        swap_short (if swap ≠ 0 then swap_short (leVal [a, b]) else leVal [a, b])
      else (if swap ≠ 0 then swap_short (leVal [a, b]) else leVal [a, b])) = [a, b] := by
  by_cases hs : swap ≠ 0
  · rw [if_pos hs, if_pos hs, swap_short_swap_short _ (leVal_two_lt a b ha hb)]
    exact leBytes_leVal_two a b ha hb
  · rw [if_neg hs, if_neg hs]
    exact leBytes_leVal_two a b ha hb

theorem getD_of_bytesAt_two {X Y : List Nat} {pos : Nat}
    (h : bytesAt X pos 2 = bytesAt Y pos 2) :
    X.getD pos 0 = Y.getD pos 0 ∧ X.getD (pos + 1) 0 = Y.getD (pos + 1) 0 := by
  rw [bytesAt_two, bytesAt_two] at h
  simp only [List.cons.injEq, and_true] at h
  exact h

theorem colour_offsets_legacy {fmt j : Nat} (hf : fmt ≤ 5) (hj : j ∈ colour_offsets fmt) :
    fmt ∈ [2, 3, 5] ∧ colour_pos fmt ≤ j ∧ j < colour_pos fmt + 6 := by
  interval_cases fmt <;> simp [colour_offsets, colour_pos] at hj ⊢ <;> omega

theorem rgb_overlay_back (fa : FloatArith) (hd : LASheader) (swap : Nat) (B D : List Nat)
    (hf : hd.point_data_format ∈ [2, 3, 5])
    (hDl : D.length = 128) (hb : ∀ k, B.getD k 0 < 256) :
    ∀ j, colour_pos hd.point_data_format ≤ j → j < colour_pos hd.point_data_format + 6 →
      (put_rgb swap D (colour_pos hd.point_data_format) (decoded fa hd swap B)).1.getD j 0 =
        B.getD j 0 := by
  have hp : colour_pos hd.point_data_format + 6 ≤ D.length := by
    rw [hDl]
    simp only [List.mem_cons, List.mem_singleton, List.not_mem_nil, or_false] at hf
    rcases hf with h | h | h <;> rw [h] <;> decide
  have hf' : hd.point_data_format ∈ [2, 3, 5, 7, 8, 10] := by
    simp only [List.mem_cons, List.mem_singleton, List.not_mem_nil, or_false] at hf ⊢
    omega
  obtain ⟨v1, v2, v3⟩ := put_rgb_values swap D (colour_pos hd.point_data_format)
    (decoded fa hd swap B) hp
  obtain ⟨d1, d2, d3⟩ := decoded_rgb fa hd swap B hf'
  rw [d1, bytesAt_two B, colour_back swap _ _ (hb _) (hb _), ← bytesAt_two B] at v1
  rw [d2, bytesAt_two B, colour_back swap _ _ (hb _) (hb _), ← bytesAt_two B] at v2
  rw [d3, bytesAt_two B, colour_back swap _ _ (hb _) (hb _), ← bytesAt_two B] at v3
  obtain ⟨g0, g1⟩ := getD_of_bytesAt_two v1
  obtain ⟨g2, g3⟩ := getD_of_bytesAt_two v2
  obtain ⟨g4, g5⟩ := getD_of_bytesAt_two v3
  intro j h1 h2
  obtain ⟨t, rfl⟩ : ∃ t, j = colour_pos hd.point_data_format + t := ⟨j - colour_pos hd.point_data_format, by omega⟩
  have ht : t < 6 := by omega
  interval_cases t
  · exact g0
  · exact g1
  · exact g2
  · simpa only [Nat.add_assoc] using g3
  · simpa only [Nat.add_assoc] using g4
  · simpa only [Nat.add_assoc] using g5

theorem legacy_overlay_identity (fa : FloatArith) (hd : LASheader) (swap : Nat)
    (B data' : List Nat) (r' : SLAS_POINT_DATA)
    (hf : hd.point_data_format ≤ 5) (hL : B.length = 128) (hb : ∀ k, B.getD k 0 < 256)
    (hu : update_fields B hd.point_data_format swap (decoded fa hd swap B) = some (data', r')) :
    data' = B := by
  have hf' : ¬ hd.point_data_format > 5 := by omega
  obtain ⟨fl, fr⟩ := update_fields_frame hu
  obtain ⟨v15, v17, -, D, hDl, hD⟩ := update_fields_values hL hu
  apply list_ext_getD fl
  intro j
  by_cases hj : j ∈ modifiable_offsets hd.point_data_format
  · simp only [modifiable_offsets, hf', if_false, List.mem_append, List.mem_cons,
      List.mem_singleton, List.not_mem_nil, or_false] at hj
    rcases hj with (hj | hj) | hj
    · subst hj
      have e := update_cls_decoded fa hd
        (swap_fields swap hd.point_data_format
          (read_fields B hd.point_data_format SLAS_POINT_DATA.zero)) (B.getD 15 0) hf
        (by rw [(decoded_rets_cls hd swap B).2]; exact hb 15)
      rw [(decoded_rets_cls hd swap B).2] at e
      have v15' : update_cls hd.point_data_format (B.getD 15 0)
          (decode_fields fa hd (swap_fields swap hd.point_data_format
            (read_fields B hd.point_data_format SLAS_POINT_DATA.zero))) =
          some (data'.getD 15 0) := v15
      rw [e, Option.some.injEq] at v15'
      exact v15'.symm
    · subst hj
      rw [v17, decoded_user_data]
    · obtain ⟨c1, c2, c3⟩ := colour_offsets_legacy hf hj
      have c1' : hd.point_data_format ∈ [2, 3, 5, 7] := by
        simp only [List.mem_cons, List.mem_singleton, List.not_mem_nil, or_false] at c1 ⊢
        omega
      rw [hD, put_optional_rgb D _ swap _ c1']
      exact rgb_overlay_back fa hd swap B D c1 hDl hb j c2 c3
  · exact fr j hj

theorem no_fault_of_nil {fp : FILE} (hf : fp.faults = []) (hfd : fp.faultDefault = false) :
    fp.nextFault = false := by
  simp [FILE.nextFault, hf, hfd]

theorem fseeko64_no_fault (fp : FILE) (addr : Int) (hf : fp.faults = [])
    (hfd : fp.faultDefault = false) (ha : 0 ≤ addr) :
    (fseeko64 fp addr).1 = 0 ∧ (fseeko64 fp addr).2.faults = [] ∧
    (fseeko64 fp addr).2.faultDefault = false ∧ (fseeko64 fp addr).2.content = fp.content ∧
    (fseeko64 fp addr).2.pos = addr.toNat := by
  obtain ⟨c1, -, c3, c4⟩ := fseeko64_store fp addr
  rcases fseeko64_cases fp addr with ⟨-, hx, -⟩ | ⟨s1, -, -, s3⟩
  · rcases hx with hx | hx
    · rw [no_fault_of_nil hf hfd] at hx; exact absurd hx (by simp)
    · omega
  · refine ⟨s1, by rw [c3, hf]; rfl, by rw [c4, hfd], c1, by rw [s3]⟩

theorem fread_no_fault (fp : FILE) (data : List Nat) (size : Nat) (hf : fp.faults = [])
    (hfd : fp.faultDefault = false) (h0 : size ≠ 0) (hc : fp.pos + size ≤ fp.content.length) :
    (fread data size fp).1 = 1 ∧ (fread data size fp).2.2.faults = [] ∧
    (fread data size fp).2.2.faultDefault = false ∧
    (fread data size fp).2.2.content = fp.content := by
  obtain ⟨c1, -, c3, c4⟩ := fread_store data size fp
  rcases fread_cases data size fp with ⟨-, gx, -, -⟩ | ⟨g1, -, -, -, -, -⟩
  · rcases gx with gx | gx | gx
    · exact absurd gx h0
    · rw [no_fault_of_nil hf hfd] at gx; exact absurd gx (by simp)
    · omega
  · exact ⟨g1, by rw [c3, hf]; rfl, by rw [c4, hfd], c1⟩

theorem update_total (fp : FILE) (i : Nat) (hd : LASheader) (swap : Nat) (r : SLAS_POINT_DATA)
    (hb : out_of_bounds hd i = false) (ha : 0 ≤ record_addr hd i)
    (hl : hd.point_data_record_length ≤ 128) (h0 : hd.point_data_record_length ≠ 0)
    (hc : (record_addr hd i).toNat + hd.point_data_record_length ≤ fp.content.length)
    (hf : fp.faults = []) (hfd : fp.faultDefault = false)
    (hv : ¬ (hd.point_data_format ≤ 5 ∧ r.classification > 31)) :
    ∃ fp' r', slas_update_point_data fp i hd swap r = some (0, fp', r') := by
  obtain ⟨s1, s2, s3, s4, s5⟩ := fseeko64_no_fault fp (record_addr hd i) hf hfd ha
  have e1 : enc_seek1 fp hd i = fseeko64 fp (record_addr hd i) := rfl
  obtain ⟨g1, g2, g3, g4⟩ := fread_no_fault (fseeko64 fp (record_addr hd i)).2 zeroed_buffer
    hd.point_data_record_length s2 s3 h0 (by rw [s4, s5]; exact hc)
  have e2 : enc_read fp hd i = fread zeroed_buffer hd.point_data_record_length
      (fseeko64 fp (record_addr hd i)).2 := rfl
  obtain ⟨t1, t2, t3, -, -⟩ := fseeko64_no_fault _ (record_addr hd i) g2 g3 ha
  have e3 : enc_seek2 fp hd i = fseeko64 (fread zeroed_buffer hd.point_data_record_length
      (fseeko64 fp (record_addr hd i)).2).2.2 (record_addr hd i) := rfl
  have hw : ∀ data, (enc_write fp hd i data).1 = 1 := by
    intro data
    unfold enc_write
    rw [e3]
    rcases fwrite_cases data hd.point_data_record_length
      (fseeko64 (fread zeroed_buffer hd.point_data_record_length
        (fseeko64 fp (record_addr hd i)).2).2.2 (record_addr hd i)).2 with
      ⟨-, wx, -⟩ | ⟨w1, -, -, -⟩
    · rcases wx with wx | wx
      · exact absurd wx h0
      · rw [no_fault_of_nil t2 t3] at wx; exact absurd wx (by simp)
    · exact w1
  rw [update_unfold fp i hd swap r hl, e1, e2, e3]
  simp only [hb, Bool.false_eq_true, if_false, s1, lt_self_iff_false, g1, one_ne_zero, t1]
  cases hp : enc_fields fp hd i swap r with
  | none =>
    have := (update_fields_none_iff _ _ _ _).1 hp
    exact absurd this hv
  | some p =>
    simp only [hw p.1, one_ne_zero, if_false]
    exact ⟨_, _, rfl⟩

theorem read_faults {fa : FloatArith} {fp fp' : FILE} {i : Nat} {hd : LASheader} {swap : Nat}
    {r d : SLAS_POINT_DATA} {c : Int}
    (h : slas_read_point_data fa fp i hd swap r = some (c, fp', d))
    (hf : fp.faults = []) :
    fp'.faults = [] ∧ fp'.faultDefault = fp.faultDefault := by
  have s3 := (fseeko64_store fp (record_addr hd i)).2.2.1
  have s4 := (fseeko64_store fp (record_addr hd i)).2.2.2
  have g3 := (fread_store zeroed_buffer hd.point_data_record_length
    (fseeko64 fp (record_addr hd i)).2).2.2.1
  have g4 := (fread_store zeroed_buffer hd.point_data_record_length
    (fseeko64 fp (record_addr hd i)).2).2.2.2
  rw [hf] at s3
  rw [s3] at g3
  rw [s4] at g4
  unfold slas_read_point_data at h
  simp only [] at h
  split at h
  · simp only [Option.some.injEq, Prod.mk.injEq] at h
    rw [← h.2.1]; exact ⟨hf, rfl⟩
  split at h
  · simp only [Option.some.injEq, Prod.mk.injEq] at h
    rw [← h.2.1]; exact ⟨s3, s4⟩
  split at h
  · exact absurd h (by simp)
  split at h
  · simp only [Option.some.injEq, Prod.mk.injEq] at h
    rw [← h.2.1]; exact ⟨g3, g4⟩
  · simp only [Option.some.injEq, Prod.mk.injEq] at h
    rw [← h.2.1]; exact ⟨g3, g4⟩

theorem decoded_classification_le (fa : FloatArith) (hd : LASheader) (swap : Nat)
    (data : List Nat) (hf : hd.point_data_format ≤ 5) :
    (decoded fa hd swap data).classification ≤ 31 := by
  have hf' : ¬ hd.point_data_format > 5 := by omega
  rw [decoded_classification, if_neg hf']
  exact Nat.and_le_right

theorem legacy_roundtrip_content {fa : FloatArith} {fp fp1 fp2 : FILE} {i : Nat}
    {hd : LASheader} {swap : Nat} {r0 d r' : SLAS_POINT_DATA} {c : Int}
    (hfmt : hd.point_data_format ≤ 5) (hwf : fp.wf)
    (h1 : slas_read_point_data fa fp i hd swap r0 = some (0, fp1, d))
    (h2 : slas_update_point_data fp1 i hd swap d = some (c, fp2, r')) :
    c ≠ -4 ∧ fp2.content = fp.content := by
  obtain ⟨-, -, h128, -, hlen, hc1, hd1⟩ := read_ok h1
  have hn4 : c ≠ -4 := by
    intro hc
    subst hc
    have hcls := decoded_classification_le fa hd swap
      (record_buffer fp.content (record_addr hd i).toNat hd.point_data_record_length) hfmt
    rw [← hd1] at hcls
    rw [update_unfold fp1 i hd swap d h128] at h2
    split at h2
    · simp at h2
    split at h2
    · simp at h2
    split at h2
    · simp at h2
    cases hp : enc_fields fp1 hd i swap d with
    | none =>
      have := ((update_fields_none_iff _ _ _ _).1 hp).2
      omega
    | some p =>
      simp only [hp] at h2
      split at h2
      · simp at h2
      split at h2 <;> simp at h2
  refine ⟨hn4, ?_⟩
  by_cases hc : c = 0
  · subst hc
    obtain ⟨-, -, -, -, -, data', hu, hw⟩ := update_ok h2
    rw [hc1] at hu hw
    rw [hd1] at hu
    have hL := length_record_buffer fp.content (record_addr hd i).toNat
      hd.point_data_record_length hlen h128
    have hb : ∀ k, (record_buffer fp.content (record_addr hd i).toNat
        hd.point_data_record_length).getD k 0 < 256 := by
      intro k
      rw [buffer_byte k hlen]
      exact record_byte_lt fp hd i k hwf
    rw [hw, legacy_overlay_identity fa hd swap _ data' r' hfmt hL hb hu]
    exact written_buffer _ _ _ hlen h128
  · rw [update_failed_content h2 hc, hc1]

/-- C25. Legacy classification byte pack and unpack are mutually inverse: for
formats <= 5 and every byte `cls`, packing the classification and the three
flags that decode extracts from `cls` with the legacy rule of encode gives
back `cls`; for every classification <= 31 and flags in {0, 1}, decoding the
byte that encode builds returns that classification and those flags.
Consequently a decode followed by an encode of the unmodified record leaves
every byte of the store as it was, for every format 0-5 and either swap
setting: the encode never fails validation, and it returns 0 when no I/O call
fails. -/
theorem C25_legacy_pack_unpack (fa : FloatArith) (lasheader : LASheader) (swap : Nat)
    (hfmt : lasheader.point_data_format ≤ 5) :
    (∀ (s : ReadState) (b0 : Nat), s.cls < 256 →
      update_cls lasheader.point_data_format b0 (decode_fields fa lasheader s) = some s.cls) ∧
    (∀ (r : SLAS_POINT_DATA) (b0 : Nat), r.classification ≤ 31 → r.synthetic ≤ 1 →
      r.keypoint ≤ 1 → r.withheld ≤ 1 →
      ∃ c, update_cls lasheader.point_data_format b0 r = some c ∧
        ∀ s : ReadState, s.cls = c →
          (decode_fields fa lasheader s).classification = r.classification ∧
          (decode_fields fa lasheader s).synthetic = r.synthetic ∧
          (decode_fields fa lasheader s).keypoint = r.keypoint ∧
          (decode_fields fa lasheader s).withheld = r.withheld) ∧
    (∀ (fp fp1 fp2 : FILE) (recnum : Nat) (r0 d r' : SLAS_POINT_DATA) (c : Int), fp.wf →
      slas_read_point_data fa fp recnum lasheader swap r0 = some (0, fp1, d) →
      slas_update_point_data fp1 recnum lasheader swap d = some (c, fp2, r') →
      c ≠ -4 ∧ fp2.content = fp.content) ∧
    (∀ (fp fp1 : FILE) (recnum : Nat) (r0 d : SLAS_POINT_DATA),
      fp.faults = [] → fp.faultDefault = false →
      slas_read_point_data fa fp recnum lasheader swap r0 = some (0, fp1, d) →
      ∃ fp2 r', slas_update_point_data fp1 recnum lasheader swap d = some (0, fp2, r')) := by
  have hf' : ¬ lasheader.point_data_format > 5 := by omega
  refine ⟨fun s b0 hb => update_cls_decoded fa lasheader s b0 hfmt hb, ?_, ?_, ?_⟩
  · intro r b0 hc hs hk hw
    cases hu : update_cls lasheader.point_data_format b0 r with
    | none =>
      have := ((update_cls_none_iff _ _ _).1 hu).2
      omega
    | some c =>
      obtain ⟨-, u1, u2, u3, u4⟩ := update_cls_legacy hf' hu
      refine ⟨c, rfl, fun s hsc => ?_⟩
      simp only [decode_fields, hf', if_false, hsc]
      refine ⟨u1, ?_, ?_, ?_⟩
      · rw [u2]; split <;> omega
      · rw [u3]; split <;> omega
      · rw [u4]; split <;> omega
  · intro fp fp1 fp2 recnum r0 d r' c hwf h1 h2
    exact legacy_roundtrip_content hfmt hwf h1 h2
  · intro fp fp1 recnum r0 d hq hfd h1
    obtain ⟨hb, ha, h128, h0, hlen, hc1, hd1⟩ := read_ok h1
    obtain ⟨q1, q2⟩ := read_faults h1 hq
    refine update_total fp1 recnum lasheader swap d hb ha h128 h0 (by rw [hc1]; exact hlen)
      q1 (by rw [q2, hfd]) ?_
    intro hv
    have := decoded_classification_le fa lasheader swap
      (record_buffer fp.content (record_addr lasheader recnum).toNat
        lasheader.point_data_record_length) hfmt
    rw [← hd1] at this
    omega

/-- C25 (witness): record 1 of `legacy_file`, format 3, decoded with swap set
and encoded again unmodified: the store holds the same bytes. -/
theorem C25_witness :
    legacy_header.point_data_format ≤ 5 ∧ legacy_file.wf ∧
    slas_read_point_data rawArith legacy_file 1 legacy_header 1 SLAS_POINT_DATA.zero =
      some (0, legacy_after_read, legacy_decoded_swapped) ∧
    (slas_update_point_data legacy_after_read 1 legacy_header 1
      legacy_decoded_swapped).map (fun q => (q.1, q.2.1.content)) =
      some (0, legacy_file.content) ∧
    (∃ fp2 r', slas_update_point_data legacy_after_read 1 legacy_header 1
      legacy_decoded_swapped = some (0, fp2, r')) :=
  ⟨by decide, by decide, by decide, by decide,
   (C25_legacy_pack_unpack rawArith legacy_header 1 (by decide)).2.2.2 legacy_file
     legacy_after_read 1 SLAS_POINT_DATA.zero legacy_decoded_swapped rfl rfl (by decide)⟩

theorem mask_or_idem (b m y : Nat) : (((b &&& m) ||| y) &&& m) ||| y = (b &&& m) ||| y := by
  apply Nat.eq_of_testBit_eq
  intro i
  simp only [Nat.testBit_or, Nat.testBit_and]
  cases b.testBit i <;> cases m.testBit i <;> cases y.testBit i <;> rfl

theorem flag_bit_lt (p : Prop) [Decidable p] (v : Nat) (hv : v < 2 ^ 8) :
    (if p then v else 0) < 2 ^ 8 := by
  split <;> omega

theorem update_cls_idem {fmt b c : Nat} {r : SLAS_POINT_DATA} (hb : b < 256)
    (h : update_cls fmt b r = some c) : update_cls fmt c r = some c := by
  by_cases hf : fmt > 5
  · rw [update_cls_extended fmt b r hf hb, Option.some.injEq] at h
    have hc : c < 256 := by
      rw [← h]
      have h256 : (256 : Nat) = 2 ^ 8 := by norm_num
      rw [h256]
      exact Nat.or_lt_two_pow (Nat.or_lt_two_pow (Nat.or_lt_two_pow (Nat.or_lt_two_pow
        (Nat.and_lt_two_pow _ (by norm_num)) (flag_bit_lt _ _ (by norm_num)))
        (flag_bit_lt _ _ (by norm_num))) (flag_bit_lt _ _ (by norm_num)))
        (flag_bit_lt _ _ (by norm_num))
    rw [update_cls_extended fmt c r hf hc, Option.some.injEq]
    rw [← h]
    simp only [Nat.or_assoc]
    exact mask_or_idem _ _ _
  · unfold update_cls at h ⊢
    simp only [hf, if_false] at h ⊢
    exact h

theorem colour_offsets_mem {fmt j : Nat} (hj : j ∈ colour_offsets fmt) :
    (fmt ∈ [2, 3, 5, 7] ∧ colour_pos fmt ≤ j ∧ j < colour_pos fmt + 6) ∨
    (fmt ∈ [8, 10] ∧ 30 ≤ j ∧ j < 38) := by
  by_cases hk : 10 < fmt
  · unfold colour_offsets at hj
    split at hj <;> first | omega | simp at hj
  · have hle : fmt ≤ 10 := by omega
    interval_cases fmt <;> simp [colour_offsets, colour_pos] at hj ⊢ <;> omega

theorem overlay_same_values {B1 B2 d1 d2 : List Nat} {fmt swap : Nat}
    {r r1 r2 : SLAS_POINT_DATA} (h1 : B1.length = 128) (h2 : B2.length = 128)
    (hu1 : update_fields B1 fmt swap r = some (d1, r1))
    (hu2 : update_fields B2 fmt swap r = some (d2, r2)) :
    ∀ j, j ∈ modifiable_offsets fmt → j ≠ 15 → d1.getD j 0 = d2.getD j 0 := by
  obtain ⟨-, a17, a16, D1, hD1, e1⟩ := update_fields_values h1 hu1
  obtain ⟨-, b17, b16, D2, hD2, e2⟩ := update_fields_values h2 hu2
  intro j hj h15
  simp only [modifiable_offsets, List.mem_append] at hj
  rcases hj with hj | hj
  · by_cases hf : fmt > 5
    · simp only [hf, if_true, List.mem_cons, List.mem_singleton, List.not_mem_nil,
        or_false] at hj
      rcases hj with hj | hj | hj
      · exact absurd hj h15
      · subst hj; rw [a16 hf, b16 hf]
      · subst hj; rw [a17, b17]
    · simp only [hf, if_false, List.mem_cons, List.mem_singleton, List.not_mem_nil,
        or_false] at hj
      rcases hj with hj | hj
      · exact absurd hj h15
      · subst hj; rw [a17, b17]
  · rcases colour_offsets_mem hj with ⟨c1, c2, c3⟩ | ⟨c1, c2, c3⟩
    · have hp : colour_pos fmt + 6 ≤ 128 := by
        simp only [List.mem_cons, List.mem_singleton, List.not_mem_nil, or_false] at c1
        rcases c1 with h | h | h | h <;> rw [h] <;> decide
      rw [e1, e2, put_optional_rgb D1 fmt swap r c1, put_optional_rgb D2 fmt swap r c1]
      obtain ⟨v1, v2, v3⟩ := put_rgb_values swap D1 (colour_pos fmt) r (by omega)
      obtain ⟨w1, w2, w3⟩ := put_rgb_values swap D2 (colour_pos fmt) r (by omega)
      obtain ⟨g0, g1⟩ := getD_of_bytesAt_two (v1.trans w1.symm)
      obtain ⟨g2, g3⟩ := getD_of_bytesAt_two (v2.trans w2.symm)
      obtain ⟨g4, g5⟩ := getD_of_bytesAt_two (v3.trans w3.symm)
      obtain ⟨t, rfl⟩ : ∃ t, j = colour_pos fmt + t := ⟨j - colour_pos fmt, by omega⟩
      have ht : t < 6 := by omega
      interval_cases t
      · exact g0
      · exact g1
      · exact g2
      · simpa only [Nat.add_assoc] using g3
      · simpa only [Nat.add_assoc] using g4
      · simpa only [Nat.add_assoc] using g5
    · rw [e1, e2, put_optional_rgb_nir D1 fmt swap r c1, put_optional_rgb_nir D2 fmt swap r c1]
      obtain ⟨v1, v2, v3, v4⟩ := put_rgb_nir_values swap D1 30 r (by omega)
      obtain ⟨w1, w2, w3, w4⟩ := put_rgb_nir_values swap D2 30 r (by omega)
      obtain ⟨g0, g1⟩ := getD_of_bytesAt_two (v1.trans w1.symm)
      obtain ⟨g2, g3⟩ := getD_of_bytesAt_two (v2.trans w2.symm)
      obtain ⟨g4, g5⟩ := getD_of_bytesAt_two (v3.trans w3.symm)
      obtain ⟨g6, g7⟩ := getD_of_bytesAt_two (v4.trans w4.symm)
      obtain ⟨t, rfl⟩ : ∃ t, j = 30 + t := ⟨j - 30, by omega⟩
      have ht : t < 8 := by omega
      interval_cases t
      · exact g0
      · exact g1
      · exact g2
      · exact g3
      · exact g4
      · exact g5
      · exact g6
      · exact g7

theorem fwrite_faults (data : List Nat) (size : Nat) (fp : FILE) :
    (fwrite data size fp).2.faults = fp.faults.tail ∧
    (fwrite data size fp).2.faultDefault = fp.faultDefault := by
  rcases fwrite_cases data size fp with ⟨-, -, w⟩ | ⟨-, -, -, w⟩ <;> rw [w] <;> exact ⟨rfl, rfl⟩

theorem update_faults {fp fp' : FILE} {i : Nat} {hd : LASheader} {swap : Nat}
    {r r' : SLAS_POINT_DATA} {c : Int}
    (h : slas_update_point_data fp i hd swap r = some (c, fp', r'))
    (hf : fp.faults = []) :
    fp'.faults = [] ∧ fp'.faultDefault = fp.faultDefault := by
  have s3 : (enc_seek1 fp hd i).2.faults = [] := by
    unfold enc_seek1; rw [(fseeko64_store _ _).2.2.1, hf]; rfl
  have s4 : (enc_seek1 fp hd i).2.faultDefault = fp.faultDefault :=
    (fseeko64_store _ _).2.2.2
  have g3 : (enc_read fp hd i).2.2.faults = [] := by
    unfold enc_read; rw [(fread_store _ _ _).2.2.1, s3]; rfl
  have g4 : (enc_read fp hd i).2.2.faultDefault = fp.faultDefault := by
    unfold enc_read; rw [(fread_store _ _ _).2.2.2, s4]
  have t3 : (enc_seek2 fp hd i).2.faults = [] := by
    unfold enc_seek2; rw [(fseeko64_store _ _).2.2.1, g3]; rfl
  have t4 : (enc_seek2 fp hd i).2.faultDefault = fp.faultDefault := by
    unfold enc_seek2; rw [(fseeko64_store _ _).2.2.2, g4]
  have w3 : ∀ data, (enc_write fp hd i data).2.faults = [] := by
    intro data; unfold enc_write; rw [(fwrite_faults _ _ _).1, t3]; rfl
  have w4 : ∀ data, (enc_write fp hd i data).2.faultDefault = fp.faultDefault := by
    intro data; unfold enc_write; rw [(fwrite_faults _ _ _).2, t4]
  by_cases hlen : hd.point_data_record_length ≤ 128
  · rw [update_unfold fp i hd swap r hlen] at h
    split at h
    · simp only [Option.some.injEq, Prod.mk.injEq] at h; rw [← h.2.1]; exact ⟨hf, rfl⟩
    split at h
    · simp only [Option.some.injEq, Prod.mk.injEq] at h; rw [← h.2.1]; exact ⟨s3, s4⟩
    split at h
    · simp only [Option.some.injEq, Prod.mk.injEq] at h; rw [← h.2.1]; exact ⟨g3, g4⟩
    split at h
    · simp only [Option.some.injEq, Prod.mk.injEq] at h; rw [← h.2.1]; exact ⟨g3, g4⟩
    split at h
    · simp only [Option.some.injEq, Prod.mk.injEq] at h; rw [← h.2.1]; exact ⟨t3, t4⟩
    split at h
    · simp only [Option.some.injEq, Prod.mk.injEq] at h; rw [← h.2.1]; exact ⟨w3 _, w4 _⟩
    · simp only [Option.some.injEq, Prod.mk.injEq] at h; rw [← h.2.1]; exact ⟨w3 _, w4 _⟩
  · unfold slas_update_point_data at h
    have hl : hd.point_data_record_length > 128 := by omega
    simp only [hl, if_true] at h
    split at h
    · simp only [Option.some.injEq, Prod.mk.injEq] at h; rw [← h.2.1]; exact ⟨hf, rfl⟩
    split at h
    · simp only [Option.some.injEq, Prod.mk.injEq] at h
      rw [← h.2.1]; exact ⟨s3, s4⟩
    · exact absurd h (by simp)

theorem update_twice_content {fp fp1 fp2 : FILE} {i : Nat} {hd : LASheader} {swap : Nat}
    {r r1 r2 : SLAS_POINT_DATA} {c : Int} (hwf : fp.wf)
    (h1 : slas_update_point_data fp i hd swap r = some (0, fp1, r1))
    (h2 : slas_update_point_data fp1 i hd swap r = some (c, fp2, r2)) :
    fp2.content = fp1.content := by
  by_cases hc : c = 0
  · subst hc
    obtain ⟨-, -, h128, -, hlen, data1, hu1, hw1⟩ := update_ok h1
    obtain ⟨-, -, -, -, hlen1, data2, hu2, hw2⟩ := update_ok h2
    have hL := length_record_buffer fp.content (record_addr hd i).toNat
      hd.point_data_record_length hlen h128
    have hL1 := length_record_buffer fp1.content (record_addr hd i).toNat
      hd.point_data_record_length hlen1 h128
    obtain ⟨fl1, fr1⟩ := update_fields_frame hu1
    obtain ⟨fl2, fr2⟩ := update_fields_frame hu2
    rw [hL] at fl1
    rw [hL1] at fl2
    have hB1 : ∀ j, j < hd.point_data_record_length →
        (record_buffer fp1.content (record_addr hd i).toNat
          hd.point_data_record_length).getD j 0 = data1.getD j 0 := by
      intro j hj
      rw [getD_record_buffer _ _ _ _ hlen1, if_pos hj, hw1,
        getD_written _ _ _ _ _ hlen (by omega), if_pos (by omega), Nat.add_sub_cancel_left]
    have key : ∀ j, j < hd.point_data_record_length → data2.getD j 0 = data1.getD j 0 := by
      intro j hj
      by_cases hm : j ∈ modifiable_offsets hd.point_data_format
      · by_cases h15 : j = 15
        · subst h15
          have v1 := (update_fields_values hL hu1).1
          have v2 := (update_fields_values hL1 hu2).1
          rw [hB1 15 hj] at v2
          have hb : (record_buffer fp.content (record_addr hd i).toNat
              hd.point_data_record_length).getD 15 0 < 256 := by
            rw [buffer_byte 15 hlen]
            exact record_byte_lt fp hd i 15 hwf
          rw [update_cls_idem hb v1, Option.some.injEq] at v2
          exact v2.symm
        · exact overlay_same_values hL1 hL hu2 hu1 j hm h15
      · rw [fr2 j hm, hB1 j hj]
    rw [hw2]
    apply list_ext_getD
    · exact length_written _ _ _ _ hlen1 (by omega)
    · intro k
      rw [getD_written _ _ _ _ _ hlen1 (by omega)]
      by_cases hk : (record_addr hd i).toNat ≤ k ∧
          k < (record_addr hd i).toNat + hd.point_data_record_length
      · rw [if_pos hk, key _ (by omega), hw1, getD_written _ _ _ _ _ hlen (by omega),
          if_pos hk]
      · rw [if_neg hk]
  · exact update_failed_content h2 hc

/-- C27. Encode is idempotent on the store: for every format, swap setting,
in-range index i and record value r accepted by validation, once
`slas_update_point_data` has encoded r at i with result 0, encoding the same
field values at i again leaves every byte of the store as the first call left
it; the second call passes validation too, and returns 0 when no I/O call
fails. -/
theorem C27_encode_idempotent (fp fp1 fp2 : FILE) (recnum : Nat) (lasheader : LASheader)
    (swap : Nat) (record r1 r2 : SLAS_POINT_DATA) (c : Int)
    (hwf : fp.wf)
    (h1 : slas_update_point_data fp recnum lasheader swap record = some (0, fp1, r1))
    (h2 : slas_update_point_data fp1 recnum lasheader swap record = some (c, fp2, r2)) :
    fp2.content = fp1.content ∧ c ≠ -1 ∧ c ≠ -4 ∧
    (fp.faults = [] → fp.faultDefault = false → c = 0) := by
  obtain ⟨hb, ha, h128, h0, hlen, data1, hu1, hw1⟩ := update_ok h1
  have hv : ¬ (lasheader.point_data_format ≤ 5 ∧ record.classification > 31) := by
    intro hv
    have := (update_fields_none_iff (record_buffer fp.content
      (record_addr lasheader recnum).toNat lasheader.point_data_record_length)
      lasheader.point_data_format swap record).2 hv
    rw [hu1] at this
    exact absurd this (by simp)
  have hlen1 : (record_addr lasheader recnum).toNat + lasheader.point_data_record_length ≤
      fp1.content.length := by
    rw [(update_outside h1).1]; exact hlen
  have hcode : c ≠ -1 ∧ c ≠ -4 := by
    rw [update_unfold fp1 recnum lasheader swap record h128] at h2
    simp only [hb, Bool.false_eq_true, if_false] at h2
    split at h2
    · simp only [Option.some.injEq, Prod.mk.injEq] at h2; omega
    split at h2
    · simp only [Option.some.injEq, Prod.mk.injEq] at h2; omega
    cases hp : enc_fields fp1 lasheader recnum swap record with
    | none => exact absurd ((update_fields_none_iff _ _ _ _).1 hp) hv
    | some p =>
      simp only [hp] at h2
      split at h2
      · simp only [Option.some.injEq, Prod.mk.injEq] at h2; omega
      split at h2
      · simp only [Option.some.injEq, Prod.mk.injEq] at h2; omega
      · simp only [Option.some.injEq, Prod.mk.injEq] at h2; omega
  refine ⟨update_twice_content hwf h1 h2, hcode.1, hcode.2, fun hq hfd => ?_⟩
  obtain ⟨q1, q2⟩ := update_faults h1 hq
  obtain ⟨fp', r', ht⟩ := update_total fp1 recnum lasheader swap record hb ha h128 h0 hlen1
    q1 (by rw [q2, hfd]) hv
  rw [ht, Option.some.injEq, Prod.mk.injEq] at h2
  exact h2.1.symm

/-- C27 (witness): `ext_new_record` encoded twice with swap set at record 1 of
`ext_file`, format 8. -/
theorem C27_witness :
    ext_file.wf ∧
    slas_update_point_data ext_file 1 ext_header 1 ext_new_record =
      some (0, ext_after_update, swap_nir (swap_rgb ext_new_record)) ∧
    slas_update_point_data ext_after_update 1 ext_header 1 ext_new_record =
      some (0, ext_after_second_update, swap_nir (swap_rgb ext_new_record)) ∧
    ext_after_second_update.content = ext_after_update.content :=
  ⟨by decide, by decide, by decide,
   (C27_encode_idempotent ext_file ext_after_update ext_after_second_update 1 ext_header 1
     ext_new_record (swap_nir (swap_rgb ext_new_record)) (swap_nir (swap_rgb ext_new_record)) 0
     (by decide) (by decide) (by decide)).1⟩

theorem legacy_pack_withheld (b : Nat) (hb : b < 256) :
    (let cls := b &&& 0x1f
     let cls := if (b &&& 0x20) >>> 5 ≠ 0 then cls ||| 0x20 else cls &&& 0xdf
     let cls := if (b &&& 0x40) >>> 6 ≠ 0 then cls ||| 0x40 else cls &&& 0xbf
     cls ||| 0x80) = b ||| 0x80 := by
  interval_cases b <;> decide

theorem decoded_flags_extended (fa : FloatArith) (hd : LASheader) (swap : Nat)
    (data : List Nat) (hf : hd.point_data_format > 5) :
    (decoded fa hd swap data).overlap = 0 ∧ (decoded fa hd swap data).synthetic = 0 ∧
    (decoded fa hd swap data).keypoint = 0 := by
  have e : ∀ (c k : Nat), 4 ≤ k → ((c &&& 0x0f) &&& (1 <<< k)) >>> k = 0 := by
    intro c k hk
    apply Nat.eq_of_testBit_eq
    intro j
    simp only [Nat.testBit_shiftRight, Nat.testBit_and, Nat.zero_testBit]
    have : (0x0f : Nat).testBit (k + j) = false := by
      have h15 : (0x0f : Nat) = 2 ^ 4 - 1 := by norm_num
      rw [h15, Nat.testBit_two_pow_sub_one]
      simp; omega
    simp [this]
  simp only [decoded, decode_fields, hf, if_true]
  exact ⟨e _ 4 (by omega), e _ 5 (by omega), e _ 6 (by omega)⟩

theorem update_cls_marked (fa : FloatArith) (hd : LASheader) (swap : Nat) (B : List Nat)
    (hb : B.getD 15 0 < 256) :
    update_cls hd.point_data_format (B.getD 15 0)
      { decoded fa hd swap B with withheld := 1 } =
      some (marked_flags hd.point_data_format (B.getD 15 0)) := by
  by_cases hf : hd.point_data_format > 5
  · obtain ⟨z1, z2, z3⟩ := decoded_flags_extended fa hd swap B hf
    rw [update_cls_extended _ _ _ hf hb]
    simp only [z1, z2, z3, ne_eq, not_true_eq_false, if_false, one_ne_zero, not_false_eq_true,
      if_true, Nat.or_zero, marked_flags, hf]
  · have hc : ¬ (B.getD 15 0 &&& 0x1f) > 31 := by
      have : B.getD 15 0 &&& 0x1f ≤ 0x1f := Nat.and_le_right
      omega
    have hcls := (decoded_rets_cls hd swap B).2
    unfold update_cls
    simp only [decoded, decode_fields, hf, if_false, hcls, hc, ne_eq, one_ne_zero,
      not_false_eq_true, if_true, marked_flags]
    exact congrArg some (legacy_pack_withheld _ hb)

theorem colours_back (fa : FloatArith) (hd : LASheader) (swap : Nat) (B D : List Nat)
    (r : SLAS_POINT_DATA)
    (hr : r.red = (decoded fa hd swap B).red ∧ r.green = (decoded fa hd swap B).green ∧
      r.blue = (decoded fa hd swap B).blue ∧ r.NIR = (decoded fa hd swap B).NIR)
    (hDl : D.length = 128) (hb : ∀ k, B.getD k 0 < 256) :
    ∀ j, j ∈ colour_offsets hd.point_data_format →
      (put_optional D hd.point_data_format swap
        (if hd.point_data_format > 5 then 22 else 20) r).1.getD j 0 = B.getD j 0 := by
  intro j hj
  obtain ⟨r1, r2, r3, r4⟩ := hr
  rcases colour_offsets_mem hj with ⟨c1, c2, c3⟩ | ⟨c1, c2, c3⟩
  · have hp : colour_pos hd.point_data_format + 6 ≤ D.length := by
      rw [hDl]
      simp only [List.mem_cons, List.mem_singleton, List.not_mem_nil, or_false] at c1
      rcases c1 with h | h | h | h <;> rw [h] <;> decide
    have hf' : hd.point_data_format ∈ [2, 3, 5, 7, 8, 10] := by
      simp only [List.mem_cons, List.mem_singleton, List.not_mem_nil, or_false] at c1 ⊢
      omega
    rw [put_optional_rgb D _ swap r c1]
    obtain ⟨v1, v2, v3⟩ := put_rgb_values swap D (colour_pos hd.point_data_format) r hp
    obtain ⟨d1, d2, d3⟩ := decoded_rgb fa hd swap B hf'
    rw [r1, d1, bytesAt_two B, colour_back swap _ _ (hb _) (hb _), ← bytesAt_two B] at v1
    rw [r2, d2, bytesAt_two B, colour_back swap _ _ (hb _) (hb _), ← bytesAt_two B] at v2
    rw [r3, d3, bytesAt_two B, colour_back swap _ _ (hb _) (hb _), ← bytesAt_two B] at v3
    obtain ⟨g0, g1⟩ := getD_of_bytesAt_two v1
    obtain ⟨g2, g3⟩ := getD_of_bytesAt_two v2
    obtain ⟨g4, g5⟩ := getD_of_bytesAt_two v3
    obtain ⟨t, rfl⟩ : ∃ t, j = colour_pos hd.point_data_format + t :=
      ⟨j - colour_pos hd.point_data_format, by omega⟩
    have ht : t < 6 := by omega
    interval_cases t
    · exact g0
    · exact g1
    · exact g2
    · simpa only [Nat.add_assoc] using g3
    · simpa only [Nat.add_assoc] using g4
    · simpa only [Nat.add_assoc] using g5
  · have hf' : hd.point_data_format ∈ [2, 3, 5, 7, 8, 10] := by
      simp only [List.mem_cons, List.mem_singleton, List.not_mem_nil, or_false] at c1 ⊢
      omega
    have hcp : colour_pos hd.point_data_format = 30 := by
      simp only [List.mem_cons, List.mem_singleton, List.not_mem_nil, or_false] at c1
      rcases c1 with h | h <;> rw [h] <;> decide
    rw [put_optional_rgb_nir D _ swap r c1]
    obtain ⟨v1, v2, v3, v4⟩ := put_rgb_nir_values swap D 30 r (by omega)
    obtain ⟨d1, d2, d3⟩ := decoded_rgb fa hd swap B hf'
    have d4 := decoded_nir fa hd swap B c1
    rw [hcp] at d1 d2 d3
    rw [r1, d1, bytesAt_two B, colour_back swap _ _ (hb _) (hb _), ← bytesAt_two B] at v1
    rw [r2, d2, bytesAt_two B, colour_back swap _ _ (hb _) (hb _), ← bytesAt_two B] at v2
    rw [r3, d3, bytesAt_two B, colour_back swap _ _ (hb _) (hb _), ← bytesAt_two B] at v3
    rw [r4, d4, bytesAt_two B, colour_back swap _ _ (hb _) (hb _), ← bytesAt_two B] at v4
    obtain ⟨g0, g1⟩ := getD_of_bytesAt_two v1
    obtain ⟨g2, g3⟩ := getD_of_bytesAt_two v2
    obtain ⟨g4, g5⟩ := getD_of_bytesAt_two v3
    obtain ⟨g6, g7⟩ := getD_of_bytesAt_two v4
    obtain ⟨t, rfl⟩ : ∃ t, j = 30 + t := ⟨j - 30, by omega⟩
    have ht : t < 8 := by omega
    interval_cases t
    · exact g0
    · exact g1
    · exact g2
    · exact g3
    · exact g4
    · exact g5
    · exact g6
    · exact g7

theorem marked_overlay (fa : FloatArith) (hd : LASheader) (swap : Nat)
    (B data' : List Nat) (r' : SLAS_POINT_DATA)
    (hL : B.length = 128) (hb : ∀ k, B.getD k 0 < 256)
    (hu : update_fields B hd.point_data_format swap
      { decoded fa hd swap B with withheld := 1 } = some (data', r')) :
    data'.length = 128 ∧
    ∀ j, data'.getD j 0 =
      if j = 15 then marked_flags hd.point_data_format (B.getD 15 0) else B.getD j 0 := by
  obtain ⟨fl, fr⟩ := update_fields_frame hu
  obtain ⟨v15, v17, v16, D, hDl, hD⟩ := update_fields_values hL hu
  refine ⟨by rw [fl, hL], fun j => ?_⟩
  by_cases h15 : j = 15
  · subst h15
    rw [if_pos rfl]
    rw [update_cls_marked fa hd swap B (hb 15), Option.some.injEq] at v15
    exact v15.symm
  rw [if_neg h15]
  by_cases hj : j ∈ modifiable_offsets hd.point_data_format
  · simp only [modifiable_offsets, List.mem_append] at hj
    rcases hj with hj | hj
    · by_cases hf : hd.point_data_format > 5
      · simp only [hf, if_true, List.mem_cons, List.mem_singleton, List.not_mem_nil,
          or_false] at hj
        rcases hj with hj | hj | hj
        · exact absurd hj h15
        · subst hj
          rw [v16 hf]
          show (decoded fa hd swap B).classification = _
          rw [decoded_classification, if_pos hf]
        · subst hj
          rw [v17]
          exact decoded_user_data fa hd swap B
      · simp only [hf, if_false, List.mem_cons, List.mem_singleton, List.not_mem_nil,
          or_false] at hj
        rcases hj with hj | hj
        · exact absurd hj h15
        · subst hj
          rw [v17]
          exact decoded_user_data fa hd swap B
    · rw [hD]
      exact colours_back fa hd swap B D { decoded fa hd swap B with withheld := 1 }
        ⟨rfl, rfl, rfl, rfl⟩ hDl hb j hj
  · exact fr j hj

theorem wf_getD {fp : FILE} (h : fp.wf) (p : Nat) : fp.content.getD p 0 < 256 := by
  rw [List.getD_eq_getElem?_getD]
  cases hg : fp.content[p]? with
  | none => simp
  | some b =>
    simp only [Option.getD_some]
    exact h b (List.getElem?_mem hg)

theorem wf_of_getD {fp : FILE} (h : ∀ p, fp.content.getD p 0 < 256) : fp.wf := by
  intro b hb
  obtain ⟨n, hn, rfl⟩ := List.getElem_of_mem hb
  have := h n
  rw [List.getD_eq_getElem?_getD, List.getElem?_eq_getElem hn] at this
  simpa using this

theorem getElem?_of_getD {l1 l2 : List Nat} (hl : l1.length = l2.length) {p : Nat}
    (h : l1.getD p 0 = l2.getD p 0) : l1[p]? = l2[p]? := by
  by_cases hp : p < l1.length
  · have hp2 : p < l2.length := by omega
    rw [List.getD_eq_getElem?_getD, List.getD_eq_getElem?_getD, List.getElem?_eq_getElem hp,
      List.getElem?_eq_getElem hp2] at h
    simp only [Option.getD_some] at h
    rw [List.getElem?_eq_getElem hp, List.getElem?_eq_getElem hp2, h]
  · rw [List.getElem?_eq_none (by omega), List.getElem?_eq_none (by omega)]

theorem record_buffer_same (c1 c2 : List Nat) (a len : Nat) (hl : c2.length = c1.length)
    (h : ∀ k, k < len → c2.getD (a + k) 0 = c1.getD (a + k) 0) :
    record_buffer c2 a len = record_buffer c1 a len := by
  unfold record_buffer
  congr 1
  apply List.ext_getElem?
  intro n
  rw [List.getElem?_take, List.getElem?_take]
  by_cases hn : n < len
  · rw [if_pos hn, if_pos hn, List.getElem?_drop, List.getElem?_drop]
    exact getElem?_of_getD hl (h n hn)
  · rw [if_neg hn, if_neg hn]

theorem marked_flags_lt (fmt b : Nat) (hb : b < 256) : marked_flags fmt b < 256 := by
  have h256 : (256 : Nat) = 2 ^ 8 := by norm_num
  unfold marked_flags
  rw [h256] at hb ⊢
  split
  · exact Nat.or_lt_two_pow (Nat.and_lt_two_pow _ (by norm_num)) (by norm_num)
  · exact Nat.or_lt_two_pow hb (by norm_num)

theorem mark_step {fa : FloatArith} {fp fp1 fp2 : FILE} {i : Nat} {hd : LASheader}
    {swap : Nat} {r0 d r' : SLAS_POINT_DATA} (hwf : fp.wf)
    (h1 : slas_read_point_data fa fp i hd swap r0 = some (0, fp1, d))
    (h2 : slas_update_point_data fp1 i hd swap { d with withheld := 1 } = some (0, fp2, r')) :
    fp2.content.length = fp.content.length ∧
    (∀ p, fp2.content.getD p 0 =
      if p = (record_addr hd i).toNat + 15 ∧ 15 < hd.point_data_record_length then
        marked_flags hd.point_data_format (fp.content.getD p 0)
      else fp.content.getD p 0) ∧
    fp2.wf := by
  obtain ⟨-, -, h128, -, hlen, hc1, hd1⟩ := read_ok h1
  obtain ⟨-, -, -, -, -, data', hu, hw⟩ := update_ok h2
  rw [hc1] at hu hw
  rw [hd1] at hu
  have hL := length_record_buffer fp.content (record_addr hd i).toNat
    hd.point_data_record_length hlen h128
  have hb : ∀ k, (record_buffer fp.content (record_addr hd i).toNat
      hd.point_data_record_length).getD k 0 < 256 := by
    intro k
    rw [buffer_byte k hlen]
    exact record_byte_lt fp hd i k hwf
  obtain ⟨ml, mv⟩ := marked_overlay fa hd swap _ data' r' hL hb hu
  have hget : ∀ p, fp2.content.getD p 0 =
      if p = (record_addr hd i).toNat + 15 ∧ 15 < hd.point_data_record_length then
        marked_flags hd.point_data_format (fp.content.getD p 0)
      else fp.content.getD p 0 := by
    intro p
    rw [hw, getD_written _ _ _ _ _ hlen (by omega)]
    by_cases hp : (record_addr hd i).toNat ≤ p ∧
        p < (record_addr hd i).toNat + hd.point_data_record_length
    · rw [if_pos hp, mv, getD_record_buffer _ _ _ _ hlen, getD_record_buffer _ _ _ _ hlen]
      have e : (record_addr hd i).toNat + (p - (record_addr hd i).toNat) = p := by omega
      by_cases h15 : p - (record_addr hd i).toNat = 15
      · have hp15 : p = (record_addr hd i).toNat + 15 := by omega
        have hl15 : 15 < hd.point_data_record_length := by omega
        rw [if_pos h15, if_pos hl15, if_pos ⟨hp15, hl15⟩, hp15]
      · have hn : ¬ (p = (record_addr hd i).toNat + 15 ∧ 15 < hd.point_data_record_length) := by
          omega
        rw [if_neg h15, if_neg hn, if_pos (by omega), e]
    · have hn : ¬ (p = (record_addr hd i).toNat + 15 ∧ 15 < hd.point_data_record_length) := by
        omega
      rw [if_neg hp, if_neg hn]
  refine ⟨?_, hget, ?_⟩
  · rw [hw]; exact length_written _ _ _ _ hlen (by omega)
  · apply wf_of_getD
    intro p
    rw [hget p]
    split
    · exact marked_flags_lt _ _ (wf_getD hwf p)
    · exact wf_getD hwf p

theorem loop_effect (fa : FloatArith) (hd : LASheader) (endian : Nat) :
    ∀ (count i : Nat) (fp fp' : FILE) (slas slas' : SLAS_POINT_DATA), fp.wf →
      hd.offset_to_point_data + hd.point_data_record_length * (i + count) < 2 ^ 63 →
      las_zero_loop fa hd endian count i fp slas = some (0, fp', slas') →
      fp'.content.length = fp.content.length ∧
      (∀ j, i ≤ j → j < i + count → ∀ k, k < hd.point_data_record_length →
        fp'.content.getD (hd.offset_to_point_data + hd.point_data_record_length * j + k) 0 =
          if z_above_zero (record_z fa fp.content hd endian j) = true ∧ k = 15 then
            marked_flags hd.point_data_format
              (fp.content.getD
                (hd.offset_to_point_data + hd.point_data_record_length * j + k) 0)
          else
            fp.content.getD (hd.offset_to_point_data + hd.point_data_record_length * j + k) 0) ∧
      (∀ p, (p < hd.offset_to_point_data + hd.point_data_record_length * i ∨
          hd.offset_to_point_data + hd.point_data_record_length * (i + count) ≤ p) →
        fp'.content.getD p 0 = fp.content.getD p 0) := by
  intro count
  induction count with
  | zero =>
    intro i fp fp' slas slas' _ _ h
    simp only [las_zero_loop, Option.some.injEq, Prod.mk.injEq, true_and] at h
    rw [← h.1]
    exact ⟨rfl, fun j h1 h2 => by omega, fun _ _ => rfl⟩
  | succ n ih =>
    intro i fp fp' slas slas' hwf hno h
    have hmul : ∀ a b : Nat, a ≤ b →
        hd.point_data_record_length * a ≤ hd.point_data_record_length * b :=
      fun a b hab => Nat.mul_le_mul_left _ hab
    have hsucc : ∀ a : Nat, hd.point_data_record_length * (a + 1) =
        hd.point_data_record_length * a + hd.point_data_record_length :=
      fun a => Nat.mul_succ _ _
    have hend : i + (n + 1) = i + 1 + n := by omega
    have haddr : ∀ j, j ≤ i + (n + 1) → (record_addr hd j).toNat =
        hd.offset_to_point_data + hd.point_data_record_length * j := by
      intro j hj
      have := hmul j (i + (n + 1)) hj
      rw [record_addr_exact hd j (by omega), Int.toNat_ofNat]
    rw [las_zero_loop] at h
    cases hr : slas_read_point_data fa fp i hd endian slas with
    | none => rw [hr] at h; exact absurd h (by simp)
    | some q =>
      obtain ⟨rc, fp1, d⟩ := q
      rw [hr] at h
      simp only [] at h
      by_cases hrc : rc ≠ 0
      · rw [if_pos hrc] at h
        simp at h
      rw [if_neg hrc] at h
      have hrc0 : rc = 0 := by omega
      subst hrc0
      obtain ⟨-, -, -, -, -, hc1, hd1⟩ := read_ok hr
      have hz : d.z = record_z fa fp.content hd endian i := by
        rw [hd1]; rfl
      have key : ∀ (g : FILE) (s : SLAS_POINT_DATA),
          g.content.length = fp.content.length →
          (∀ p, g.content.getD p 0 =
            if z_above_zero d.z = true ∧ p = (record_addr hd i).toNat + 15 ∧
                15 < hd.point_data_record_length then
              marked_flags hd.point_data_format (fp.content.getD p 0)
            else fp.content.getD p 0) →
          g.wf →
          las_zero_loop fa hd endian n (i + 1) g s = some (0, fp', slas') →
          fp'.content.length = fp.content.length ∧
          (∀ j, i ≤ j → j < i + (n + 1) → ∀ k, k < hd.point_data_record_length →
            fp'.content.getD
                (hd.offset_to_point_data + hd.point_data_record_length * j + k) 0 =
              if z_above_zero (record_z fa fp.content hd endian j) = true ∧ k = 15 then
                marked_flags hd.point_data_format
                  (fp.content.getD
                    (hd.offset_to_point_data + hd.point_data_record_length * j + k) 0)
              else
                fp.content.getD
                  (hd.offset_to_point_data + hd.point_data_record_length * j + k) 0) ∧
          (∀ p, (p < hd.offset_to_point_data + hd.point_data_record_length * i ∨
              hd.offset_to_point_data + hd.point_data_record_length * (i + (n + 1)) ≤ p) →
            fp'.content.getD p 0 = fp.content.getD p 0) := by
        intro g s P1 P2 P3 hloop
        rw [haddr i (by omega)] at P2
        obtain ⟨L, R, O⟩ := ih (i + 1) g fp' s slas' P3 (by rw [← hend]; exact hno) hloop
        have hi1 := hsucc i
        have hlast := hmul (i + 1) (i + 1 + n) (by omega)
        rw [hend]
        refine ⟨L.trans P1, ?_, ?_⟩
        · intro j hj1 hj2 k hk
          by_cases hji : j = i
          · subst hji
            rw [O _ (Or.inl (by omega)), P2, hz]
            by_cases hk15 : k = 15
            · subst hk15
              by_cases hzz : z_above_zero (record_z fa fp.content hd endian j) = true
              · rw [if_pos ⟨hzz, rfl, hk⟩, if_pos ⟨hzz, rfl⟩]
              · rw [if_neg (fun hh => hzz hh.1), if_neg (fun hh => hzz hh.1)]
            · rw [if_neg (fun hh => hk15 (by omega)), if_neg (fun hh => hk15 hh.2)]
          · have hj : i + 1 ≤ j := by omega
            have hmj := hmul (i + 1) j hj
            have hgp : ∀ k', k' < hd.point_data_record_length →
                g.content.getD
                  (hd.offset_to_point_data + hd.point_data_record_length * j + k') 0 =
                fp.content.getD
                  (hd.offset_to_point_data + hd.point_data_record_length * j + k') 0 := by
              intro k' hk'
              rw [P2, if_neg (fun hh => by omega)]
            have hzj : record_z fa g.content hd endian j =
                record_z fa fp.content hd endian j := by
              unfold record_z
              rw [haddr j (by omega), record_buffer_same _ _ _ _ P1 hgp]
            rw [R j hj hj2 k hk, hzj, hgp k hk]
        · intro p hp
          have hmi := hmul i (i + 1) (by omega)
          rw [O p (by omega), P2, if_neg (fun hh => by omega)]
      by_cases hzz : z_above_zero d.z = true
      · rw [if_pos hzz] at h
        cases hu : slas_update_point_data fp1 i hd endian { d with withheld := 1 } with
        | none => rw [hu] at h; exact absurd h (by simp)
        | some q2 =>
          obtain ⟨rc2, fp2, r2⟩ := q2
          rw [hu] at h
          simp only [] at h
          by_cases hrc2 : rc2 ≠ 0
          · rw [if_pos hrc2] at h
            simp at h
          rw [if_neg hrc2] at h
          have hrc20 : rc2 = 0 := by omega
          subst hrc20
          obtain ⟨m1, m2, m3⟩ := mark_step hwf hr hu
          refine key fp2 r2 m1 (fun p => ?_) m3 h
          rw [m2 p]
          by_cases hc : p = (record_addr hd i).toNat + 15 ∧ 15 < hd.point_data_record_length
          · rw [if_pos hc, if_pos ⟨hzz, hc⟩]
          · rw [if_neg hc, if_neg (fun hh => hc hh.2)]
      · rw [if_neg hzz] at h
        refine key fp1 d (by rw [hc1]) (fun p => ?_) ?_ h
        · rw [if_neg (fun hh => hzz hh.1), hc1]
        · intro b hb
          rw [hc1] at hb
          exact hwf b hb

/-- C23. Driver effect: when the record loop of `las_zero` runs to its end on
a store of bytes, the records not wrapping the 63 bit address range, the store
keeps its length, every byte outside the records is as it was, and every byte
of every record i < number_of_point_records is as it was except the flags
byte at offset 15 of the records whose decoded z is above 0.0; a record whose
z is not above 0.0 is byte-for-byte unchanged.  For formats <= 5 that flags
byte becomes b OR 0x80: the withheld bit is set and every other bit is as it
was.  For formats > 5 it becomes (b AND 0xF0) OR 0x04: the withheld bit is
set, but the synthetic, keypoint and overlap bits 0x01, 0x02, 0x08 are
cleared, where the claim has every other bit as it was. -/
theorem C23_driver_effect (fa : FloatArith) (las_fp fp' : FILE) (lasheader : LASheader)
    (endian : Nat) (slas slas' : SLAS_POINT_DATA)
    (hwf : las_fp.wf)
    (hno : lasheader.offset_to_point_data +
      lasheader.point_data_record_length * lasheader.number_of_point_records < 2 ^ 63)
    (h : las_zero_records fa las_fp lasheader endian slas = some (0, fp', slas')) :
    fp'.content.length = las_fp.content.length ∧
    (∀ i, i < lasheader.number_of_point_records → ∀ k,
      k < lasheader.point_data_record_length →
      fp'.content.getD
          (lasheader.offset_to_point_data + lasheader.point_data_record_length * i + k) 0 =
        if z_above_zero (record_z fa las_fp.content lasheader endian i) = true ∧ k = 15 then
          marked_flags lasheader.point_data_format
            (las_fp.content.getD
              (lasheader.offset_to_point_data + lasheader.point_data_record_length * i + k) 0)
        else
          las_fp.content.getD
            (lasheader.offset_to_point_data + lasheader.point_data_record_length * i + k) 0) ∧
    (∀ p, (p < lasheader.offset_to_point_data ∨
        lasheader.offset_to_point_data +
          lasheader.point_data_record_length * lasheader.number_of_point_records ≤ p) →
      fp'.content.getD p 0 = las_fp.content.getD p 0) ∧
    (lasheader.point_data_format ≤ 5 →
      ∀ b, marked_flags lasheader.point_data_format b = b ||| 0x80) ∧
    (lasheader.point_data_format > 5 →
      ∀ b, marked_flags lasheader.point_data_format b = (b &&& 0xF0) ||| 0x04) := by
  unfold las_zero_records at h
  obtain ⟨L, R, O⟩ := loop_effect fa lasheader endian lasheader.number_of_point_records 0
    las_fp fp' slas slas' hwf (by rw [Nat.zero_add]; exact hno) h
  refine ⟨L, fun i hi k hk => R i (Nat.zero_le _) (by omega) k hk, fun p hp => O p ?_, ?_, ?_⟩
  · rw [Nat.mul_zero, Nat.add_zero, Nat.zero_add]
    exact hp
  · intro hf b
    have hf' : ¬ lasheader.point_data_format > 5 := by omega
    simp only [marked_flags, hf', if_false]
  · intro hf b
    simp only [marked_flags, hf, if_true]

/-- C23 (witness): the record loop on `zero_file`, two records of format 6.
Record 0 decodes with z = 5.0 and holds the flags byte 0x5B at offset 15 (store
offset 19); the loop runs to its end and leaves 0x54 there, not 0x5F. -/
theorem C23_witness :
    zero_file.wf ∧
    zero_header.point_data_format = 6 ∧
    las_zero_records unitArith zero_file zero_header 0 SLAS_POINT_DATA.zero =
      some (0, zero_after_run, zero_last_record) ∧
    record_z unitArith zero_file.content zero_header 0 0 = 0x40A00000 ∧
    z_above_zero (record_z unitArith zero_file.content zero_header 0 0) = true ∧
    zero_file.content.getD 19 0 = 0x5B ∧
    zero_after_run.content.getD 19 0 = 0x54 ∧
    zero_after_run.content.getD
        (zero_header.offset_to_point_data + zero_header.point_data_record_length * 0 + 15) 0 =
      (if z_above_zero (record_z unitArith zero_file.content zero_header 0 0) = true ∧
          (15 : Nat) = 15 then
        marked_flags zero_header.point_data_format
          (zero_file.content.getD
            (zero_header.offset_to_point_data + zero_header.point_data_record_length * 0 + 15)
            0)
      else
        zero_file.content.getD
          (zero_header.offset_to_point_data + zero_header.point_data_record_length * 0 + 15)
          0) :=
  ⟨by decide, by decide, by decide, by decide, by decide, by decide, by decide,
   (C23_driver_effect unitArith zero_file zero_after_run zero_header 0 SLAS_POINT_DATA.zero
     zero_last_record (by decide) (by decide) (by decide)).2.1 0 (by decide) 15 (by decide)⟩

end Slas
